import Mathlib

/-! HemeLB `NeighbouringDataManager`: halo-exchange coordination.

A shallow embedding of `Code/geometry/neighbouring/NeighbouringDataManager.cc`.
The manager's three data members (`neededSites`, `needsEachProcHasFromMe`,
`needsHaveBeenShared`) form the state; every member function is a pure function
on that state which also returns the list of fabric operations it queued on
`net`, in program order.
-/

namespace Hemelb

/-- Global (non-contiguous) site identifier, `site_t` in the source. -/
abbrev site_t := Int

/-- Rank of a worker, `proc_t` in the source. -/
abbrev proc_t := Int

/-- Modelled from the spec: the `RequiredSiteInformation` descriptor is declared in
a header that is not part of the sources; the registry accepts it as a vector of
per-field choices and never reads it. -/
structure RequiredSiteInformation where
  choices : List Bool
  deriving DecidableEq, Repr

/-- The queries the manager makes on `localLatticeData` and on
`net.GetCommunicator()`. Their implementations live outside the manager, so they
are parameters of the embedding. -/
structure Context where
  /-- The value of `net.GetCommunicator().GetSize()`: the number of workers `P`. -/
  GetSize : Nat
  /-- The query `localLatticeData.ProcProvidingSiteByGlobalNoncontiguousId`. -/
  ProcProvidingSiteByGlobalNoncontiguousId : site_t → proc_t
  /-- The query `localLatticeData.GetLocalContiguousIdFromGlobalNoncontiguousId`. -/
  GetLocalContiguousIdFromGlobalNoncontiguousId : site_t → site_t
  /-- The value of `localLatticeData.GetLatticeInfo().GetNumVectors()`. -/
  GetNumVectors : Nat

/-- The mutable data members of `NeighbouringDataManager`. -/
structure NeighbouringDataManager where
  neededSites : List site_t
  needsEachProcHasFromMe : List (List site_t)
  needsHaveBeenShared : Bool
  deriving DecidableEq, Repr

namespace NeighbouringDataManager

/-- The constructor: `needsEachProcHasFromMe(net.GetCommunicator().GetSize())`,
`needsHaveBeenShared(false)`, and a default-constructed (empty) `neededSites`. -/
def new (ctx : Context) : NeighbouringDataManager :=
  { neededSites := []
    needsEachProcHasFromMe := List.replicate ctx.GetSize []
    needsHaveBeenShared := false }

/-- Member `RegisterNeededSite`: `push_back` when `std::find` reaches `end()`, otherwise
the (empty) merge branch. The requirements are ignored. -/
def RegisterNeededSite (s : NeighbouringDataManager) (globalId : site_t)
    (_requirements : RequiredSiteInformation) : NeighbouringDataManager :=
  if globalId ∉ s.neededSites then
    { s with neededSites := s.neededSites ++ [globalId] }
  else
    s

/-- Member `ProcForSite`: delegates to the lattice data. -/
def ProcForSite (ctx : Context) (site : site_t) : proc_t :=
  ctx.ProcProvidingSiteByGlobalNoncontiguousId site

/-- A finite sequence of `RegisterNeededSite` calls, in call order. -/
def registerAll (s : NeighbouringDataManager)
    (calls : List (site_t × RequiredSiteInformation)) : NeighbouringDataManager :=
  calls.foldl (fun acc c => acc.RegisterNeededSite c.1 c.2) s

end NeighbouringDataManager

/-- The words of the specification for the need set: the sequence of registered ids
with every later duplicate erased (each id stays at its first occurrence). -/
def eraseLaterDuplicates : List site_t → List site_t
  | [] => []
  | g :: rest => g :: (eraseLaterDuplicates rest).filter (fun h => h ≠ g)

/-! ## Fabric operations -/

/-- The per-site attributes the manager moves between workers. -/
inductive Field
  | IntersectionData
  | OtherRawData
  | WallDistances
  | WallNormal
  | FOld
  deriving DecidableEq, Repr

/-- The memory a point-to-point request refers to: a field of
`neighbouringLatticeData.GetSite(globalId)` or of
`localLatticeData.GetSite(localContiguousId)`. -/
inductive Buffer
  | neighbouringSite (globalId : site_t) (field : Field)
  | localSite (localContiguousId : site_t) (field : Field)
  deriving DecidableEq, Repr

/-- One call on `net`, as the manager issues it. -/
inductive Op
  | RequestReceiveR (buffer : Buffer) (source : proc_t)
  | RequestReceive (buffer : Buffer) (count : Int) (source : proc_t)
  | RequestSendR (buffer : Buffer) (dest : proc_t)
  | RequestSend (buffer : Buffer) (count : Int) (dest : proc_t)
  | RequestAllToAllSend (counts : List Int)
  | RequestAllToAllReceive (size : Nat)
  | RequestSendV (payload : List site_t) (dest : proc_t)
  | RequestReceiveV (size : Nat) (source : proc_t)
  | Dispatch
  deriving DecidableEq, Repr

/-- The ways a call can leave defined behaviour. -/
inductive Fault
  /-- Use of `operator[]` outside the bounds of a vector. -/
  | IndexOutOfRange
  /-- Call of `resize` with a negative count. -/
  | LengthError
  /-- A message longer than the buffer queued for it. -/
  | Truncated
  deriving DecidableEq, Repr

/-- What the fabric writes into the receive buffers of `ShareNeeds` when its two
dispatches complete. -/
structure NegotiationInput where
  /-- Content of `countOfNeedsOnEachProcFromMe` after the all-to-all, by rank. -/
  countOfNeedsOnEachProcFromMe : Nat → Int
  /-- The message arriving for `RequestReceiveV(needsEachProcHasFromMe[other], other)`. -/
  needsFrom : Nat → List site_t

/-- The effect of `std::vector::resize(n)`: keep the first `n` entries, pad with zeros. -/
def resize (v : List site_t) (n : Nat) : List site_t :=
  v.take n ++ List.replicate (n - v.length) 0

namespace NeighbouringDataManager

/-- The four receives queued for one entry of `neededSites` by the static transfer. -/
def staticReceives (ctx : Context) (localNeed : site_t) : List Op :=
  let source := ProcForSite ctx localNeed
  [ Op.RequestReceiveR (Buffer.neighbouringSite localNeed Field.IntersectionData) source,
    Op.RequestReceiveR (Buffer.neighbouringSite localNeed Field.OtherRawData) source,
    Op.RequestReceive (Buffer.neighbouringSite localNeed Field.WallDistances)
      ((ctx.GetNumVectors : Int) - 1) source,
    Op.RequestReceiveR (Buffer.neighbouringSite localNeed Field.WallNormal) source ]

/-- The four sends queued for one entry of `needsEachProcHasFromMe[other]` by the
static transfer. -/
def staticSends (ctx : Context) (other : Nat) (needOnProcFromMe : site_t) : List Op :=
  let localContiguousId := ctx.GetLocalContiguousIdFromGlobalNoncontiguousId needOnProcFromMe
  [ Op.RequestSendR (Buffer.localSite localContiguousId Field.IntersectionData) other,
    Op.RequestSendR (Buffer.localSite localContiguousId Field.OtherRawData) other,
    Op.RequestSend (Buffer.localSite localContiguousId Field.WallDistances)
      ((ctx.GetNumVectors : Int) - 1) other,
    Op.RequestSendR (Buffer.localSite localContiguousId Field.WallNormal) other ]

/-- The receive loop of the static transfer (lines 53-62), over `neededSites`. -/
def staticReceiveLoop (ctx : Context) (neededSites : List site_t) : List Op :=
  neededSites.flatMap (staticReceives ctx)

/-- The send loop of the static transfer (lines 64-79), over
`other = 0 .. GetSize()-1` and the entries of `needsEachProcHasFromMe[other]`.
`needsEachProcHasFromMe` has `GetSize()` entries from the constructor on, so
`operator[]` is in bounds. -/
def staticSendLoop (ctx : Context) (needsEachProcHasFromMe : List (List site_t)) : List Op :=
  (List.range ctx.GetSize).flatMap (fun other =>
    (needsEachProcHasFromMe.getD other []).flatMap (staticSends ctx other))

/-- Member `TransferNonFieldDependentInformation`: the receive loop, the send loop, then
`net.Dispatch()`. No data member is written and `ShareNeeds` is not called. -/
def TransferNonFieldDependentInformation (ctx : Context) (s : NeighbouringDataManager) :
    NeighbouringDataManager × List Op :=
  (s,
    staticReceiveLoop ctx s.neededSites
      ++ staticSendLoop ctx s.needsEachProcHasFromMe
      ++ [Op.Dispatch])

/-- The table-building loop of `ShareNeeds` (lines 149-155): each needed site is
pushed onto the list of its owner and the owner's counter is incremented. Indexing
the two vectors with an owner outside `[0, GetSize())` is a fault. The `int`
counters are integers without wrap-around: a counter never exceeds
`neededSites.size()`. -/
def buildNeedsTable (ctx : Context) :
    List site_t → List (List site_t) × List Int → Except Fault (List (List site_t) × List Int)
  | [], acc => .ok acc
  | localNeed :: rest, (needsIHaveFromEachProc, countOfNeedsIHaveFromEachProc) =>
    if 0 ≤ ProcForSite ctx localNeed ∧ ProcForSite ctx localNeed < ctx.GetSize then
      buildNeedsTable ctx rest
        (needsIHaveFromEachProc.modify (fun l => l ++ [localNeed])
            (ProcForSite ctx localNeed).toNat,
          countOfNeedsIHaveFromEachProc.modify (fun c => c + 1)
            (ProcForSite ctx localNeed).toNat)
    else
      .error Fault.IndexOutOfRange

/-- The exchange loop of `ShareNeeds` (lines 164-178): for each rank, queue the send
of variable length, resize the receive list to the count obtained from the
all-to-all, and queue the receive of variable length into it. -/
def exchangeLoop (needsIHaveFromEachProc : List (List site_t))
    (countOfNeedsOnEachProcFromMe : Nat → Int) :
    List Nat → List (List site_t) × List Op → Except Fault (List (List site_t) × List Op)
  | [], acc => .ok acc
  | other :: rest, (needsEachProcHasFromMe, ops) =>
    if countOfNeedsOnEachProcFromMe other < 0 then
      .error Fault.LengthError
    else
      exchangeLoop needsIHaveFromEachProc countOfNeedsOnEachProcFromMe rest
        (needsEachProcHasFromMe.set other
            (resize (needsEachProcHasFromMe.getD other [])
              (countOfNeedsOnEachProcFromMe other).toNat),
          ops ++ [Op.RequestSendV (needsIHaveFromEachProc.getD other []) other,
                  Op.RequestReceiveV (countOfNeedsOnEachProcFromMe other).toNat other])

/-- Completion of the queued variable-length receives at the final dispatch of
`ShareNeeds`: the message from each rank overwrites the front of the list resized
for it; a message that does not fit is a fault. -/
def completeReceives (needsFrom : Nat → List site_t) :
    List Nat → List (List site_t) → Except Fault (List (List site_t))
  | [], needsEachProcHasFromMe => .ok needsEachProcHasFromMe
  | other :: rest, needsEachProcHasFromMe =>
    if (needsFrom other).length ≤ (needsEachProcHasFromMe.getD other []).length then
      completeReceives needsFrom rest
        (needsEachProcHasFromMe.set other
          (needsFrom other
            ++ (needsEachProcHasFromMe.getD other []).drop (needsFrom other).length))
    else
      .error Fault.Truncated

/-- Member `ShareNeeds`: return at once when the latch is set; otherwise build the
per-owner table, exchange the counts (all-to-all, dispatch), exchange the lists
(variable-length send and receive per rank, one dispatch) and set the latch. -/
def ShareNeeds (ctx : Context) (input : NegotiationInput) (s : NeighbouringDataManager) :
    Except Fault (NeighbouringDataManager × List Op) :=
  if s.needsHaveBeenShared then
    .ok (s, [])
  else
    match buildNeedsTable ctx s.neededSites
        (List.replicate ctx.GetSize [], List.replicate ctx.GetSize 0) with
    | .error e => .error e
    | .ok (needsIHaveFromEachProc, countOfNeedsIHaveFromEachProc) =>
      match exchangeLoop needsIHaveFromEachProc input.countOfNeedsOnEachProcFromMe
          (List.range ctx.GetSize)
          (s.needsEachProcHasFromMe,
            [Op.RequestAllToAllSend countOfNeedsIHaveFromEachProc,
             Op.RequestAllToAllReceive ctx.GetSize,
             Op.Dispatch]) with
      | .error e => .error e
      | .ok (resized, ops) =>
        match completeReceives input.needsFrom (List.range ctx.GetSize) resized with
        | .error e => .error e
        | .ok received =>
          .ok ({ s with needsEachProcHasFromMe := received, needsHaveBeenShared := true },
               ops ++ [Op.Dispatch])

/-- The receive queued for one entry of `neededSites` by `RequestComms`. -/
def fieldReceive (ctx : Context) (localNeed : site_t) : Op :=
  Op.RequestReceive (Buffer.neighbouringSite localNeed Field.FOld) ctx.GetNumVectors
    (ProcForSite ctx localNeed)

/-- The send queued for one entry of `needsEachProcHasFromMe[other]` by
`RequestComms`. -/
def fieldSend (ctx : Context) (other : Nat) (needOnProcFromMe : site_t) : Op :=
  Op.RequestSend
    (Buffer.localSite (ctx.GetLocalContiguousIdFromGlobalNoncontiguousId needOnProcFromMe)
      Field.FOld)
    ctx.GetNumVectors other

/-- The receive loop of `RequestComms` (lines 105-112), over `neededSites`. -/
def fieldReceiveLoop (ctx : Context) (neededSites : List site_t) : List Op :=
  neededSites.map (fieldReceive ctx)

/-- The send loop of `RequestComms` (lines 115-137), over every rank and the entries
of `needsEachProcHasFromMe[other]`. -/
def fieldSendLoop (ctx : Context) (needsEachProcHasFromMe : List (List site_t)) : List Op :=
  (List.range ctx.GetSize).flatMap (fun other =>
    (needsEachProcHasFromMe.getD other []).map (fieldSend ctx other))

/-- Member `RequestComms`: `ShareNeeds` when the latch is clear, then the receive loop and
the send loop. -/
def RequestComms (ctx : Context) (input : NegotiationInput) (s : NeighbouringDataManager) :
    Except Fault (NeighbouringDataManager × List Op) :=
  match (if s.needsHaveBeenShared = false then ShareNeeds ctx input s else .ok (s, [])) with
  | .error e => .error e
  | .ok (s1, shareOps) =>
    .ok (s1,
      shareOps
        ++ fieldReceiveLoop ctx s1.neededSites
        ++ fieldSendLoop ctx s1.needsEachProcHasFromMe)

/-- Member `TransferFieldDependentInformation`: `RequestComms()` then `net.Dispatch()`. -/
def TransferFieldDependentInformation (ctx : Context) (input : NegotiationInput)
    (s : NeighbouringDataManager) : Except Fault (NeighbouringDataManager × List Op) :=
  match RequestComms ctx input s with
  | .error e => .error e
  | .ok (s1, ops) => .ok (s1, ops ++ [Op.Dispatch])

end NeighbouringDataManager

/-! ## Sequences of calls on one manager -/

/-- Sequencing of two calls: the second runs on the state the first leaves, and the
operation logs are concatenated. -/
def andThen (first : Except Fault (NeighbouringDataManager × List Op))
    (second : NeighbouringDataManager → Except Fault (NeighbouringDataManager × List Op)) :
    Except Fault (NeighbouringDataManager × List Op) :=
  match first with
  | .error e => .error e
  | .ok (s1, ops1) =>
    match second s1 with
    | .error e => .error e
    | .ok (s2, ops2) => .ok (s2, ops1 ++ ops2)

/-- A call on the public interface of the manager, with the data the fabric will
deliver should the call negotiate. -/
inductive Call
  | RegisterNeededSite (globalId : site_t) (requirements : RequiredSiteInformation)
  | ShareNeeds (input : NegotiationInput)
  | TransferNonFieldDependentInformation
  | TransferFieldDependentInformation (input : NegotiationInput)

/-- One call: the state it leaves and the operations it queues. -/
def Call.apply (ctx : Context) (s : NeighbouringDataManager) :
    Call → Except Fault (NeighbouringDataManager × List Op)
  | .RegisterNeededSite globalId requirements =>
    .ok (s.RegisterNeededSite globalId requirements, [])
  | .ShareNeeds input => NeighbouringDataManager.ShareNeeds ctx input s
  | .TransferNonFieldDependentInformation =>
    .ok (NeighbouringDataManager.TransferNonFieldDependentInformation ctx s)
  | .TransferFieldDependentInformation input =>
    NeighbouringDataManager.TransferFieldDependentInformation ctx input s

/-- A sequence of calls, in order, from state `s`. -/
def runCalls (ctx : Context) : List Call → NeighbouringDataManager →
    Except Fault (NeighbouringDataManager × List Op)
  | [], s => .ok (s, [])
  | call :: rest, s => andThen (call.apply ctx s) (runCalls ctx rest)

/-- The operations only `ShareNeeds` queues: the all-to-all pair and the sends and
receives of variable length. -/
def Op.isNegotiation : Op → Bool
  | .RequestAllToAllSend _ => true
  | .RequestAllToAllReceive _ => true
  | .RequestSendV _ _ => true
  | .RequestReceiveV _ _ => true
  | _ => false

/-- Point-to-point receives of fixed length. -/
def Op.isReceive : Op → Bool
  | .RequestReceiveR _ _ => true
  | .RequestReceive _ _ _ => true
  | _ => false

/-- Point-to-point sends of fixed length. -/
def Op.isSend : Op → Bool
  | .RequestSendR _ _ => true
  | .RequestSend _ _ _ => true
  | _ => false

/-- The peer rank named by a point-to-point request. -/
def Op.peer : Op → Option proc_t
  | .RequestReceiveR _ source => some source
  | .RequestReceive _ _ source => some source
  | .RequestSendR _ dest => some dest
  | .RequestSend _ _ dest => some dest
  | _ => none

/-- The memory named by a point-to-point request. -/
def Op.buffer : Op → Option Buffer
  | .RequestReceiveR buffer _ => some buffer
  | .RequestReceive buffer _ _ => some buffer
  | .RequestSendR buffer _ => some buffer
  | .RequestSend buffer _ _ => some buffer
  | _ => none

/-- The receives a log queues with the given source, in queue order. -/
def receivesFrom (log : List Op) (source : proc_t) : List Op :=
  log.filter (fun op => op.isReceive && decide (op.peer = some source))

/-- The sends a log queues with the given destination, in queue order. -/
def sendsTo (log : List Op) (dest : proc_t) : List Op :=
  log.filter (fun op => op.isSend && decide (op.peer = some dest))

/-- The send that answers a receive: the same field and count, read from the sender's
local copy of the site and addressed to the receiver. -/
def Op.answer (localId : site_t → site_t) (dest : proc_t) : Op → Op
  | .RequestReceiveR (.neighbouringSite globalId field) _ =>
    .RequestSendR (.localSite (localId globalId) field) dest
  | .RequestReceive (.neighbouringSite globalId field) count _ =>
    .RequestSend (.localSite (localId globalId) field) count dest
  | op => op

/-! ## Several workers on one partition -/

/-- The static partition every worker agrees on: the number of workers, the owner of
each site, each rank's global-to-local index, and the lattice size. -/
structure Cluster where
  P : Nat
  owner : site_t → proc_t
  localId : Nat → site_t → site_t
  numVectors : Nat

/-- The context the manager of worker `rank` is constructed with. -/
def Cluster.ctx (c : Cluster) (rank : Nat) : Context :=
  { GetSize := c.P
    ProcProvidingSiteByGlobalNoncontiguousId := c.owner
    GetLocalContiguousIdFromGlobalNoncontiguousId := c.localId rank
    GetNumVectors := c.numVectors }

/-- The faithful fabric of the negotiation: the all-to-all delivers worker `A`'s count
for `B` to `B`, and a send of variable length from `A` to `B` is delivered into the
receive of variable length `B` queued for `A`. -/
def FaithfulNegotiation (P : Nat) (logs : Nat → List Op) (inputs : Nat → NegotiationInput) :
    Prop :=
  ∀ A B, A < P → B < P →
    (∀ counts, Op.RequestAllToAllSend counts ∈ logs A →
        counts[B]? = some ((inputs B).countOfNeedsOnEachProcFromMe A))
      ∧ (∀ payload, Op.RequestSendV payload (B : Int) ∈ logs A →
          (inputs B).needsFrom A = payload)

/-- Every worker runs `ShareNeeds` from state `before` to state `after`, queueing
`logs`, over a faithful fabric delivering `inputs`. -/
def NegotiationRun (c : Cluster) (before : Nat → NeighbouringDataManager)
    (inputs : Nat → NegotiationInput) (after : Nat → NeighbouringDataManager)
    (logs : Nat → List Op) : Prop :=
  (∀ B, B < c.P →
      NeighbouringDataManager.ShareNeeds (c.ctx B) (inputs B) (before B)
        = .ok (after B, logs B))
    ∧ FaithfulNegotiation c.P logs inputs

/-- Raw content of one field of one site. -/
abbrev Blob := List Int

/-- A lattice store: the content of every field of every site it indexes. -/
abbrev Store := site_t → Field → Blob

/-- One worker: its manager, its own sites (by local contiguous id) and its mirror
of remote sites (by global id). -/
structure Worker where
  manager : NeighbouringDataManager
  localLatticeData : Store
  neighbouringLatticeData : Store

/-- Content of a buffer. -/
def Worker.read (w : Worker) : Buffer → Blob
  | .neighbouringSite globalId field => w.neighbouringLatticeData globalId field
  | .localSite localContiguousId field => w.localLatticeData localContiguousId field

/-- Overwrite a buffer. -/
def Worker.write (w : Worker) (buffer : Buffer) (v : Blob) : Worker :=
  match buffer with
  | .neighbouringSite globalId field =>
    { w with neighbouringLatticeData := fun g f =>
        if g = globalId ∧ f = field then v else w.neighbouringLatticeData g f }
  | .localSite localContiguousId field =>
    { w with localLatticeData := fun l f =>
        if l = localContiguousId ∧ f = field then v else w.localLatticeData l f }

/-- The fabric's pairing for a dispatch: the k-th receive worker `A` queued with
source `B` goes with the k-th send worker `B` queued with destination `A`. -/
def matched (logs : Nat → List Op) (A B : Nat) : List (Op × Op) :=
  List.zip (receivesFrom (logs A) (B : Int)) (sendsTo (logs B) (A : Int))

/-- What arrives at worker `A`: for each matched pair, the receive buffer and the
content of the sender's send buffer. -/
def arrivals (P : Nat) (ws : Nat → Worker) (logs : Nat → List Op) (A : Nat) :
    List (Buffer × Blob) :=
  (List.range P).flatMap (fun B : Nat =>
    (matched logs A B).filterMap (fun pair =>
      match pair.1.buffer, pair.2.buffer with
      | some receiveBuffer, some sendBuffer => some (receiveBuffer, (ws B).read sendBuffer)
      | _, _ => none))

/-- Completion of worker `A`'s dispatch: it completes when each of its receives has
a matching send and each send addressed to it a matching receive; every arrival is
then written into its receive buffer. -/
def completeDispatch (P : Nat) (ws : Nat → Worker) (logs : Nat → List Op) (A : Nat) :
    Option Worker :=
  if ∀ B, B < P →
      (receivesFrom (logs A) (B : Int)).length = (sendsTo (logs B) (A : Int)).length then
    some ((arrivals P ws logs A).foldl (fun w arrival => w.write arrival.1 arrival.2) (ws A))
  else
    none

/-- Every worker runs `TransferNonFieldDependentInformation`; the result is worker
`A` after its dispatch has completed. -/
def staticTransfer (c : Cluster) (ws : Nat → Worker) (A : Nat) : Option Worker :=
  completeDispatch c.P ws
    (fun w => (NeighbouringDataManager.TransferNonFieldDependentInformation (c.ctx w)
      (ws w).manager).2) A

/-- The four components moved by the static transfer, in queue order. -/
def staticFields : List Field :=
  [Field.IntersectionData, Field.OtherRawData, Field.WallDistances, Field.WallNormal]

/-- What worker `B`'s four static sends for site `g` carry, each with the mirror
buffer of `g` it is due to: the components of `B`'s local site for `g`. -/
def staticPayload (c : Cluster) (ws : Nat → Worker) (B : Nat) (g : site_t) :
    List (Buffer × Blob) :=
  staticFields.map (fun f =>
    (Buffer.neighbouringSite g f, (ws B).localLatticeData (c.localId B g) f))

/-! ## The two-worker scenario of the specification -/

/-- Two workers; sites below 50 belong to worker 0, the others to worker 1. -/
def scenario : Cluster :=
  { P := 2
    owner := fun g => if g < 50 then 0 else 1
    localId := fun _ g => g % 50
    numVectors := 15 }

/-- Worker 0 needs site 100, worker 1 needs site 5; nothing is shared yet. -/
def scenarioBefore (rank : Nat) : NeighbouringDataManager :=
  (NeighbouringDataManager.new (scenario.ctx rank)).RegisterNeededSite
    (if rank = 0 then 100 else 5) ⟨[]⟩

/-- What a faithful fabric delivers in the scenario: each worker is told of one need
by its peer and of none by itself. -/
def scenarioInput (rank : Nat) : NegotiationInput :=
  { countOfNeedsOnEachProcFromMe := fun w => if w = rank then 0 else 1
    needsFrom := fun w => if w = rank then [] else if rank = 0 then [5] else [100] }

/-- The managers after the negotiation of the scenario. -/
def scenarioAfter (rank : Nat) : NeighbouringDataManager :=
  if rank = 0 then
    { neededSites := [100], needsEachProcHasFromMe := [[], [5]], needsHaveBeenShared := true }
  else
    { neededSites := [5], needsEachProcHasFromMe := [[100], []], needsHaveBeenShared := true }

/-- The operations each worker queues during the negotiation of the scenario. -/
def scenarioLog (rank : Nat) : List Op :=
  if rank = 0 then
    [ Op.RequestAllToAllSend [0, 1], Op.RequestAllToAllReceive 2, Op.Dispatch,
      Op.RequestSendV [] 0, Op.RequestReceiveV 0 0,
      Op.RequestSendV [100] 1, Op.RequestReceiveV 1 1, Op.Dispatch ]
  else
    [ Op.RequestAllToAllSend [1, 0], Op.RequestAllToAllReceive 2, Op.Dispatch,
      Op.RequestSendV [5] 0, Op.RequestReceiveV 1 0,
      Op.RequestSendV [] 1, Op.RequestReceiveV 0 1, Op.Dispatch ]

/-- The workers of the scenario after negotiation: every field of local site `l` of
worker `rank` holds the two numbers `[rank, l]`, and nothing is mirrored yet. -/
def scenarioWorker (rank : Nat) : Worker :=
  { manager := scenarioAfter rank
    localLatticeData := fun l _ => [(rank : Int), l]
    neighbouringLatticeData := fun _ _ => [] }

/-! ## Further definitions for the claims on one manager -/

/-- Member `ProcForSite` as a call on the manager: the value returned, the state the
call leaves and the operations it queues. The body only reads `localLatticeData`. -/
def NeighbouringDataManager.ProcForSiteCall (ctx : Context) (s : NeighbouringDataManager)
    (site : site_t) : proc_t × NeighbouringDataManager × List Op :=
  (NeighbouringDataManager.ProcForSite ctx site, s, [])

/-- A fabric input for a worker nobody needs anything from: every count is zero and
every list is empty. -/
def quietInput : NegotiationInput :=
  { countOfNeedsOnEachProcFromMe := fun _ => 0
    needsFrom := fun _ => [] }

/-- What the fabric delivers to worker 0 of the scenario partition when worker 0
needs nothing and worker 1 needs site 5. -/
def servingInput : NegotiationInput :=
  { countOfNeedsOnEachProcFromMe := fun w => if w = 1 then 1 else 0
    needsFrom := fun w => if w = 1 then [5] else [] }

/-- Worker 0 after that negotiation: it needs nothing and owes site 5 to worker 1. -/
def servingOnly : NeighbouringDataManager :=
  { neededSites := [], needsEachProcHasFromMe := [[], [5]], needsHaveBeenShared := true }

/-- The all-to-all send that opens the exchange of `ShareNeeds`. -/
def Op.isAllToAllSend : Op → Bool
  | .RequestAllToAllSend _ => true
  | _ => false

/-- A run of worker 0 of the scenario: the dynamic transfer first (it negotiates),
then a registration of site 101, a `ShareNeeds` call and the static transfer. -/
def scenarioCalls : List Call :=
  [ Call.TransferFieldDependentInformation (scenarioInput 0),
    Call.RegisterNeededSite 101 ⟨[]⟩,
    Call.ShareNeeds (scenarioInput 0),
    Call.TransferNonFieldDependentInformation ]

/-- The state worker 0 reaches by `scenarioCalls`. -/
def scenarioFinal : NeighbouringDataManager :=
  { neededSites := [100, 101], needsEachProcHasFromMe := [[], [5]],
    needsHaveBeenShared := true }

/-- The operations worker 0 queues during `scenarioCalls`. -/
def scenarioCallsLog : List Op :=
  [ Op.RequestAllToAllSend [0, 1], Op.RequestAllToAllReceive 2, Op.Dispatch,
    Op.RequestSendV [] 0, Op.RequestReceiveV 0 0,
    Op.RequestSendV [100] 1, Op.RequestReceiveV 1 1, Op.Dispatch,
    Op.RequestReceive (Buffer.neighbouringSite 100 Field.FOld) 15 1,
    Op.RequestSend (Buffer.localSite 5 Field.FOld) 15 1,
    Op.Dispatch,
    Op.RequestReceiveR (Buffer.neighbouringSite 100 Field.IntersectionData) 1,
    Op.RequestReceiveR (Buffer.neighbouringSite 100 Field.OtherRawData) 1,
    Op.RequestReceive (Buffer.neighbouringSite 100 Field.WallDistances) 14 1,
    Op.RequestReceiveR (Buffer.neighbouringSite 100 Field.WallNormal) 1,
    Op.RequestReceiveR (Buffer.neighbouringSite 101 Field.IntersectionData) 1,
    Op.RequestReceiveR (Buffer.neighbouringSite 101 Field.OtherRawData) 1,
    Op.RequestReceive (Buffer.neighbouringSite 101 Field.WallDistances) 14 1,
    Op.RequestReceiveR (Buffer.neighbouringSite 101 Field.WallNormal) 1,
    Op.RequestSendR (Buffer.localSite 5 Field.IntersectionData) 1,
    Op.RequestSendR (Buffer.localSite 5 Field.OtherRawData) 1,
    Op.RequestSend (Buffer.localSite 5 Field.WallDistances) 14 1,
    Op.RequestSendR (Buffer.localSite 5 Field.WallNormal) 1,
    Op.Dispatch ]

/-- A context of two workers whose partition directory names rank 2 as the owner of
the sites from 200 on: a rank outside `[0, 2)`. -/
def strayContext : Context :=
  { GetSize := 2
    ProcProvidingSiteByGlobalNoncontiguousId :=
      fun g => if g < 50 then 0 else if g < 200 then 1 else 2
    GetLocalContiguousIdFromGlobalNoncontiguousId := fun g => g % 50
    GetNumVectors := 15 }

/-- What a faithful fabric delivers to worker 0 of the scenario partition when its
only need is site 5, which it owns itself: its own list comes back to it. -/
def selfInput : NegotiationInput :=
  { countOfNeedsOnEachProcFromMe := fun w => if w = 0 then 1 else 0
    needsFrom := fun w => if w = 0 then [5] else [] }

/-- Worker 0 of the scenario partition after negotiating its single need, site 5,
which it owns itself: the site is in both its need set and its own entry of the
table. -/
def selfServing : NeighbouringDataManager :=
  { neededSites := [5], needsEachProcHasFromMe := [[5], []], needsHaveBeenShared := true }

/-! ## Preconditions of the negotiation -/

/-- The worker-id range precondition: every needed site is owned by a rank in
`[0, GetSize())`. -/
def OwnersInRange (ctx : Context) (neededSites : List site_t) : Prop :=
  ∀ g ∈ neededSites,
    0 ≤ NeighbouringDataManager.ProcForSite ctx g
      ∧ NeighbouringDataManager.ProcForSite ctx g < ctx.GetSize

instance (ctx : Context) (neededSites : List site_t) :
    Decidable (OwnersInRange ctx neededSites) := by
  unfold OwnersInRange; infer_instance

/-- The fabric delivers usable data: no count is negative and the list arriving from
each rank is no longer than the count announced by that rank. -/
def InputFits (ctx : Context) (input : NegotiationInput) : Prop :=
  ∀ w, w < ctx.GetSize →
    0 ≤ input.countOfNeedsOnEachProcFromMe w
      ∧ (input.needsFrom w).length ≤ (input.countOfNeedsOnEachProcFromMe w).toNat

instance (ctx : Context) (input : NegotiationInput) : Decidable (InputFits ctx input) := by
  unfold InputFits; infer_instance

/-! # Theorems -/

open NeighbouringDataManager

/-! ## Need registry -/

theorem mem_eraseLaterDuplicates (ids : List site_t) (g : site_t) :
    g ∈ eraseLaterDuplicates ids ↔ g ∈ ids := by
  induction ids with
  | nil => simp [eraseLaterDuplicates]
  | cons x rest ih =>
    simp only [eraseLaterDuplicates, List.mem_cons, List.mem_filter, ih]
    by_cases hgx : g = x
    · simp [hgx]
    · simp [hgx]

theorem eraseLaterDuplicates_nodup (ids : List site_t) :
    (eraseLaterDuplicates ids).Nodup := by
  induction ids with
  | nil => simp [eraseLaterDuplicates]
  | cons x rest ih =>
    simp only [eraseLaterDuplicates, List.nodup_cons]
    refine ⟨?_, ih.filter _⟩
    simp [List.mem_filter]

theorem indexOf_filter_lt_iff (p : site_t → Bool) (g h : site_t) (hg : p g = true)
    (hh : p h = true) (l : List site_t) :
    (List.indexOf g (l.filter p) < List.indexOf h (l.filter p)
      ↔ List.indexOf g l < List.indexOf h l) := by
  induction l with
  | nil => simp
  | cons y t ih =>
    by_cases hyg : y = g
    · subst hyg
      simp only [List.filter_cons, hg, if_true, List.indexOf_cons_self]
      by_cases hyh : y = h
      · subst hyh; simp
      · rw [List.indexOf_cons_ne _ hyh, List.indexOf_cons_ne _ hyh]; simp
    · by_cases hyh : y = h
      · subst hyh
        simp only [List.filter_cons, hh, if_true, List.indexOf_cons_self]
        simp
      · by_cases hpy : p y = true
        · simp only [List.filter_cons, hpy, if_true]
          rw [List.indexOf_cons_ne _ hyg, List.indexOf_cons_ne _ hyh,
            List.indexOf_cons_ne _ hyg, List.indexOf_cons_ne _ hyh]
          simpa using ih
        · simp only [List.filter_cons, hpy]
          rw [List.indexOf_cons_ne _ hyg, List.indexOf_cons_ne _ hyh]
          simpa using ih

theorem eraseLaterDuplicates_order (ids : List site_t) (g h : site_t) :
    (List.indexOf g (eraseLaterDuplicates ids) < List.indexOf h (eraseLaterDuplicates ids)
      ↔ List.indexOf g ids < List.indexOf h ids) := by
  induction ids with
  | nil => simp [eraseLaterDuplicates]
  | cons x rest ih =>
    simp only [eraseLaterDuplicates]
    by_cases hxg : x = g
    · subst hxg
      by_cases hxh : x = h
      · subst hxh; simp
      · rw [List.indexOf_cons_self, List.indexOf_cons_self,
          List.indexOf_cons_ne _ hxh, List.indexOf_cons_ne _ hxh]; simp
    · by_cases hxh : x = h
      · subst hxh; simp
      · rw [List.indexOf_cons_ne _ hxg, List.indexOf_cons_ne _ hxh,
          List.indexOf_cons_ne _ hxg, List.indexOf_cons_ne _ hxh]
        have hg : (fun k : site_t => decide (k ≠ x)) g = true := by
          simpa using fun e => hxg e.symm
        have hh : (fun k : site_t => decide (k ≠ x)) h = true := by
          simpa using fun e => hxh e.symm
        have := indexOf_filter_lt_iff (fun k : site_t => decide (k ≠ x)) g h hg hh
          (eraseLaterDuplicates rest)
        simp only [Nat.succ_lt_succ_iff, Nat.add_lt_add_iff_right]
        exact this.trans ih

theorem registerAll_neededSites (calls : List (site_t × RequiredSiteInformation))
    (s : NeighbouringDataManager) :
    (s.registerAll calls).neededSites
      = s.neededSites
        ++ (eraseLaterDuplicates (calls.map Prod.fst)).filter (fun h => h ∉ s.neededSites) := by
  induction calls generalizing s with
  | nil => simp [registerAll, eraseLaterDuplicates]
  | cons c rest ih =>
    have hstep : s.registerAll (c :: rest)
        = (s.RegisterNeededSite c.1 c.2).registerAll rest := by
      simp [registerAll]
    rw [hstep, ih]
    by_cases hmem : c.1 ∈ s.neededSites
    · have hs : s.RegisterNeededSite c.1 c.2 = s := by
        simp [RegisterNeededSite, hmem]
      rw [hs]
      simp only [List.map_cons, eraseLaterDuplicates, List.filter_cons, hmem,
        not_true_eq_false, decide_False, List.filter_filter, List.append_cancel_left_eq]
      simp only [Bool.false_eq_true, if_false]
      apply List.filter_congr
      intro k _
      by_cases hk : k ∈ s.neededSites
      · simp [hk]
      · have : k ≠ c.1 := fun e => hk (e ▸ hmem)
        simp [hk, this]
    · have hs : (s.RegisterNeededSite c.1 c.2).neededSites = s.neededSites ++ [c.1] := by
        simp [RegisterNeededSite, hmem]
      rw [hs]
      simp only [List.map_cons, eraseLaterDuplicates, List.filter_cons, hmem,
        not_false_eq_true, decide_True, if_true, List.filter_filter, List.append_assoc,
        List.singleton_append, List.append_cancel_left_eq, List.cons.injEq, true_and]
      apply List.filter_congr
      intro k _
      by_cases hk : k ∈ s.neededSites
      · simp [hk]
      · by_cases hkc : k = c.1
        · simp [hkc]
        · simp [hk, hkc]

theorem registerNeededSite_of_mem (s : NeighbouringDataManager) (g : site_t)
    (r : RequiredSiteInformation) (h : g ∈ s.neededSites) : s.RegisterNeededSite g r = s := by
  simp [RegisterNeededSite, h]

theorem registerNeededSite_of_not_mem (s : NeighbouringDataManager) (g : site_t)
    (r : RequiredSiteInformation) (h : g ∉ s.neededSites) :
    s.RegisterNeededSite g r = { s with neededSites := s.neededSites ++ [g] } := by
  simp [RegisterNeededSite, h]

theorem mem_registerNeededSite (s : NeighbouringDataManager) (g : site_t)
    (r : RequiredSiteInformation) : g ∈ (s.RegisterNeededSite g r).neededSites := by
  by_cases h : g ∈ s.neededSites
  · rw [registerNeededSite_of_mem s g r h]; exact h
  · rw [registerNeededSite_of_not_mem s g r h]; simp

/-- C1: a sequence of `RegisterNeededSite` calls on a freshly constructed manager
leaves in `neededSites` the registered ids with later duplicates erased: the list
has no duplicates, holds each registered id exactly once and no other id, and two
ids stand in the order of their first registration. -/
theorem C1_registerAll_first_seen (ctx : Context)
    (calls : List (site_t × RequiredSiteInformation)) :
    ((new ctx).registerAll calls).neededSites = eraseLaterDuplicates (calls.map Prod.fst)
      ∧ ((new ctx).registerAll calls).neededSites.Nodup
      ∧ (∀ g : site_t, ((new ctx).registerAll calls).neededSites.count g
            = if g ∈ calls.map Prod.fst then 1 else 0)
      ∧ (∀ g h : site_t,
          List.indexOf g ((new ctx).registerAll calls).neededSites
              < List.indexOf h ((new ctx).registerAll calls).neededSites
            ↔ List.indexOf g (calls.map Prod.fst) < List.indexOf h (calls.map Prod.fst)) := by
  have heq : ((new ctx).registerAll calls).neededSites
      = eraseLaterDuplicates (calls.map Prod.fst) := by
    rw [registerAll_neededSites]
    simp [new]
  rw [heq]
  refine ⟨rfl, eraseLaterDuplicates_nodup _, ?_, ?_⟩
  · intro g
    by_cases hg : g ∈ calls.map Prod.fst
    · rw [if_pos hg]
      exact List.count_eq_one_of_mem (eraseLaterDuplicates_nodup _)
        ((mem_eraseLaterDuplicates _ g).2 hg)
    · rw [if_neg hg]
      exact List.count_eq_zero_of_not_mem (fun h => hg ((mem_eraseLaterDuplicates _ g).1 h))
  · intro g h
    exact eraseLaterDuplicates_order _ g h

/-- C10: `RegisterNeededSite` is idempotent: registering `g` a second time (with any
requirements) gives the state reached by the first registration, and a registration
leaves the state untouched exactly when `g` is already in `neededSites`. -/
theorem C10_register_idempotent (s : NeighbouringDataManager) (g : site_t)
    (r r2 : RequiredSiteInformation) :
    (s.RegisterNeededSite g r).RegisterNeededSite g r2 = s.RegisterNeededSite g r
      ∧ (s.RegisterNeededSite g r = s ↔ g ∈ s.neededSites) := by
  refine ⟨registerNeededSite_of_mem _ g r2 (mem_registerNeededSite s g r), ?_, ?_⟩
  · intro h
    have := mem_registerNeededSite s g r
    rwa [h] at this
  · exact registerNeededSite_of_mem s g r

/-! ## Tables indexed by rank -/

theorem getD_set_eq {α : Type} (l : List α) (i j : Nat) (a d : α) (hj : j < l.length) :
    (l.set i a).getD j d = if i = j then a else l.getD j d := by
  simp only [List.getD_eq_getElem?_getD, List.getElem?_set]
  by_cases h : i = j
  · subst h; simp [hj]
  · simp [h]

theorem getD_modify_eq {α : Type} (f : α → α) (l : List α) (i j : Nat) (d : α)
    (hj : j < l.length) :
    (l.modify f i).getD j d = if i = j then f (l.getD j d) else l.getD j d := by
  simp only [List.getD_eq_getElem?_getD, List.getElem?_modify]
  rw [List.getElem?_eq_getElem hj]
  by_cases h : i = j
  · simp [h]
  · simp [h]

theorem eq_map_range_getD {α : Type} (l : List α) (d : α) (n : Nat) (h : l.length = n) :
    l = (List.range n).map (fun j => l.getD j d) := by
  apply List.ext_getElem
  · simp [h]
  · intro i h1 h2
    simp [List.getD_eq_getElem?_getD, List.getElem?_eq_getElem h1]

theorem foldl_set_length {α : Type} (F : Nat → List α → α) :
    ∀ (idxs : List Nat) (tbl : List α),
      (idxs.foldl (fun t o => t.set o (F o t)) tbl).length = tbl.length := by
  intro idxs
  induction idxs with
  | nil => intro tbl; rfl
  | cons o rest ih => intro tbl; simp [List.foldl_cons, ih]

theorem foldl_set_getD {α : Type} (F : Nat → α → α) (d : α) :
    ∀ (idxs : List Nat) (tbl : List α), idxs.Nodup → ∀ j, j < tbl.length →
      (idxs.foldl (fun t o => t.set o (F o (t.getD o d))) tbl).getD j d
        = if j ∈ idxs then F j (tbl.getD j d) else tbl.getD j d := by
  intro idxs
  induction idxs with
  | nil => intro tbl _ j _; simp
  | cons o rest ih =>
    intro tbl hnd j hj
    rw [List.nodup_cons] at hnd
    rw [List.foldl_cons, ih _ hnd.2 j (by simpa using hj), getD_set_eq _ _ _ _ _ hj]
    by_cases hjo : o = j
    · subst hjo
      simp [hnd.1]
    · have hjo2 : ¬ j = o := fun e => hjo e.symm
      simp [hjo, hjo2]

theorem foldl_set_range {α : Type} (F : Nat → α → α) (d : α) (n : Nat) (tbl : List α)
    (h : tbl.length = n) :
    (List.range n).foldl (fun t o => t.set o (F o (t.getD o d))) tbl
      = (List.range n).map (fun j => F j (tbl.getD j d)) := by
  have hlen := foldl_set_length (fun o t => F o (t.getD o d)) (List.range n) tbl
  rw [eq_map_range_getD _ d n (hlen.trans h)]
  apply List.map_congr_left
  intro j hj
  rw [foldl_set_getD F d _ tbl (List.nodup_range n) j (by rw [h]; simpa using hj)]
  simp [hj]

/-! ## The loops of `ShareNeeds` -/

theorem toNat_eq_iff_of_nonneg (p : Int) (w : Nat) (hp : 0 ≤ p) : p.toNat = w ↔ p = (w : Int) := by
  omega

theorem buildNeedsTable_ok (ctx : Context) (needed : List site_t)
    (hown : ∀ g ∈ needed, 0 ≤ ProcForSite ctx g ∧ ProcForSite ctx g < ctx.GetSize) :
    ∀ (tbl : List (List site_t)) (cnt : List Int),
      tbl.length = ctx.GetSize → cnt.length = ctx.GetSize →
      buildNeedsTable ctx needed (tbl, cnt)
        = .ok ((List.range ctx.GetSize).map (fun w : Nat =>
                  tbl.getD w [] ++ needed.filter (fun g => ProcForSite ctx g = (w : Int))),
               (List.range ctx.GetSize).map (fun w : Nat =>
                  cnt.getD w 0
                    + ((needed.filter (fun g => ProcForSite ctx g = (w : Int))).length : Int))) := by
  induction needed with
  | nil =>
    intro tbl cnt ht hc
    simp only [buildNeedsTable, List.filter_nil, List.append_nil, List.length_nil,
      Nat.cast_zero, add_zero]
    rw [← eq_map_range_getD tbl [] _ ht, ← eq_map_range_getD cnt 0 _ hc]
  | cons g rest ih =>
    intro tbl cnt ht hc
    have hg := hown g (List.mem_cons_self _ _)
    have hrest : ∀ k ∈ rest, 0 ≤ ProcForSite ctx k ∧ ProcForSite ctx k < ctx.GetSize :=
      fun k hk => hown k (List.mem_cons_of_mem _ hk)
    rw [buildNeedsTable, if_pos hg, ih hrest _ _ (by simpa using ht) (by simpa using hc)]
    congr 2
    · apply List.map_congr_left
      intro w hw
      have hw2 : w < tbl.length := by rw [ht]; simpa using hw
      rw [getD_modify_eq _ _ _ _ _ hw2, List.filter_cons]
      by_cases h : (ProcForSite ctx g).toNat = w
      · have h2 := (toNat_eq_iff_of_nonneg _ w hg.1).1 h
        simp [h, h2]
      · have h2 : ¬ ProcForSite ctx g = (w : Int) :=
          fun e => h ((toNat_eq_iff_of_nonneg _ w hg.1).2 e)
        simp [h, h2]
    · apply List.map_congr_left
      intro w hw
      have hw2 : w < cnt.length := by rw [hc]; simpa using hw
      rw [getD_modify_eq _ _ _ _ _ hw2, List.filter_cons]
      by_cases h : (ProcForSite ctx g).toNat = w
      · have h2 := (toNat_eq_iff_of_nonneg _ w hg.1).1 h
        simp [h, h2]; ring
      · have h2 : ¬ ProcForSite ctx g = (w : Int) :=
          fun e => h ((toNat_eq_iff_of_nonneg _ w hg.1).2 e)
        simp [h, h2]

theorem exchangeLoop_ok (needs : List (List site_t)) (c : Nat → Int) :
    ∀ (idxs : List Nat) (tbl : List (List site_t)) (ops : List Op),
      (∀ o ∈ idxs, 0 ≤ c o) →
      exchangeLoop needs c idxs (tbl, ops)
        = .ok (idxs.foldl (fun t o => t.set o (resize (t.getD o []) (c o).toNat)) tbl,
               ops ++ idxs.flatMap (fun o =>
                  [Op.RequestSendV (needs.getD o []) o, Op.RequestReceiveV (c o).toNat o])) := by
  intro idxs
  induction idxs with
  | nil => intro tbl ops _; simp [exchangeLoop]
  | cons o rest ih =>
    intro tbl ops h
    have ho : ¬ c o < 0 := not_lt.2 (h o (List.mem_cons_self _ _))
    rw [exchangeLoop, if_neg ho, ih _ _ (fun k hk => h k (List.mem_cons_of_mem _ hk))]
    simp [List.flatMap_cons]

theorem completeReceives_ok (nf : Nat → List site_t) :
    ∀ (idxs : List Nat) (tbl : List (List site_t)), idxs.Nodup →
      (∀ o ∈ idxs, o < tbl.length ∧ (nf o).length ≤ (tbl.getD o []).length) →
      completeReceives nf idxs tbl
        = .ok (idxs.foldl
            (fun t o => t.set o (nf o ++ (t.getD o []).drop (nf o).length)) tbl) := by
  intro idxs
  induction idxs with
  | nil => intro tbl _ _; simp [completeReceives]
  | cons o rest ih =>
    intro tbl hnd h
    rw [List.nodup_cons] at hnd
    rw [completeReceives, if_pos (h o (List.mem_cons_self _ _)).2, ih _ hnd.2]
    · simp
    · intro k hk
      have hk2 := h k (List.mem_cons_of_mem _ hk)
      have hne : ¬ o = k := fun e => hnd.1 (e ▸ hk)
      rw [getD_set_eq _ _ _ _ _ hk2.1, if_neg hne]
      exact ⟨by simpa using hk2.1, hk2.2⟩

theorem length_resize (v : List site_t) (n : Nat) : (resize v n).length = n := by
  simp [resize]; omega


theorem getD_map_range {α : Type} (f : Nat → α) (d : α) (n j : Nat) (h : j < n) :
    ((List.range n).map f).getD j d = f j := by
  simp [List.getD_eq_getElem?_getD, List.getElem?_map, List.getElem?_range h]

theorem ShareNeeds_latched (ctx : Context) (input : NegotiationInput)
    (s : NeighbouringDataManager) (hs : s.needsHaveBeenShared = true) :
    ShareNeeds ctx input s = .ok (s, []) := by
  simp [ShareNeeds, hs]

theorem ShareNeeds_unshared (ctx : Context) (input : NegotiationInput)
    (s : NeighbouringDataManager) (hs : s.needsHaveBeenShared = false)
    (hlen : s.needsEachProcHasFromMe.length = ctx.GetSize)
    (hown : OwnersInRange ctx s.neededSites) (hfit : InputFits ctx input) :
    ShareNeeds ctx input s
      = .ok ({ neededSites := s.neededSites
               needsEachProcHasFromMe := (List.range ctx.GetSize).map (fun w : Nat =>
                  input.needsFrom w
                    ++ (resize (s.needsEachProcHasFromMe.getD w [])
                          (input.countOfNeedsOnEachProcFromMe w).toNat).drop
                        (input.needsFrom w).length)
               needsHaveBeenShared := true },
             [Op.RequestAllToAllSend ((List.range ctx.GetSize).map (fun w : Nat =>
                  ((s.neededSites.filter (fun g => ProcForSite ctx g = (w : Int))).length : Int))),
              Op.RequestAllToAllReceive ctx.GetSize,
              Op.Dispatch]
              ++ (List.range ctx.GetSize).flatMap (fun w : Nat =>
                  [Op.RequestSendV
                      (s.neededSites.filter (fun g => ProcForSite ctx g = (w : Int))) w,
                   Op.RequestReceiveV (input.countOfNeedsOnEachProcFromMe w).toNat w])
              ++ [Op.Dispatch]) := by
  have hbuild := buildNeedsTable_ok ctx s.neededSites hown
    (List.replicate ctx.GetSize []) (List.replicate ctx.GetSize 0) (by simp) (by simp)
  have hexch := fun needs ops => exchangeLoop_ok needs input.countOfNeedsOnEachProcFromMe
    (List.range ctx.GetSize) s.needsEachProcHasFromMe ops
    (fun o ho => (hfit o (by simpa using ho)).1)
  have hres := foldl_set_range
    (fun o x => resize x (input.countOfNeedsOnEachProcFromMe o).toNat) []
    ctx.GetSize s.needsEachProcHasFromMe hlen
  have hcompl := completeReceives_ok input.needsFrom (List.range ctx.GetSize)
    ((List.range ctx.GetSize).map (fun j =>
      resize (s.needsEachProcHasFromMe.getD j []) (input.countOfNeedsOnEachProcFromMe j).toNat))
    (List.nodup_range _)
    (by
      intro o ho
      have ho2 : o < ctx.GetSize := by simpa using ho
      refine ⟨by simpa using ho2, ?_⟩
      rw [getD_map_range _ _ _ _ ho2, length_resize]
      exact (hfit o ho2).2)
  have hfin := foldl_set_range
    (fun o x => input.needsFrom o ++ x.drop (input.needsFrom o).length) []
    ctx.GetSize
    ((List.range ctx.GetSize).map (fun j =>
      resize (s.needsEachProcHasFromMe.getD j []) (input.countOfNeedsOnEachProcFromMe j).toNat))
    (by simp)
  simp only [ShareNeeds, hs, Bool.false_eq_true, if_false, hbuild, hexch, hres, hcompl, hfin]
  congr 2
  · congr 1
    apply List.map_congr_left
    intro w hw
    rw [getD_map_range _ _ _ _ (by simpa using hw)]
  · have hget : ∀ o ∈ List.range ctx.GetSize,
        ((List.range ctx.GetSize).map (fun w : Nat =>
            (List.replicate ctx.GetSize ([] : List site_t)).getD w []
              ++ s.neededSites.filter (fun g => ProcForSite ctx g = (w : Int)))).getD o []
          = s.neededSites.filter (fun g => ProcForSite ctx g = (o : Int)) := by
      intro o ho
      have ho2 : o < ctx.GetSize := by simpa using ho
      rw [getD_map_range _ _ _ _ ho2]
      simp [List.getD_eq_getElem?_getD, List.getElem?_replicate, ho2]
    have hcnt : (List.range ctx.GetSize).map (fun w : Nat =>
            (List.replicate ctx.GetSize (0 : Int)).getD w 0
              + ((s.neededSites.filter (fun g => ProcForSite ctx g = (w : Int))).length : Int))
          = (List.range ctx.GetSize).map (fun w : Nat =>
              ((s.neededSites.filter (fun g => ProcForSite ctx g = (w : Int))).length : Int)) := by
      apply List.map_congr_left
      intro w hw
      have hw2 : w < ctx.GetSize := by simpa using hw
      simp [List.getD_eq_getElem?_getD, List.getElem?_replicate, hw2]
    rw [hcnt]
    simp only [List.cons_append, List.nil_append, List.append_assoc]
    congr 4
    apply List.flatMap_congr
    intro o ho
    rw [hget o ho]


/-! ## Inversion of a successful `ShareNeeds` -/

theorem exchangeLoop_nonneg (needs : List (List site_t)) (c : Nat → Int) :
    ∀ (idxs : List Nat) (acc r : List (List site_t) × List Op),
      exchangeLoop needs c idxs acc = .ok r → ∀ o ∈ idxs, 0 ≤ c o := by
  intro idxs
  induction idxs with
  | nil => intro _ _ _ o ho; simp at ho
  | cons k rest ih =>
    intro acc r h o ho
    obtain ⟨tbl, ops⟩ := acc
    rw [exchangeLoop] at h
    by_cases hk : c k < 0
    · rw [if_pos hk] at h; cases h
    · rw [if_neg hk] at h
      rcases List.mem_cons.1 ho with e | hmem
      · subst e; exact not_lt.1 hk
      · exact ih _ _ h o hmem

theorem completeReceives_fits (nf : Nat → List site_t) :
    ∀ (idxs : List Nat) (tbl r : List (List site_t)),
      completeReceives nf idxs tbl = .ok r → idxs.Nodup → (∀ o ∈ idxs, o < tbl.length) →
      ∀ o ∈ idxs, (nf o).length ≤ (tbl.getD o []).length := by
  intro idxs
  induction idxs with
  | nil => intro _ _ _ _ _ o ho; simp at ho
  | cons k rest ih =>
    intro tbl r h hnd hlt o ho
    rw [List.nodup_cons] at hnd
    rw [completeReceives] at h
    by_cases hk : (nf k).length ≤ (tbl.getD k []).length
    · rw [if_pos hk] at h
      rcases List.mem_cons.1 ho with e | hmem
      · subst e; exact hk
      · have hne : ¬ k = o := fun e => hnd.1 (e ▸ hmem)
        have ho2 : o < tbl.length := hlt o ho
        have := ih _ _ h hnd.2
          (fun j hj => by simpa using hlt j (List.mem_cons_of_mem _ hj)) o hmem
        rwa [getD_set_eq _ _ _ _ _ ho2, if_neg hne] at this
    · rw [if_neg hk] at h; cases h

theorem ShareNeeds_ok_inputFits (ctx : Context) (input : NegotiationInput)
    (s : NeighbouringDataManager) (r : NeighbouringDataManager × List Op)
    (hs : s.needsHaveBeenShared = false)
    (hlen : s.needsEachProcHasFromMe.length = ctx.GetSize)
    (h : ShareNeeds ctx input s = .ok r) : InputFits ctx input := by
  simp only [ShareNeeds, hs, Bool.false_eq_true, if_false] at h
  split at h
  · cases h
  · rename_i needs counts _
    split at h
    · cases h
    · rename_i resized ops hex
      split at h
      · cases h
      · rename_i received hcr
        have hnn := exchangeLoop_nonneg _ _ _ _ _ hex
        have hex2 := exchangeLoop_ok needs input.countOfNeedsOnEachProcFromMe
          (List.range ctx.GetSize) s.needsEachProcHasFromMe
          [Op.RequestAllToAllSend counts, Op.RequestAllToAllReceive ctx.GetSize, Op.Dispatch] hnn
        rw [hex2] at hex
        have hres := foldl_set_range
          (fun o x => resize x (input.countOfNeedsOnEachProcFromMe o).toNat) []
          ctx.GetSize s.needsEachProcHasFromMe hlen
        have hresized : resized = (List.range ctx.GetSize).map (fun j : Nat =>
            resize (s.needsEachProcHasFromMe.getD j [])
              (input.countOfNeedsOnEachProcFromMe j).toNat) := by
          have := congrArg Prod.fst (Except.ok.inj hex)
          exact this.symm.trans hres
        intro w hw
        refine ⟨hnn w (by simpa using hw), ?_⟩
        have := completeReceives_fits _ _ _ _ hcr (List.nodup_range _)
          (fun o ho => by rw [hresized]; simpa using ho) w (by simpa using hw)
        rwa [hresized, getD_map_range _ _ _ _ hw, length_resize] at this

theorem ShareNeeds_ok_shared (ctx : Context) (input : NegotiationInput)
    (s : NeighbouringDataManager) (r : NeighbouringDataManager × List Op)
    (h : ShareNeeds ctx input s = .ok r) : r.1.needsHaveBeenShared = true := by
  by_cases hs : s.needsHaveBeenShared = true
  · rw [ShareNeeds_latched ctx input s hs] at h
    cases h; exact hs
  · simp only [ShareNeeds, hs, Bool.false_eq_true, if_false] at h
    split at h
    · cases h
    · split at h
      · cases h
      · split at h
        · cases h
        · cases h; rfl


/-! ## Transfers on one manager -/

theorem staticReceiveLoop_not_negotiation (ctx : Context) (needed : List site_t) :
    ∀ op ∈ staticReceiveLoop ctx needed, op.isNegotiation = false := by
  intro op hop
  simp only [staticReceiveLoop, List.mem_flatMap, staticReceives] at hop
  obtain ⟨g, _, hg⟩ := hop
  simp only [List.mem_cons, List.mem_singleton, List.not_mem_nil, or_false] at hg
  rcases hg with h | h | h | h <;> subst h <;> rfl

theorem staticSendLoop_not_negotiation (ctx : Context) (tbl : List (List site_t)) :
    ∀ op ∈ staticSendLoop ctx tbl, op.isNegotiation = false := by
  intro op hop
  simp only [staticSendLoop, List.mem_flatMap, staticSends] at hop
  obtain ⟨w, _, g, _, hg⟩ := hop
  simp only [List.mem_cons, List.mem_singleton, List.not_mem_nil, or_false] at hg
  rcases hg with h | h | h | h <;> subst h <;> rfl

theorem fieldReceiveLoop_not_negotiation (ctx : Context) (needed : List site_t) :
    ∀ op ∈ fieldReceiveLoop ctx needed, op.isNegotiation = false := by
  intro op hop
  simp only [fieldReceiveLoop, List.mem_map, fieldReceive] at hop
  obtain ⟨g, _, hg⟩ := hop
  subst hg; rfl

theorem fieldSendLoop_not_negotiation (ctx : Context) (tbl : List (List site_t)) :
    ∀ op ∈ fieldSendLoop ctx tbl, op.isNegotiation = false := by
  intro op hop
  simp only [fieldSendLoop, List.mem_flatMap, List.mem_map, fieldSend] at hop
  obtain ⟨w, _, g, _, hg⟩ := hop
  subst hg; rfl

theorem static_log_not_negotiation (ctx : Context) (s : NeighbouringDataManager) :
    ∀ op ∈ (TransferNonFieldDependentInformation ctx s).2, op.isNegotiation = false := by
  intro op hop
  simp only [TransferNonFieldDependentInformation, List.mem_append, List.mem_singleton] at hop
  rcases hop with (h | h) | h
  · exact staticReceiveLoop_not_negotiation ctx _ op h
  · exact staticSendLoop_not_negotiation ctx _ op h
  · subst h; rfl

theorem RequestComms_latched (ctx : Context) (input : NegotiationInput)
    (s : NeighbouringDataManager) (hs : s.needsHaveBeenShared = true) :
    RequestComms ctx input s
      = .ok (s, fieldReceiveLoop ctx s.neededSites
                  ++ fieldSendLoop ctx s.needsEachProcHasFromMe) := by
  simp [RequestComms, hs]

theorem TransferField_latched (ctx : Context) (input : NegotiationInput)
    (s : NeighbouringDataManager) (hs : s.needsHaveBeenShared = true) :
    TransferFieldDependentInformation ctx input s
      = .ok (s, fieldReceiveLoop ctx s.neededSites
                  ++ fieldSendLoop ctx s.needsEachProcHasFromMe ++ [Op.Dispatch]) := by
  simp [TransferFieldDependentInformation, RequestComms_latched ctx input s hs]

theorem TransferField_unlatched (ctx : Context) (input : NegotiationInput)
    (s s1 : NeighbouringDataManager) (shareOps : List Op)
    (hs : s.needsHaveBeenShared = false)
    (h : ShareNeeds ctx input s = .ok (s1, shareOps)) :
    TransferFieldDependentInformation ctx input s
      = .ok (s1, shareOps ++ fieldReceiveLoop ctx s1.neededSites
                  ++ fieldSendLoop ctx s1.needsEachProcHasFromMe ++ [Op.Dispatch]) := by
  simp [TransferFieldDependentInformation, RequestComms, hs, h]

theorem field_log_latched_not_negotiation (ctx : Context) (s : NeighbouringDataManager) :
    ∀ op ∈ fieldReceiveLoop ctx s.neededSites
              ++ fieldSendLoop ctx s.needsEachProcHasFromMe ++ [Op.Dispatch],
      op.isNegotiation = false := by
  intro op hop
  simp only [List.mem_append, List.mem_singleton] at hop
  rcases hop with (h | h) | h
  · exact fieldReceiveLoop_not_negotiation ctx _ op h
  · exact fieldSendLoop_not_negotiation ctx _ op h
  · subst h; rfl

/-! ## Call sequences from a latched state -/

theorem apply_latched (ctx : Context) (s : NeighbouringDataManager)
    (hs : s.needsHaveBeenShared = true) (call : Call) :
    ∃ s1 ops, call.apply ctx s = .ok (s1, ops)
      ∧ s1.needsHaveBeenShared = true
      ∧ s1.needsEachProcHasFromMe = s.needsEachProcHasFromMe
      ∧ ∀ op ∈ ops, op.isNegotiation = false := by
  cases call with
  | RegisterNeededSite g r =>
    refine ⟨s.RegisterNeededSite g r, [], rfl, ?_, ?_, by simp⟩
    · by_cases h : g ∈ s.neededSites <;> simp [RegisterNeededSite, h, hs]
    · by_cases h : g ∈ s.neededSites <;> simp [RegisterNeededSite, h]
  | ShareNeeds input =>
    exact ⟨s, [], ShareNeeds_latched ctx input s hs, hs, rfl, by simp⟩
  | TransferNonFieldDependentInformation =>
    exact ⟨s, _, rfl, hs, rfl, static_log_not_negotiation ctx s⟩
  | TransferFieldDependentInformation input =>
    exact ⟨s, _, TransferField_latched ctx input s hs, hs, rfl,
      field_log_latched_not_negotiation ctx s⟩

theorem runCalls_latched (ctx : Context) (calls : List Call) :
    ∀ s : NeighbouringDataManager, s.needsHaveBeenShared = true →
      ∃ s1 log, runCalls ctx calls s = .ok (s1, log)
        ∧ s1.needsHaveBeenShared = true
        ∧ s1.needsEachProcHasFromMe = s.needsEachProcHasFromMe
        ∧ ∀ op ∈ log, op.isNegotiation = false := by
  induction calls with
  | nil => intro s hs; exact ⟨s, [], rfl, hs, rfl, by simp⟩
  | cons call rest ih =>
    intro s hs
    obtain ⟨s1, ops1, h1, hs1, ht1, hn1⟩ := apply_latched ctx s hs call
    obtain ⟨s2, ops2, h2, hs2, ht2, hn2⟩ := ih s1 hs1
    refine ⟨s2, ops1 ++ ops2, ?_, hs2, ht2.trans ht1, ?_⟩
    · simp [runCalls, andThen, h1, h2]
    · intro op hop
      rcases List.mem_append.1 hop with h | h
      · exact hn1 op h
      · exact hn2 op h


/-! ## Claims on one manager -/

/-- C5 (the code departs from the claim): in the scenario, worker 0 starts with the
static transfer. `TransferNonFieldDependentInformation` queues the four receives
for site 100 and one dispatch, queues no negotiation operation and no send, and
leaves `needsHaveBeenShared` false and `needsEachProcHasFromMe` empty. -/
theorem C5_static_transfer_does_not_negotiate :
    (scenarioBefore 0).needsHaveBeenShared = false
      ∧ TransferNonFieldDependentInformation (scenario.ctx 0) (scenarioBefore 0)
          = ({ neededSites := [100], needsEachProcHasFromMe := [[], []],
               needsHaveBeenShared := false },
             [ Op.RequestReceiveR (Buffer.neighbouringSite 100 Field.IntersectionData) 1,
               Op.RequestReceiveR (Buffer.neighbouringSite 100 Field.OtherRawData) 1,
               Op.RequestReceive (Buffer.neighbouringSite 100 Field.WallDistances) 14 1,
               Op.RequestReceiveR (Buffer.neighbouringSite 100 Field.WallNormal) 1,
               Op.Dispatch ]) := by
  decide

/-- C6: the dynamic transfer negotiates exactly when the latch is clear on entry.
Provided that, when the latch is clear, the table has one list per rank, the owners
of the needed sites are ranks and the fabric delivers usable data, the call returns,
its log is the log of `ShareNeeds` followed by the receive loop, the send loop and
one dispatch, it holds a negotiation operation if and only if
`needsHaveBeenShared` was false on entry, and `needsHaveBeenShared` is true on
exit. -/
theorem C6_dynamic_transfer_negotiates_when_needed (ctx : Context) (input : NegotiationInput)
    (s : NeighbouringDataManager)
    (hpre : s.needsHaveBeenShared = false →
      s.needsEachProcHasFromMe.length = ctx.GetSize
        ∧ OwnersInRange ctx s.neededSites ∧ InputFits ctx input) :
    ∃ s1 shareOps log,
      ShareNeeds ctx input s = .ok (s1, shareOps)
        ∧ TransferFieldDependentInformation ctx input s = .ok (s1, log)
        ∧ log = shareOps ++ fieldReceiveLoop ctx s1.neededSites
                  ++ fieldSendLoop ctx s1.needsEachProcHasFromMe ++ [Op.Dispatch]
        ∧ ((∃ op ∈ log, op.isNegotiation = true) ↔ s.needsHaveBeenShared = false)
        ∧ s1.needsHaveBeenShared = true := by
  by_cases hs : s.needsHaveBeenShared = true
  · refine ⟨s, [], _, ShareNeeds_latched ctx input s hs, TransferField_latched ctx input s hs,
      by simp, ?_, hs⟩
    constructor
    · rintro ⟨op, hop, hneg⟩
      have := field_log_latched_not_negotiation ctx s op hop
      rw [this] at hneg; cases hneg
    · intro h; rw [hs] at h; cases h
  · have hs2 : s.needsHaveBeenShared = false := by simpa using hs
    obtain ⟨hlen, hown, hfit⟩ := hpre hs2
    have hshare := ShareNeeds_unshared ctx input s hs2 hlen hown hfit
    refine ⟨_, _, _, hshare, TransferField_unlatched ctx input s _ _ hs2 hshare, rfl, ?_, rfl⟩
    constructor
    · intro _; exact hs2
    · intro _
      exact ⟨_, List.mem_append_left _ (List.mem_append_left _ (List.mem_append_left _
        (List.mem_append_left _ (List.mem_append_left _ (List.mem_cons_self _ _))))), rfl⟩

/-- C7: `ShareNeeds` on a state whose latch is set returns that state and queues
nothing (no operation, no dispatch); and for every state, `ShareNeeds` followed by
`ShareNeeds` gives the state and the log of a single `ShareNeeds`. -/
theorem C7_shareNeeds_idempotent (ctx : Context) (input input2 : NegotiationInput)
    (s : NeighbouringDataManager) :
    ShareNeeds ctx input { s with needsHaveBeenShared := true }
        = .ok ({ s with needsHaveBeenShared := true }, [])
      ∧ andThen (ShareNeeds ctx input s) (ShareNeeds ctx input2) = ShareNeeds ctx input s := by
  refine ⟨ShareNeeds_latched ctx input _ rfl, ?_⟩
  cases h : ShareNeeds ctx input s with
  | error e => rfl
  | ok r =>
    obtain ⟨s1, ops1⟩ := r
    have hs1 : s1.needsHaveBeenShared = true := ShareNeeds_ok_shared ctx input s _ h
    simp [andThen, ShareNeeds_latched ctx input2 s1 hs1]

/-- C8 (the claim as stated fails): worker 0 of the scenario, after negotiation,
registers site 101, owned by worker 1. Both transfers then queue receives from
worker 1 for site 101, so their logs differ from the logs without the
registration. -/
theorem C8_counterexample :
    (scenarioAfter 0).needsHaveBeenShared = true
      ∧ (101 : site_t) ∉ (scenarioAfter 0).neededSites
      ∧ (TransferNonFieldDependentInformation (scenario.ctx 0)
            ((scenarioAfter 0).RegisterNeededSite 101 ⟨[]⟩)).2
          ≠ (TransferNonFieldDependentInformation (scenario.ctx 0) (scenarioAfter 0)).2
      ∧ Op.RequestReceiveR (Buffer.neighbouringSite 101 Field.IntersectionData) 1
          ∈ (TransferNonFieldDependentInformation (scenario.ctx 0)
              ((scenarioAfter 0).RegisterNeededSite 101 ⟨[]⟩)).2
      ∧ TransferFieldDependentInformation (scenario.ctx 0) (scenarioInput 0) (scenarioAfter 0)
          = .ok (scenarioAfter 0,
              [ Op.RequestReceive (Buffer.neighbouringSite 100 Field.FOld) 15 1,
                Op.RequestSend (Buffer.localSite 5 Field.FOld) 15 1,
                Op.Dispatch ])
      ∧ TransferFieldDependentInformation (scenario.ctx 0) (scenarioInput 0)
            ((scenarioAfter 0).RegisterNeededSite 101 ⟨[]⟩)
          = .ok ((scenarioAfter 0).RegisterNeededSite 101 ⟨[]⟩,
              [ Op.RequestReceive (Buffer.neighbouringSite 100 Field.FOld) 15 1,
                Op.RequestReceive (Buffer.neighbouringSite 101 Field.FOld) 15 1,
                Op.RequestSend (Buffer.localSite 5 Field.FOld) 15 1,
                Op.Dispatch ]) := by
  refine ⟨by decide, by decide, by decide, by decide, ?_, ?_⟩
  · rw [TransferField_latched _ _ _ (by decide)]; rfl
  · rw [TransferField_latched _ _ _ (by decide)]; rfl


/-- Witness for C6 on worker 0 of the scenario, whose latch is clear. -/
theorem C6_witness :
    ((scenarioBefore 0).needsHaveBeenShared = false →
        (scenarioBefore 0).needsEachProcHasFromMe.length = (scenario.ctx 0).GetSize
          ∧ OwnersInRange (scenario.ctx 0) (scenarioBefore 0).neededSites
          ∧ InputFits (scenario.ctx 0) (scenarioInput 0))
      ∧ ∃ s1 shareOps log,
          ShareNeeds (scenario.ctx 0) (scenarioInput 0) (scenarioBefore 0) = .ok (s1, shareOps)
            ∧ TransferFieldDependentInformation (scenario.ctx 0) (scenarioInput 0)
                (scenarioBefore 0) = .ok (s1, log)
            ∧ log = shareOps ++ fieldReceiveLoop (scenario.ctx 0) s1.neededSites
                      ++ fieldSendLoop (scenario.ctx 0) s1.needsEachProcHasFromMe
                      ++ [Op.Dispatch]
            ∧ ((∃ op ∈ log, op.isNegotiation = true)
                ↔ (scenarioBefore 0).needsHaveBeenShared = false)
            ∧ s1.needsHaveBeenShared = true :=
  ⟨by decide,
    C6_dynamic_transfer_negotiates_when_needed (scenario.ctx 0) (scenarioInput 0)
      (scenarioBefore 0) (by decide)⟩

/-- C8 (amended): after a registration of a new site `g` on a latched manager, each
transfer queues the sends it queues without the registration and no negotiation
operation; its receives are those queued without the registration followed by the
receives for `g` from the owner of `g`: four in the static transfer, one in the
dynamic transfer. -/
theorem C8_post_latch_registration_adds_receives (ctx : Context) (input : NegotiationInput)
    (s : NeighbouringDataManager) (g : site_t) (r : RequiredSiteInformation)
    (hs : s.needsHaveBeenShared = true) (hg : g ∉ s.neededSites) :
    (TransferNonFieldDependentInformation ctx s).2
        = staticReceiveLoop ctx s.neededSites
            ++ staticSendLoop ctx s.needsEachProcHasFromMe ++ [Op.Dispatch]
      ∧ (TransferNonFieldDependentInformation ctx (s.RegisterNeededSite g r)).2
        = staticReceiveLoop ctx s.neededSites ++ staticReceives ctx g
            ++ staticSendLoop ctx s.needsEachProcHasFromMe ++ [Op.Dispatch]
      ∧ TransferFieldDependentInformation ctx input s
        = .ok (s, fieldReceiveLoop ctx s.neededSites
                    ++ fieldSendLoop ctx s.needsEachProcHasFromMe ++ [Op.Dispatch])
      ∧ TransferFieldDependentInformation ctx input (s.RegisterNeededSite g r)
        = .ok (s.RegisterNeededSite g r,
                fieldReceiveLoop ctx s.neededSites ++ [fieldReceive ctx g]
                    ++ fieldSendLoop ctx s.needsEachProcHasFromMe ++ [Op.Dispatch]) := by
  have hreg := registerNeededSite_of_not_mem s g r hg
  refine ⟨rfl, ?_, TransferField_latched ctx input s hs, ?_⟩
  · rw [hreg]
    simp [TransferNonFieldDependentInformation, staticReceiveLoop]
  · rw [TransferField_latched ctx input _ (by rw [hreg]; exact hs), hreg]
    simp [fieldReceiveLoop]

/-- Witness for C8 (amended) on worker 0 of the scenario registering site 101. -/
theorem C8_witness :
    ((scenarioAfter 0).needsHaveBeenShared = true ∧ (101 : site_t) ∉ (scenarioAfter 0).neededSites)
      ∧ ((TransferNonFieldDependentInformation (scenario.ctx 0) (scenarioAfter 0)).2
            = staticReceiveLoop (scenario.ctx 0) (scenarioAfter 0).neededSites
                ++ staticSendLoop (scenario.ctx 0) (scenarioAfter 0).needsEachProcHasFromMe
                ++ [Op.Dispatch]
          ∧ (TransferNonFieldDependentInformation (scenario.ctx 0)
                ((scenarioAfter 0).RegisterNeededSite 101 ⟨[]⟩)).2
            = staticReceiveLoop (scenario.ctx 0) (scenarioAfter 0).neededSites
                ++ staticReceives (scenario.ctx 0) 101
                ++ staticSendLoop (scenario.ctx 0) (scenarioAfter 0).needsEachProcHasFromMe
                ++ [Op.Dispatch]
          ∧ TransferFieldDependentInformation (scenario.ctx 0) (scenarioInput 0) (scenarioAfter 0)
            = .ok (scenarioAfter 0,
                fieldReceiveLoop (scenario.ctx 0) (scenarioAfter 0).neededSites
                  ++ fieldSendLoop (scenario.ctx 0) (scenarioAfter 0).needsEachProcHasFromMe
                  ++ [Op.Dispatch])
          ∧ TransferFieldDependentInformation (scenario.ctx 0) (scenarioInput 0)
                ((scenarioAfter 0).RegisterNeededSite 101 ⟨[]⟩)
            = .ok ((scenarioAfter 0).RegisterNeededSite 101 ⟨[]⟩,
                fieldReceiveLoop (scenario.ctx 0) (scenarioAfter 0).neededSites
                  ++ [fieldReceive (scenario.ctx 0) 101]
                  ++ fieldSendLoop (scenario.ctx 0) (scenarioAfter 0).needsEachProcHasFromMe
                  ++ [Op.Dispatch])) :=
  ⟨⟨by decide, by decide⟩,
    C8_post_latch_registration_adds_receives (scenario.ctx 0) (scenarioInput 0)
      (scenarioAfter 0) 101 ⟨[]⟩ (by decide) (by decide)⟩

/-- C9: on a latched manager, registering a site `g` not yet needed appends `g` at
the end of `neededSites` and changes neither `needsEachProcHasFromMe` nor
`needsHaveBeenShared`; every sequence of calls made afterwards completes without
queueing a negotiation operation (so no variable-length send carries `g`), and a
`ShareNeeds` call after it returns at once with an empty log. -/
theorem C9_post_latch_registration_is_local (ctx : Context) (s : NeighbouringDataManager)
    (g : site_t) (r : RequiredSiteInformation) (calls : List Call) (input : NegotiationInput)
    (hs : s.needsHaveBeenShared = true) (hg : g ∉ s.neededSites) :
    (s.RegisterNeededSite g r).neededSites = s.neededSites ++ [g]
      ∧ (s.RegisterNeededSite g r).needsEachProcHasFromMe = s.needsEachProcHasFromMe
      ∧ (s.RegisterNeededSite g r).needsHaveBeenShared = s.needsHaveBeenShared
      ∧ ∃ s1 log, runCalls ctx calls (s.RegisterNeededSite g r) = .ok (s1, log)
          ∧ (∀ op ∈ log, op.isNegotiation = false)
          ∧ ShareNeeds ctx input s1 = .ok (s1, []) := by
  have hreg := registerNeededSite_of_not_mem s g r hg
  refine ⟨by rw [hreg], by rw [hreg], by rw [hreg], ?_⟩
  obtain ⟨s1, log, hrun, hs1, _, hneg⟩ :=
    runCalls_latched ctx calls (s.RegisterNeededSite g r) (by rw [hreg]; exact hs)
  exact ⟨s1, log, hrun, hneg, ShareNeeds_latched ctx input s1 hs1⟩

/-- Witness for C9 on worker 0 of the scenario: it registers site 101 after the
negotiation, then calls `ShareNeeds`, the dynamic transfer and the static transfer. -/
theorem C9_witness :
    ((scenarioAfter 0).needsHaveBeenShared = true ∧ (101 : site_t) ∉ (scenarioAfter 0).neededSites)
      ∧ (((scenarioAfter 0).RegisterNeededSite 101 ⟨[]⟩).neededSites
            = (scenarioAfter 0).neededSites ++ [101]
          ∧ ((scenarioAfter 0).RegisterNeededSite 101 ⟨[]⟩).needsEachProcHasFromMe
            = (scenarioAfter 0).needsEachProcHasFromMe
          ∧ ((scenarioAfter 0).RegisterNeededSite 101 ⟨[]⟩).needsHaveBeenShared
            = (scenarioAfter 0).needsHaveBeenShared
          ∧ ∃ s1 log,
              runCalls (scenario.ctx 0)
                  [Call.ShareNeeds (scenarioInput 0),
                   Call.TransferFieldDependentInformation (scenarioInput 0),
                   Call.TransferNonFieldDependentInformation]
                  ((scenarioAfter 0).RegisterNeededSite 101 ⟨[]⟩) = .ok (s1, log)
                ∧ (∀ op ∈ log, op.isNegotiation = false)
                ∧ ShareNeeds (scenario.ctx 0) (scenarioInput 0) s1 = .ok (s1, [])) :=
  ⟨⟨by decide, by decide⟩,
    C9_post_latch_registration_is_local (scenario.ctx 0) (scenarioAfter 0) 101 ⟨[]⟩
      [Call.ShareNeeds (scenarioInput 0),
       Call.TransferFieldDependentInformation (scenarioInput 0),
       Call.TransferNonFieldDependentInformation]
      (scenarioInput 0) (by decide) (by decide)⟩


/-! ## Point-to-point requests of the transfers, by peer -/

theorem flatMap_ite_eq_filter_flatMap {α β : Type} (p : α → Bool) (f : α → List β)
    (l : List α) :
    l.flatMap (fun a => if p a = true then f a else []) = (l.filter p).flatMap f := by
  induction l with
  | nil => rfl
  | cons a t ih =>
    by_cases h : p a = true
    · simp [List.flatMap_cons, List.filter_cons, h, ih]
    · simp [List.flatMap_cons, List.filter_cons, h, ih]

theorem flatMap_range_single {β : Type} (f : Nat → List β) (n A : Nat) (hA : A < n) :
    (List.range n).flatMap (fun o => if o = A then f o else []) = f A := by
  induction n with
  | zero => omega
  | succ n ih =>
    rw [List.range_succ, List.flatMap_append]
    by_cases h : A < n
    · have hne : ¬ n = A := by omega
      simp [ih h, hne]
    · have he : A = n := by omega
      subst he
      have hnil : (List.range A).flatMap (fun o => if o = A then f o else []) = [] := by
        rw [List.flatMap_eq_nil_iff]
        intro o ho
        have : o < A := by simpa using ho
        have hne : ¬ o = A := by omega
        simp [hne]
      simp [hnil]

theorem filter_flatMap_range_single {β : Type} (q : β → Bool) (f : Nat → List β) (n A : Nat)
    (hA : A < n) (hkeep : ∀ x ∈ f A, q x = true)
    (hdrop : ∀ o, o ≠ A → ∀ x ∈ f o, q x = false) :
    ((List.range n).flatMap f).filter q = f A := by
  rw [List.filter_flatMap]
  rw [← flatMap_range_single f n A hA]
  apply List.flatMap_congr
  intro o _
  by_cases h : o = A
  · subst h
    simp only [if_true]
    exact List.filter_eq_self.2 hkeep
  · simp only [h, if_false]
    exact List.filter_eq_nil_iff.2 (fun x hx => by simp [hdrop o h x hx])

theorem natCast_int_inj (a b : Nat) : ((a : Int) = (b : Int)) ↔ a = b := by
  omega

theorem receivesFrom_static (ctx : Context) (s : NeighbouringDataManager) (B : proc_t) :
    receivesFrom (TransferNonFieldDependentInformation ctx s).2 B
      = (s.neededSites.filter (fun g => ProcForSite ctx g = B)).flatMap (staticReceives ctx) := by
  have hrecv : (staticReceiveLoop ctx s.neededSites).filter
        (fun op => op.isReceive && decide (op.peer = some B))
      = (s.neededSites.filter (fun g => ProcForSite ctx g = B)).flatMap (staticReceives ctx) := by
    rw [staticReceiveLoop, List.filter_flatMap, ← flatMap_ite_eq_filter_flatMap]
    apply List.flatMap_congr
    intro g _
    by_cases h : ProcForSite ctx g = B
    · simp [staticReceives, Op.isReceive, Op.peer, h]
    · simp [staticReceives, Op.isReceive, Op.peer, h]
  have hsend : (staticSendLoop ctx s.needsEachProcHasFromMe).filter
        (fun op => op.isReceive && decide (op.peer = some B)) = [] := by
    rw [List.filter_eq_nil_iff]
    intro op hop
    simp only [staticSendLoop, List.mem_flatMap, staticSends] at hop
    obtain ⟨w, _, g, _, hg⟩ := hop
    simp only [List.mem_cons, List.mem_singleton, List.not_mem_nil, or_false] at hg
    rcases hg with h | h | h | h <;> subst h <;> simp [Op.isReceive]
  simp only [receivesFrom, TransferNonFieldDependentInformation, List.filter_append, hrecv,
    hsend, List.append_nil]
  simp [Op.isReceive]

theorem sendsTo_static (ctx : Context) (s : NeighbouringDataManager) (A : Nat)
    (hA : A < ctx.GetSize) :
    sendsTo (TransferNonFieldDependentInformation ctx s).2 (A : Int)
      = (s.needsEachProcHasFromMe.getD A []).flatMap (staticSends ctx A) := by
  have hrecv : (staticReceiveLoop ctx s.neededSites).filter
        (fun op => op.isSend && decide (op.peer = some (A : Int))) = [] := by
    rw [List.filter_eq_nil_iff]
    intro op hop
    simp only [staticReceiveLoop, List.mem_flatMap, staticReceives] at hop
    obtain ⟨g, _, hg⟩ := hop
    simp only [List.mem_cons, List.mem_singleton, List.not_mem_nil, or_false] at hg
    rcases hg with h | h | h | h <;> subst h <;> simp [Op.isSend]
  have hsend : (staticSendLoop ctx s.needsEachProcHasFromMe).filter
        (fun op => op.isSend && decide (op.peer = some (A : Int)))
      = (s.needsEachProcHasFromMe.getD A []).flatMap (staticSends ctx A) := by
    rw [staticSendLoop]
    apply filter_flatMap_range_single _ _ _ _ hA
    · intro op hop
      simp only [List.mem_flatMap, staticSends] at hop
      obtain ⟨g, _, hg⟩ := hop
      simp only [List.mem_cons, List.mem_singleton, List.not_mem_nil, or_false] at hg
      rcases hg with h | h | h | h <;> subst h <;> simp [Op.isSend, Op.peer]
    · intro o ho op hop
      simp only [List.mem_flatMap, staticSends] at hop
      obtain ⟨g, _, hg⟩ := hop
      simp only [List.mem_cons, List.mem_singleton, List.not_mem_nil, or_false] at hg
      rcases hg with h | h | h | h <;> subst h <;>
        simp [Op.isSend, Op.peer, natCast_int_inj, ho]
  simp only [sendsTo, TransferNonFieldDependentInformation, List.filter_append, hrecv,
    hsend, List.nil_append]
  simp [Op.isSend]

theorem receivesFrom_field (ctx : Context) (s : NeighbouringDataManager) (B : proc_t) :
    receivesFrom (fieldReceiveLoop ctx s.neededSites
        ++ fieldSendLoop ctx s.needsEachProcHasFromMe ++ [Op.Dispatch]) B
      = (s.neededSites.filter (fun g => ProcForSite ctx g = B)).map (fieldReceive ctx) := by
  have hrecv : (fieldReceiveLoop ctx s.neededSites).filter
        (fun op => op.isReceive && decide (op.peer = some B))
      = (s.neededSites.filter (fun g => ProcForSite ctx g = B)).map (fieldReceive ctx) := by
    rw [fieldReceiveLoop, List.filter_map]
    congr 1
    apply List.filter_congr
    intro g _
    simp [fieldReceive, Op.isReceive, Op.peer]
  have hsend : (fieldSendLoop ctx s.needsEachProcHasFromMe).filter
        (fun op => op.isReceive && decide (op.peer = some B)) = [] := by
    rw [List.filter_eq_nil_iff]
    intro op hop
    simp only [fieldSendLoop, List.mem_flatMap, List.mem_map, fieldSend] at hop
    obtain ⟨w, _, g, _, hg⟩ := hop
    subst hg; simp [Op.isReceive]
  simp only [receivesFrom, List.filter_append, hrecv, hsend, List.append_nil]
  simp [Op.isReceive]

theorem sendsTo_field (ctx : Context) (s : NeighbouringDataManager) (A : Nat)
    (hA : A < ctx.GetSize) :
    sendsTo (fieldReceiveLoop ctx s.neededSites
        ++ fieldSendLoop ctx s.needsEachProcHasFromMe ++ [Op.Dispatch]) (A : Int)
      = (s.needsEachProcHasFromMe.getD A []).map (fieldSend ctx A) := by
  have hrecv : (fieldReceiveLoop ctx s.neededSites).filter
        (fun op => op.isSend && decide (op.peer = some (A : Int))) = [] := by
    rw [List.filter_eq_nil_iff]
    intro op hop
    simp only [fieldReceiveLoop, List.mem_map, fieldReceive] at hop
    obtain ⟨g, _, hg⟩ := hop
    subst hg; simp [Op.isSend]
  have hsend : (fieldSendLoop ctx s.needsEachProcHasFromMe).filter
        (fun op => op.isSend && decide (op.peer = some (A : Int)))
      = (s.needsEachProcHasFromMe.getD A []).map (fieldSend ctx A) := by
    rw [fieldSendLoop]
    apply filter_flatMap_range_single _ _ _ _ hA
    · intro op hop
      simp only [List.mem_map, fieldSend] at hop
      obtain ⟨g, _, hg⟩ := hop
      subst hg; simp [Op.isSend, Op.peer]
    · intro o ho op hop
      simp only [List.mem_map, fieldSend] at hop
      obtain ⟨g, _, hg⟩ := hop
      subst hg; simp [Op.isSend, Op.peer, natCast_int_inj, ho]
  simp only [sendsTo, List.filter_append, hrecv, hsend, List.nil_append]
  simp [Op.isSend]


/-! ## Negotiation across workers -/

theorem ownersInRange_of_total (c : Cluster) (rank : Nat) (needed : List site_t)
    (hown : ∀ g, 0 ≤ c.owner g ∧ c.owner g < c.P) : OwnersInRange (c.ctx rank) needed :=
  fun g _ => hown g

theorem mem_shareLog_allToAllSend (counts c0 : List Int) (n : Nat)
    (f : Nat → List site_t) (k : Nat → Nat) (P : Nat)
    (h : Op.RequestAllToAllSend counts
      ∈ [Op.RequestAllToAllSend c0, Op.RequestAllToAllReceive n, Op.Dispatch]
          ++ (List.range P).flatMap (fun w : Nat =>
              [Op.RequestSendV (f w) w, Op.RequestReceiveV (k w) w])
          ++ [Op.Dispatch]) : counts = c0 := by
  simpa using h

theorem mem_shareLog_sendV (payload c0 : List Int) (n : Nat)
    (f : Nat → List site_t) (k : Nat → Nat) (P B : Nat)
    (h : Op.RequestSendV payload (B : Int)
      ∈ [Op.RequestAllToAllSend c0, Op.RequestAllToAllReceive n, Op.Dispatch]
          ++ (List.range P).flatMap (fun w : Nat =>
              [Op.RequestSendV (f w) w, Op.RequestReceiveV (k w) w])
          ++ [Op.Dispatch]) : payload = f B := by
  simp only [List.mem_append, List.mem_cons, List.mem_singleton, List.not_mem_nil, or_false,
    List.mem_flatMap, List.mem_range, reduceCtorEq, false_or, Op.RequestSendV.injEq] at h
  obtain ⟨w, _, hp, hw⟩ := h
  have : B = w := by exact_mod_cast hw
  subst this; exact hp

theorem sendV_mem_shareLog (c0 : List Int) (n : Nat)
    (f : Nat → List site_t) (k : Nat → Nat) (P B : Nat) (hB : B < P) :
    Op.RequestSendV (f B) (B : Int)
      ∈ [Op.RequestAllToAllSend c0, Op.RequestAllToAllReceive n, Op.Dispatch]
          ++ (List.range P).flatMap (fun w : Nat =>
              [Op.RequestSendV (f w) w, Op.RequestReceiveV (k w) w])
          ++ [Op.Dispatch] := by
  apply List.mem_append_left
  apply List.mem_append_right
  rw [List.mem_flatMap]
  exact ⟨B, by simpa using hB, by simp⟩

theorem drop_resize_all (v : List site_t) (n : Nat) : (resize v n).drop n = [] := by
  apply List.drop_of_length_le
  rw [length_resize]

/-- What a completed negotiation leaves on every worker. -/
theorem negotiation_tables (c : Cluster) (before after : Nat → NeighbouringDataManager)
    (inputs : Nat → NegotiationInput) (logs : Nat → List Op)
    (hown : ∀ g, 0 ≤ c.owner g ∧ c.owner g < c.P)
    (hfresh : ∀ A, A < c.P →
      (before A).needsHaveBeenShared = false ∧ (before A).needsEachProcHasFromMe.length = c.P)
    (hrun : NegotiationRun c before inputs after logs) :
    ∀ A B, A < c.P → B < c.P →
      (after B).needsEachProcHasFromMe.getD A []
          = (before A).neededSites.filter (fun g => c.owner g = (B : Int))
        ∧ (after B).needsEachProcHasFromMe.length = c.P
        ∧ (after A).neededSites = (before A).neededSites
        ∧ (after A).needsHaveBeenShared = true := by
  obtain ⟨hok, hfaith⟩ := hrun
  have hexp : ∀ w, w < c.P → _ := fun w hw =>
    ShareNeeds_unshared (c.ctx w) (inputs w) (before w) (hfresh w hw).1 (hfresh w hw).2
      (ownersInRange_of_total c w _ hown)
      (ShareNeeds_ok_inputFits (c.ctx w) (inputs w) (before w) _ (hfresh w hw).1
        (hfresh w hw).2 (hok w hw))
  intro A B hA hB
  have hAeq := (hok A hA).symm.trans (hexp A hA)
  have hBeq := (hok B hB).symm.trans (hexp B hB)
  have hAst := congrArg Prod.fst (Except.ok.inj hAeq)
  have hAlog := congrArg Prod.snd (Except.ok.inj hAeq)
  have hBst := congrArg Prod.fst (Except.ok.inj hBeq)
  simp only at hAst hAlog hBst
  obtain ⟨hcnt, hpay⟩ := hfaith A B hA hB
  have hc := hcnt _ (by
    rw [hAlog]
    exact List.mem_append_left _ (List.mem_append_left _ (List.mem_cons_self _ _)))
  have hp := hpay _ (by
    rw [hAlog]
    exact sendV_mem_shareLog _ _
      (fun w : Nat => (before A).neededSites.filter
        (fun g => ProcForSite (c.ctx A) g = (w : Int))) _ _ B hB)
  have hc2 : (inputs B).countOfNeedsOnEachProcFromMe A
      = (((before A).neededSites.filter (fun g => c.owner g = (B : Int))).length : Int) := by
    have hB2 : B < (c.ctx A).GetSize := hB
    simp only [List.getElem?_map, List.getElem?_range hB2, Option.map_some',
      Option.some.injEq] at hc
    exact hc.symm
  have hp2 : (inputs B).needsFrom A
      = (before A).neededSites.filter (fun g => c.owner g = (B : Int)) := hp
  refine ⟨?_, ?_, ?_, ?_⟩
  · rw [hBst]
    have hA2 : A < (c.ctx B).GetSize := hA
    simp only
    rw [getD_map_range _ _ _ _ hA2, hp2, hc2, Int.toNat_ofNat, drop_resize_all,
      List.append_nil]
  · rw [hBst]; simp [Cluster.ctx]
  · rw [hAst]
  · rw [hAst]


theorem negotiationRun_exists (c : Cluster) (before : Nat → NeighbouringDataManager)
    (hown : ∀ g, 0 ≤ c.owner g ∧ c.owner g < c.P)
    (hfresh : ∀ A, A < c.P →
      (before A).needsHaveBeenShared = false ∧ (before A).needsEachProcHasFromMe.length = c.P) :
    ∃ inputs after logs, NegotiationRun c before inputs after logs := by
  let inputs : Nat → NegotiationInput := fun B =>
    { countOfNeedsOnEachProcFromMe := fun A =>
        (((before A).neededSites.filter (fun g => c.owner g = (B : Int))).length : Int)
      needsFrom := fun A => (before A).neededSites.filter (fun g => c.owner g = (B : Int)) }
  have hfit : ∀ B, InputFits (c.ctx B) (inputs B) := by
    intro B w _
    exact ⟨Int.natCast_nonneg _, by simp [inputs]⟩
  have hexp := fun w (hw : w < c.P) =>
    ShareNeeds_unshared (c.ctx w) (inputs w) (before w) (hfresh w hw).1 (hfresh w hw).2
      (ownersInRange_of_total c w _ hown) (hfit w)
  refine ⟨inputs, _, _, hexp, ?_⟩
  intro A B _ hB
  constructor
  · intro counts hmem
    rw [mem_shareLog_allToAllSend _ _ _ _ _ _ hmem]
    have hB2 : B < (c.ctx A).GetSize := hB
    simp only [List.getElem?_map, List.getElem?_range hB2, Option.map_some']
    rfl
  · intro payload hmem
    rw [mem_shareLog_sendV _ _ _ _ _ _ B hmem]
    rfl

/-- C2: round trip of the negotiation. On a partition whose owner function maps
into `[0, P)`, for workers that have not shared yet (one list per rank in the
table), a run of `ShareNeeds` on every worker over a faithful fabric exists, and
after every such run `B.needsEachProcHasFromMe[A]` is exactly the sub-list of
`A.neededSites` owned by `B`, in `A`'s order, for all workers `A` and `B`. -/
theorem C2_negotiation_round_trip (c : Cluster) (before : Nat → NeighbouringDataManager)
    (hown : ∀ g, 0 ≤ c.owner g ∧ c.owner g < c.P)
    (hfresh : ∀ A, A < c.P →
      (before A).needsHaveBeenShared = false ∧ (before A).needsEachProcHasFromMe.length = c.P) :
    (∃ inputs after logs, NegotiationRun c before inputs after logs)
      ∧ ∀ inputs after logs, NegotiationRun c before inputs after logs →
          ∀ A B, A < c.P → B < c.P →
            (after B).needsEachProcHasFromMe[A]?
                = some ((after A).neededSites.filter (fun g => c.owner g = (B : Int)))
              ∧ (after A).neededSites = (before A).neededSites := by
  refine ⟨negotiationRun_exists c before hown hfresh, ?_⟩
  intro inputs after logs hrun A B hA hB
  obtain ⟨hget, hlen, hneed, _⟩ :=
    negotiation_tables c before after inputs logs hown hfresh hrun A B hA hB
  refine ⟨?_, hneed⟩
  rw [hneed, ← hget, List.getD_eq_getElem?_getD,
    List.getElem?_eq_getElem (by rw [hlen]; exact hA)]
  rfl

theorem scenario_owner_total : ∀ g, 0 ≤ scenario.owner g ∧ scenario.owner g < scenario.P := by
  intro g
  simp only [scenario]
  split <;> decide

theorem scenario_fresh : ∀ A, A < scenario.P →
    (scenarioBefore A).needsHaveBeenShared = false
      ∧ (scenarioBefore A).needsEachProcHasFromMe.length = scenario.P := by
  intro A hA
  have hA2 : A < 2 := hA
  interval_cases A <;> decide

/-- Witness for C2 on the two-worker scenario. -/
theorem C2_witness :
    ((∀ g, 0 ≤ scenario.owner g ∧ scenario.owner g < scenario.P)
        ∧ (∀ A, A < scenario.P →
            (scenarioBefore A).needsHaveBeenShared = false
              ∧ (scenarioBefore A).needsEachProcHasFromMe.length = scenario.P))
      ∧ ((∃ inputs after logs, NegotiationRun scenario scenarioBefore inputs after logs)
          ∧ ∀ inputs after logs, NegotiationRun scenario scenarioBefore inputs after logs →
              ∀ A B, A < scenario.P → B < scenario.P →
                (after B).needsEachProcHasFromMe[A]?
                    = some ((after A).neededSites.filter
                        (fun g => scenario.owner g = (B : Int)))
                  ∧ (after A).neededSites = (scenarioBefore A).neededSites) :=
  ⟨⟨scenario_owner_total, scenario_fresh⟩,
    C2_negotiation_round_trip scenario scenarioBefore scenario_owner_total scenario_fresh⟩

theorem scenario_run :
    NegotiationRun scenario scenarioBefore scenarioInput scenarioAfter scenarioLog := by
  constructor
  · intro B hB
    have hB2 : B < 2 := hB
    interval_cases B <;> rfl
  · intro A B hA hB
    have hA2 : A < 2 := hA
    have hB2 : B < 2 := hB
    interval_cases A <;> interval_cases B <;>
      simp [scenarioLog, scenarioInput]


/-! ## Matching of the transfers between peers -/

theorem answer_staticReceives (c : Cluster) (A B : Nat) (L : List site_t) :
    (L.flatMap (staticReceives (c.ctx A))).map (Op.answer (c.localId B) (A : Int))
      = L.flatMap (staticSends (c.ctx B) A) := by
  induction L with
  | nil => rfl
  | cons g t ih =>
    rw [List.flatMap_cons, List.flatMap_cons, List.map_append, ih]
    rfl

theorem answer_fieldReceive (c : Cluster) (A B : Nat) (L : List site_t) :
    (L.map (fieldReceive (c.ctx A))).map (Op.answer (c.localId B) (A : Int))
      = L.map (fieldSend (c.ctx B) A) := by
  rw [List.map_map]
  apply List.map_congr_left
  intro g _
  rfl

/-- C4: the ordering invariant between peers. After every worker has completed
negotiation over a faithful fabric, for all workers `A` and `B` the list `L` of
`A`'s needed sites owned by `B` (in `A`'s order) equals `B.needsEachProcHasFromMe[A]`;
in the static transfer `A`'s receives from `B` are the four receives of each entry
of `L` in turn and `B`'s sends to `A` are the four sends of each entry of `L` in
turn, and in the dynamic transfer they are one receive and one send per entry of
`L` in turn, so that in both transfers the k-th send of `B` to `A` is the answer to
the k-th receive of `A` from `B`. -/
theorem C4_peer_ordering (c : Cluster) (before after : Nat → NeighbouringDataManager)
    (inputs later : Nat → NegotiationInput) (logs : Nat → List Op)
    (hown : ∀ g, 0 ≤ c.owner g ∧ c.owner g < c.P)
    (hfresh : ∀ A, A < c.P →
      (before A).needsHaveBeenShared = false ∧ (before A).needsEachProcHasFromMe.length = c.P)
    (hrun : NegotiationRun c before inputs after logs)
    (A B : Nat) (hA : A < c.P) (hB : B < c.P) :
    (after B).needsEachProcHasFromMe[A]?
        = some ((after A).neededSites.filter (fun g => c.owner g = (B : Int)))
      ∧ receivesFrom (TransferNonFieldDependentInformation (c.ctx A) (after A)).2 (B : Int)
        = ((after A).neededSites.filter (fun g => c.owner g = (B : Int))).flatMap
            (staticReceives (c.ctx A))
      ∧ sendsTo (TransferNonFieldDependentInformation (c.ctx B) (after B)).2 (A : Int)
        = ((after A).neededSites.filter (fun g => c.owner g = (B : Int))).flatMap
            (staticSends (c.ctx B) A)
      ∧ sendsTo (TransferNonFieldDependentInformation (c.ctx B) (after B)).2 (A : Int)
        = (receivesFrom (TransferNonFieldDependentInformation (c.ctx A) (after A)).2
            (B : Int)).map (Op.answer (c.localId B) (A : Int))
      ∧ ∃ logA logB,
          TransferFieldDependentInformation (c.ctx A) (later A) (after A)
              = .ok (after A, logA)
            ∧ TransferFieldDependentInformation (c.ctx B) (later B) (after B)
              = .ok (after B, logB)
            ∧ receivesFrom logA (B : Int)
              = ((after A).neededSites.filter (fun g => c.owner g = (B : Int))).map
                  (fieldReceive (c.ctx A))
            ∧ sendsTo logB (A : Int)
              = ((after A).neededSites.filter (fun g => c.owner g = (B : Int))).map
                  (fieldSend (c.ctx B) A)
            ∧ sendsTo logB (A : Int)
              = (receivesFrom logA (B : Int)).map (Op.answer (c.localId B) (A : Int)) := by
  obtain ⟨hget, hlen, hneed, hshA⟩ :=
    negotiation_tables c before after inputs logs hown hfresh hrun A B hA hB
  obtain ⟨_, _, _, hshB⟩ :=
    negotiation_tables c before after inputs logs hown hfresh hrun B B hB hB
  rw [← hneed] at hget
  have hsr := receivesFrom_static (c.ctx A) (after A) (B : Int)
  have hss := sendsTo_static (c.ctx B) (after B) A hA
  have hfr := receivesFrom_field (c.ctx A) (after A) (B : Int)
  have hfs := sendsTo_field (c.ctx B) (after B) A hA
  rw [hget] at hss hfs
  refine ⟨?_, hsr, hss, ?_, _, _, TransferField_latched _ _ _ hshA,
    TransferField_latched _ _ _ hshB, hfr, hfs, ?_⟩
  · rw [← hget, List.getD_eq_getElem?_getD,
      List.getElem?_eq_getElem (by rw [hlen]; exact hA)]
    rfl
  · rw [hss, hsr]
    exact (answer_staticReceives c A B _).symm
  · rw [hfs, hfr]
    exact (answer_fieldReceive c A B _).symm

/-- Witness for C4 on the two-worker scenario, for the receives of worker 0 from
worker 1. -/
theorem C4_witness :
    ((∀ g, 0 ≤ scenario.owner g ∧ scenario.owner g < scenario.P)
        ∧ (∀ A, A < scenario.P →
            (scenarioBefore A).needsHaveBeenShared = false
              ∧ (scenarioBefore A).needsEachProcHasFromMe.length = scenario.P)
        ∧ NegotiationRun scenario scenarioBefore scenarioInput scenarioAfter scenarioLog
        ∧ 0 < scenario.P ∧ 1 < scenario.P)
      ∧ ((scenarioAfter 1).needsEachProcHasFromMe[0]?
            = some ((scenarioAfter 0).neededSites.filter
                (fun g => scenario.owner g = ((1 : Nat) : Int)))
          ∧ receivesFrom
              (TransferNonFieldDependentInformation (scenario.ctx 0) (scenarioAfter 0)).2
              ((1 : Nat) : Int)
            = ((scenarioAfter 0).neededSites.filter
                (fun g => scenario.owner g = ((1 : Nat) : Int))).flatMap
                (staticReceives (scenario.ctx 0))
          ∧ sendsTo
              (TransferNonFieldDependentInformation (scenario.ctx 1) (scenarioAfter 1)).2
              ((0 : Nat) : Int)
            = ((scenarioAfter 0).neededSites.filter
                (fun g => scenario.owner g = ((1 : Nat) : Int))).flatMap
                (staticSends (scenario.ctx 1) 0)
          ∧ sendsTo
              (TransferNonFieldDependentInformation (scenario.ctx 1) (scenarioAfter 1)).2
              ((0 : Nat) : Int)
            = (receivesFrom
                (TransferNonFieldDependentInformation (scenario.ctx 0) (scenarioAfter 0)).2
                ((1 : Nat) : Int)).map (Op.answer (scenario.localId 1) ((0 : Nat) : Int))
          ∧ ∃ logA logB,
              TransferFieldDependentInformation (scenario.ctx 0) (scenarioInput 0)
                  (scenarioAfter 0) = .ok (scenarioAfter 0, logA)
                ∧ TransferFieldDependentInformation (scenario.ctx 1) (scenarioInput 1)
                  (scenarioAfter 1) = .ok (scenarioAfter 1, logB)
                ∧ receivesFrom logA ((1 : Nat) : Int)
                  = ((scenarioAfter 0).neededSites.filter
                      (fun g => scenario.owner g = ((1 : Nat) : Int))).map
                      (fieldReceive (scenario.ctx 0))
                ∧ sendsTo logB ((0 : Nat) : Int)
                  = ((scenarioAfter 0).neededSites.filter
                      (fun g => scenario.owner g = ((1 : Nat) : Int))).map
                      (fieldSend (scenario.ctx 1) 0)
                ∧ sendsTo logB ((0 : Nat) : Int)
                  = (receivesFrom logA ((1 : Nat) : Int)).map
                      (Op.answer (scenario.localId 1) ((0 : Nat) : Int))) :=
  ⟨⟨scenario_owner_total, scenario_fresh, scenario_run, by decide, by decide⟩,
    C4_peer_ordering scenario scenarioBefore scenarioAfter scenarioInput scenarioInput
      scenarioLog scenario_owner_total scenario_fresh scenario_run 0 1 (by decide) (by decide)⟩


/-! ## Delivery of the static transfer -/

theorem zip_flatMap_eq {α β γ : Type} (r : α → List β) (s : α → List γ)
    (h : ∀ a, (r a).length = (s a).length) (L : List α) :
    (L.flatMap r).zip (L.flatMap s) = L.flatMap (fun a => (r a).zip (s a)) := by
  induction L with
  | nil => rfl
  | cons a t ih =>
    rw [List.flatMap_cons, List.flatMap_cons, List.flatMap_cons, List.zip_append (h a), ih]

theorem read_write (w : Worker) (b1 b : Buffer) (v : Blob) :
    (w.write b1 v).read b = if b1 = b then v else w.read b := by
  cases b1 with
  | neighbouringSite g1 f1 =>
    cases b with
    | neighbouringSite g f =>
      by_cases h : g = g1 ∧ f = f1
      · obtain ⟨h1, h2⟩ := h
        subst h1; subst h2
        simp [Worker.write, Worker.read]
      · have h2 : ¬ (Buffer.neighbouringSite g1 f1 = Buffer.neighbouringSite g f) := by
          intro e
          injection e with e1 e2
          exact h ⟨e1.symm, e2.symm⟩
        simp [Worker.write, Worker.read, h, h2]
    | localSite l f => simp [Worker.write, Worker.read]
  | localSite l1 f1 =>
    cases b with
    | neighbouringSite g f => simp [Worker.write, Worker.read]
    | localSite l f =>
      by_cases h : l = l1 ∧ f = f1
      · obtain ⟨h1, h2⟩ := h
        subst h1; subst h2
        simp [Worker.write, Worker.read]
      · have h2 : ¬ (Buffer.localSite l1 f1 = Buffer.localSite l f) := by
          intro e
          injection e with e1 e2
          exact h ⟨e1.symm, e2.symm⟩
        simp [Worker.write, Worker.read, h, h2]

theorem manager_write (w : Worker) (b : Buffer) (v : Blob) :
    (w.write b v).manager = w.manager := by
  cases b <;> rfl

theorem foldl_write_manager :
    ∀ (arr : List (Buffer × Blob)) (w : Worker),
      (arr.foldl (fun w x => w.write x.1 x.2) w).manager = w.manager := by
  intro arr
  induction arr with
  | nil => intro w; rfl
  | cons x rest ih => intro w; rw [List.foldl_cons, ih, manager_write]

theorem foldl_write_read (b : Buffer) (v : Blob) :
    ∀ (arr : List (Buffer × Blob)) (w : Worker),
      (∀ x ∈ arr, x.1 = b → x.2 = v) →
      (arr.foldl (fun w x => w.write x.1 x.2) w).read b
        = if ∃ x ∈ arr, x.1 = b then v else w.read b := by
  intro arr
  induction arr with
  | nil => intro w _; simp
  | cons x rest ih =>
    intro w h
    rw [List.foldl_cons, ih _ (fun y hy => h y (List.mem_cons_of_mem _ hy)), read_write]
    by_cases hrest : ∃ y ∈ rest, y.1 = b
    · have : ∃ y ∈ x :: rest, y.1 = b := by
        obtain ⟨y, hy, hyb⟩ := hrest
        exact ⟨y, List.mem_cons_of_mem _ hy, hyb⟩
      rw [if_pos hrest, if_pos this]
    · rw [if_neg hrest]
      by_cases hx : x.1 = b
      · have : ∃ y ∈ x :: rest, y.1 = b := ⟨x, List.mem_cons_self _ _, hx⟩
        rw [if_pos hx, if_pos this]
        exact h x (List.mem_cons_self _ _) hx
      · have : ¬ ∃ y ∈ x :: rest, y.1 = b := by
          rintro ⟨y, hy, hyb⟩
          rcases List.mem_cons.1 hy with e | hmem
          · exact hx (e ▸ hyb)
          · exact hrest ⟨y, hmem, hyb⟩
        rw [if_neg hx, if_neg this]

theorem arrivals_static (c : Cluster) (ws : Nat → Worker) (A : Nat) (hA : A < c.P)
    (htbl : ∀ B, B < c.P →
      (ws B).manager.needsEachProcHasFromMe.getD A []
        = (ws A).manager.neededSites.filter (fun g => c.owner g = (B : Int))) :
    arrivals c.P ws
        (fun w => (TransferNonFieldDependentInformation (c.ctx w) (ws w).manager).2) A
      = (List.range c.P).flatMap (fun B : Nat =>
          ((ws A).manager.neededSites.filter (fun g => c.owner g = (B : Int))).flatMap
            (staticPayload c ws B)) := by
  unfold arrivals matched
  apply List.flatMap_congr
  intro B hB
  have hB2 : B < c.P := by simpa using hB
  have hr : receivesFrom
        (TransferNonFieldDependentInformation (c.ctx A) (ws A).manager).2 (B : Int)
      = ((ws A).manager.neededSites.filter (fun g => c.owner g = (B : Int))).flatMap
          (staticReceives (c.ctx A)) :=
    receivesFrom_static (c.ctx A) (ws A).manager (B : Int)
  have hs := sendsTo_static (c.ctx B) (ws B).manager A hA
  rw [htbl B hB2] at hs
  simp only [hr, hs]
  rw [zip_flatMap_eq (staticReceives (c.ctx A)) (staticSends (c.ctx B) A) (fun g => rfl),
    List.filterMap_flatMap]
  apply List.flatMap_congr
  intro g _
  rfl


theorem mem_staticPayload (c : Cluster) (ws : Nat → Worker) (B : Nat) (g : site_t)
    (x : Buffer × Blob) (hx : x ∈ staticPayload c ws B g) :
    ∃ f, x.1 = Buffer.neighbouringSite g f ∧ x.2 = (ws B).localLatticeData (c.localId B g) f := by
  simp only [staticPayload, List.mem_map] at hx
  obtain ⟨f, _, hf⟩ := hx
  exact ⟨f, by rw [← hf], by rw [← hf]⟩

/-- C3: positional integrity of the static transfer. For workers whose managers are
the outcome of a negotiation of every worker over a faithful fabric, when every
worker runs `TransferNonFieldDependentInformation` over a fabric pairing the k-th
send from `B` to `A` with the k-th receive at `A` from `B`, the dispatch of every
worker `A` completes, and for every site `g` in `A.neededSites` each of the four
static components of `A`'s mirror record for `g` is that component of the owner's
local site for `g`. -/
theorem C3_static_transfer_positional_integrity (c : Cluster) (ws : Nat → Worker)
    (before : Nat → NeighbouringDataManager) (inputs : Nat → NegotiationInput)
    (logs : Nat → List Op)
    (hown : ∀ g, 0 ≤ c.owner g ∧ c.owner g < c.P)
    (hfresh : ∀ A, A < c.P →
      (before A).needsHaveBeenShared = false ∧ (before A).needsEachProcHasFromMe.length = c.P)
    (hrun : NegotiationRun c before inputs (fun w => (ws w).manager) logs)
    (A : Nat) (hA : A < c.P) :
    ∃ wA, staticTransfer c ws A = some wA
      ∧ wA.manager = (ws A).manager
      ∧ ∀ g ∈ (ws A).manager.neededSites, ∀ f ∈ staticFields,
          wA.neighbouringLatticeData g f
            = (ws (c.owner g).toNat).localLatticeData (c.localId (c.owner g).toNat g) f := by
  have htbl : ∀ B, B < c.P →
      (ws B).manager.needsEachProcHasFromMe.getD A []
        = (ws A).manager.neededSites.filter (fun g => c.owner g = (B : Int)) := by
    intro B hB
    obtain ⟨hget, _, hneed, _⟩ :=
      negotiation_tables c before (fun w => (ws w).manager) inputs logs hown hfresh hrun
        A B hA hB
    have hneed2 : (ws A).manager.neededSites = (before A).neededSites := hneed
    rw [hneed2]; exact hget
  have hmatch : ∀ B, B < c.P →
      (receivesFrom (TransferNonFieldDependentInformation (c.ctx A) (ws A).manager).2
          (B : Int)).length
        = (sendsTo (TransferNonFieldDependentInformation (c.ctx B) (ws B).manager).2
          (A : Int)).length := by
    intro B hB
    rw [sendsTo_static (c.ctx B) (ws B).manager A hA, htbl B hB, receivesFrom_static]
    simp only [List.length_flatMap]
    rfl
  refine ⟨_, by simp only [staticTransfer, completeDispatch]; rw [if_pos hmatch],
    foldl_write_manager _ _, ?_⟩
  intro g hg f hf
  rw [arrivals_static c ws A hA htbl]
  have hB : (c.owner g).toNat < c.P := (Int.toNat_lt (hown g).1).2 (hown g).2
  have hBeq : (((c.owner g).toNat : Nat) : Int) = c.owner g := Int.toNat_of_nonneg (hown g).1
  have hall : ∀ x ∈ (List.range c.P).flatMap (fun B : Nat =>
        ((ws A).manager.neededSites.filter (fun k => c.owner k = (B : Int))).flatMap
          (staticPayload c ws B)),
      x.1 = Buffer.neighbouringSite g f →
        x.2 = (ws (c.owner g).toNat).localLatticeData (c.localId (c.owner g).toNat g) f := by
    intro x hx hxb
    simp only [List.mem_flatMap, List.mem_filter, decide_eq_true_eq] at hx
    obtain ⟨B2, _, g2, ⟨_, hg2⟩, hx2⟩ := hx
    obtain ⟨f2, h1, h2⟩ := mem_staticPayload c ws B2 g2 x hx2
    rw [h1] at hxb
    injection hxb with e1 e2
    subst e1; subst e2
    have : (c.owner g2).toNat = B2 := by rw [hg2]; exact Int.toNat_ofNat B2
    rw [this]; exact h2
  have hex : ∃ x ∈ (List.range c.P).flatMap (fun B : Nat =>
        ((ws A).manager.neededSites.filter (fun k => c.owner k = (B : Int))).flatMap
          (staticPayload c ws B)),
      x.1 = Buffer.neighbouringSite g f := by
    refine ⟨(Buffer.neighbouringSite g f,
      (ws (c.owner g).toNat).localLatticeData (c.localId (c.owner g).toNat g) f), ?_, rfl⟩
    simp only [List.mem_flatMap, List.mem_filter, decide_eq_true_eq, List.mem_range]
    refine ⟨(c.owner g).toNat, hB, g, ⟨hg, hBeq.symm⟩, ?_⟩
    simp only [staticPayload, List.mem_map]
    exact ⟨f, hf, rfl⟩
  have hread := foldl_write_read (Buffer.neighbouringSite g f) _ _ (ws A) hall
  rw [if_pos hex] at hread
  exact hread

/-- Witness for C3 on the two-worker scenario, for worker 0. -/
theorem C3_witness :
    ((∀ g, 0 ≤ scenario.owner g ∧ scenario.owner g < scenario.P)
        ∧ (∀ A, A < scenario.P →
            (scenarioBefore A).needsHaveBeenShared = false
              ∧ (scenarioBefore A).needsEachProcHasFromMe.length = scenario.P)
        ∧ NegotiationRun scenario scenarioBefore scenarioInput
            (fun w => (scenarioWorker w).manager) scenarioLog
        ∧ 0 < scenario.P)
      ∧ ∃ wA, staticTransfer scenario scenarioWorker 0 = some wA
          ∧ wA.manager = (scenarioWorker 0).manager
          ∧ ∀ g ∈ (scenarioWorker 0).manager.neededSites, ∀ f ∈ staticFields,
              wA.neighbouringLatticeData g f
                = (scenarioWorker (scenario.owner g).toNat).localLatticeData
                    (scenario.localId (scenario.owner g).toNat g) f :=
  ⟨⟨scenario_owner_total, scenario_fresh, scenario_run, by decide⟩,
    C3_static_transfer_positional_integrity scenario scenarioWorker scenarioBefore
      scenarioInput scenarioLog scenario_owner_total scenario_fresh scenario_run 0
      (by decide)⟩


/-! ## Further claims on one manager -/

/-- C11: the requirements argument has no influence: for every state, site id and
two requirement values, `RegisterNeededSite` produces the same state, whether the
site is new or already registered. -/
theorem C11_requirements_ignored (s : NeighbouringDataManager) (g : site_t)
    (r1 r2 : RequiredSiteInformation) :
    s.RegisterNeededSite g r1 = s.RegisterNeededSite g r2 := by
  rfl

theorem staticReceiveLoop_isReceive (ctx : Context) (needed : List site_t) :
    ∀ op ∈ staticReceiveLoop ctx needed, op.isReceive = true := by
  intro op hop
  simp only [staticReceiveLoop, List.mem_flatMap, staticReceives] at hop
  obtain ⟨g, _, hg⟩ := hop
  simp only [List.mem_cons, List.mem_singleton, List.not_mem_nil, or_false] at hg
  rcases hg with h | h | h | h <;> subst h <;> rfl

theorem staticSendLoop_isSend (ctx : Context) (tbl : List (List site_t)) :
    ∀ op ∈ staticSendLoop ctx tbl, op.isSend = true := by
  intro op hop
  simp only [staticSendLoop, List.mem_flatMap, staticSends] at hop
  obtain ⟨w, _, g, _, hg⟩ := hop
  simp only [List.mem_cons, List.mem_singleton, List.not_mem_nil, or_false] at hg
  rcases hg with h | h | h | h <;> subst h <;> rfl

theorem fieldReceiveLoop_isReceive (ctx : Context) (needed : List site_t) :
    ∀ op ∈ fieldReceiveLoop ctx needed, op.isReceive = true := by
  intro op hop
  simp only [fieldReceiveLoop, List.mem_map, fieldReceive] at hop
  obtain ⟨g, _, hg⟩ := hop
  subst hg; rfl

theorem fieldSendLoop_isSend (ctx : Context) (tbl : List (List site_t)) :
    ∀ op ∈ fieldSendLoop ctx tbl, op.isSend = true := by
  intro op hop
  simp only [fieldSendLoop, List.mem_flatMap, List.mem_map, fieldSend] at hop
  obtain ⟨w, _, g, _, hg⟩ := hop
  subst hg; rfl

theorem length_flatMap_const {α β : Type} (f : α → List β) (k : Nat)
    (h : ∀ a, (f a).length = k) (l : List α) : (l.flatMap f).length = k * l.length := by
  induction l with
  | nil => simp
  | cons a t ih =>
    rw [List.flatMap_cons, List.length_append, h a, ih, List.length_cons]
    ring

/-- C13: the operation log of the static transfer. For every state the call leaves
the state as it is and queues, for each entry `g` of `neededSites` in list order, the
four receives from the owner of `g` into the mirror record of `g` (intersection
data, other raw data, wall distances with count `GetNumVectors() - 1`, wall
normal); then, for each rank `w = 0 .. P-1` in ascending order and each entry of
`needsEachProcHasFromMe[w]` in list order, the four sends to `w` of the same
components of the local site of that entry; then one `Dispatch`. The first block
holds only receives and the second only sends, so every receive precedes every send
and the `Dispatch` at the end is the only one. -/
theorem C13_static_transfer_log (ctx : Context) (s : NeighbouringDataManager) :
    TransferNonFieldDependentInformation ctx s
        = (s,
            s.neededSites.flatMap (fun g =>
              [ Op.RequestReceiveR (Buffer.neighbouringSite g Field.IntersectionData)
                  (ctx.ProcProvidingSiteByGlobalNoncontiguousId g),
                Op.RequestReceiveR (Buffer.neighbouringSite g Field.OtherRawData)
                  (ctx.ProcProvidingSiteByGlobalNoncontiguousId g),
                Op.RequestReceive (Buffer.neighbouringSite g Field.WallDistances)
                  ((ctx.GetNumVectors : Int) - 1)
                  (ctx.ProcProvidingSiteByGlobalNoncontiguousId g),
                Op.RequestReceiveR (Buffer.neighbouringSite g Field.WallNormal)
                  (ctx.ProcProvidingSiteByGlobalNoncontiguousId g) ])
            ++ (List.range ctx.GetSize).flatMap (fun w : Nat =>
                (s.needsEachProcHasFromMe.getD w []).flatMap (fun e =>
                  [ Op.RequestSendR
                      (Buffer.localSite (ctx.GetLocalContiguousIdFromGlobalNoncontiguousId e)
                        Field.IntersectionData) (w : Int),
                    Op.RequestSendR
                      (Buffer.localSite (ctx.GetLocalContiguousIdFromGlobalNoncontiguousId e)
                        Field.OtherRawData) (w : Int),
                    Op.RequestSend
                      (Buffer.localSite (ctx.GetLocalContiguousIdFromGlobalNoncontiguousId e)
                        Field.WallDistances) ((ctx.GetNumVectors : Int) - 1) (w : Int),
                    Op.RequestSendR
                      (Buffer.localSite (ctx.GetLocalContiguousIdFromGlobalNoncontiguousId e)
                        Field.WallNormal) (w : Int) ]))
            ++ [Op.Dispatch])
      ∧ (TransferNonFieldDependentInformation ctx s).2
          = staticReceiveLoop ctx s.neededSites
              ++ staticSendLoop ctx s.needsEachProcHasFromMe ++ [Op.Dispatch]
      ∧ (∀ op ∈ staticReceiveLoop ctx s.neededSites, op.isReceive = true)
      ∧ (∀ op ∈ staticSendLoop ctx s.needsEachProcHasFromMe, op.isSend = true)
      ∧ (staticReceiveLoop ctx s.neededSites).length = 4 * s.neededSites.length
      ∧ (TransferNonFieldDependentInformation ctx s).2.count Op.Dispatch = 1 := by
  refine ⟨rfl, rfl, staticReceiveLoop_isReceive ctx _, staticSendLoop_isSend ctx _, ?_, ?_⟩
  · exact length_flatMap_const (staticReceives ctx) 4 (fun _ => rfl) s.neededSites
  · have h1 : (staticReceiveLoop ctx s.neededSites).count Op.Dispatch = 0 :=
      List.count_eq_zero_of_not_mem (fun h => by
        have := staticReceiveLoop_isReceive ctx _ _ h
        cases this)
    have h2 : (staticSendLoop ctx s.needsEachProcHasFromMe).count Op.Dispatch = 0 :=
      List.count_eq_zero_of_not_mem (fun h => by
        have := staticSendLoop_isSend ctx _ _ h
        cases this)
    simp [TransferNonFieldDependentInformation, List.count_append, h1, h2]


/-- C14: the operation log of the dynamic transfer on a latched manager. The call
returns, leaves the state as it is and queues one receive per entry `g` of
`neededSites` in list order (from the owner of `g`, count `GetNumVectors()`, into
the distribution vector of the mirror record of `g`), then one send per entry of
`needsEachProcHasFromMe[w]` for `w = 0 .. P-1` in ascending order (to `w`, count
`GetNumVectors()`, from the distribution vector of the local site of the entry),
then one `Dispatch`; the log holds no negotiation operation and no second
`Dispatch`. -/
theorem C14_dynamic_transfer_log (ctx : Context) (input : NegotiationInput)
    (s : NeighbouringDataManager) (hs : s.needsHaveBeenShared = true) :
    TransferFieldDependentInformation ctx input s
        = .ok (s,
            s.neededSites.map (fun g =>
              Op.RequestReceive (Buffer.neighbouringSite g Field.FOld)
                (ctx.GetNumVectors : Int) (ctx.ProcProvidingSiteByGlobalNoncontiguousId g))
            ++ (List.range ctx.GetSize).flatMap (fun w : Nat =>
                (s.needsEachProcHasFromMe.getD w []).map (fun e =>
                  Op.RequestSend
                    (Buffer.localSite (ctx.GetLocalContiguousIdFromGlobalNoncontiguousId e)
                      Field.FOld) (ctx.GetNumVectors : Int) (w : Int)))
            ++ [Op.Dispatch])
      ∧ (∀ op ∈ fieldReceiveLoop ctx s.neededSites, op.isReceive = true)
      ∧ (∀ op ∈ fieldSendLoop ctx s.needsEachProcHasFromMe, op.isSend = true)
      ∧ (fieldReceiveLoop ctx s.neededSites).length = s.neededSites.length
      ∧ (fieldReceiveLoop ctx s.neededSites
            ++ fieldSendLoop ctx s.needsEachProcHasFromMe ++ [Op.Dispatch]).count Op.Dispatch = 1
      ∧ (∀ op ∈ fieldReceiveLoop ctx s.neededSites
            ++ fieldSendLoop ctx s.needsEachProcHasFromMe ++ [Op.Dispatch],
          op.isNegotiation = false) := by
  refine ⟨TransferField_latched ctx input s hs, fieldReceiveLoop_isReceive ctx _,
    fieldSendLoop_isSend ctx _, by simp [fieldReceiveLoop], ?_,
    field_log_latched_not_negotiation ctx s⟩
  have h1 : (fieldReceiveLoop ctx s.neededSites).count Op.Dispatch = 0 :=
    List.count_eq_zero_of_not_mem (fun h => by
      have := fieldReceiveLoop_isReceive ctx _ _ h
      cases this)
  have h2 : (fieldSendLoop ctx s.needsEachProcHasFromMe).count Op.Dispatch = 0 :=
    List.count_eq_zero_of_not_mem (fun h => by
      have := fieldSendLoop_isSend ctx _ _ h
      cases this)
  simp [List.count_append, h1, h2]

/-- Witness for C14 on worker 0 of the scenario after negotiation. -/
theorem C14_witness :
    (scenarioAfter 0).needsHaveBeenShared = true
      ∧ (TransferFieldDependentInformation (scenario.ctx 0) (scenarioInput 0) (scenarioAfter 0)
          = .ok (scenarioAfter 0,
              (scenarioAfter 0).neededSites.map (fun g =>
                Op.RequestReceive (Buffer.neighbouringSite g Field.FOld)
                  ((scenario.ctx 0).GetNumVectors : Int)
                  ((scenario.ctx 0).ProcProvidingSiteByGlobalNoncontiguousId g))
              ++ (List.range (scenario.ctx 0).GetSize).flatMap (fun w : Nat =>
                  ((scenarioAfter 0).needsEachProcHasFromMe.getD w []).map (fun e =>
                    Op.RequestSend
                      (Buffer.localSite
                        ((scenario.ctx 0).GetLocalContiguousIdFromGlobalNoncontiguousId e)
                        Field.FOld) ((scenario.ctx 0).GetNumVectors : Int) (w : Int)))
              ++ [Op.Dispatch])
        ∧ (∀ op ∈ fieldReceiveLoop (scenario.ctx 0) (scenarioAfter 0).neededSites,
            op.isReceive = true)
        ∧ (∀ op ∈ fieldSendLoop (scenario.ctx 0) (scenarioAfter 0).needsEachProcHasFromMe,
            op.isSend = true)
        ∧ (fieldReceiveLoop (scenario.ctx 0) (scenarioAfter 0).neededSites).length
            = (scenarioAfter 0).neededSites.length
        ∧ (fieldReceiveLoop (scenario.ctx 0) (scenarioAfter 0).neededSites
              ++ fieldSendLoop (scenario.ctx 0) (scenarioAfter 0).needsEachProcHasFromMe
              ++ [Op.Dispatch]).count Op.Dispatch = 1
        ∧ (∀ op ∈ fieldReceiveLoop (scenario.ctx 0) (scenarioAfter 0).neededSites
              ++ fieldSendLoop (scenario.ctx 0) (scenarioAfter 0).needsEachProcHasFromMe
              ++ [Op.Dispatch],
            op.isNegotiation = false)) :=
  ⟨by decide,
    C14_dynamic_transfer_log (scenario.ctx 0) (scenarioInput 0) (scenarioAfter 0) (by decide)⟩

/-- C16: once shared, the negotiated table is read-only. On a latched manager each
of `RegisterNeededSite`, `ShareNeeds`, `TransferNonFieldDependentInformation` and
`TransferFieldDependentInformation` returns and leaves `needsEachProcHasFromMe`
(and the latch) as they were. -/
theorem C16_table_read_only_once_shared (ctx : Context) (s : NeighbouringDataManager)
    (call : Call) (hs : s.needsHaveBeenShared = true) :
    ∃ s1 ops, call.apply ctx s = .ok (s1, ops)
      ∧ s1.needsEachProcHasFromMe = s.needsEachProcHasFromMe
      ∧ s1.needsHaveBeenShared = true := by
  obtain ⟨s1, ops, h, hs1, ht, _⟩ := apply_latched ctx s hs call
  exact ⟨s1, ops, h, ht, hs1⟩

/-- Witness for C16: worker 0 of the scenario runs the dynamic transfer after
negotiation. -/
theorem C16_witness :
    (scenarioAfter 0).needsHaveBeenShared = true
      ∧ ∃ s1 ops,
          (Call.TransferFieldDependentInformation (scenarioInput 0)).apply (scenario.ctx 0)
              (scenarioAfter 0) = .ok (s1, ops)
            ∧ s1.needsEachProcHasFromMe = (scenarioAfter 0).needsEachProcHasFromMe
            ∧ s1.needsHaveBeenShared = true :=
  ⟨by decide,
    C16_table_read_only_once_shared (scenario.ctx 0) (scenarioAfter 0)
      (Call.TransferFieldDependentInformation (scenarioInput 0)) (by decide)⟩

/-- C17: `ProcForSite` is a pure query: it returns the owner the partition directory
gives for the site, leaves every data member as it was and queues no operation. -/
theorem C17_procForSite_pure (ctx : Context) (s : NeighbouringDataManager) (g : site_t) :
    ProcForSiteCall ctx s g = (ctx.ProcProvidingSiteByGlobalNoncontiguousId g, s, [])
      ∧ ProcForSite ctx g = ctx.ProcProvidingSiteByGlobalNoncontiguousId g := by
  exact ⟨rfl, rfl⟩


/-! ## The steps of the negotiation -/

theorem buildNeedsTable_ok_owners (ctx : Context) :
    ∀ (needed : List site_t) (acc r : List (List site_t) × List Int),
      buildNeedsTable ctx needed acc = .ok r → OwnersInRange ctx needed := by
  intro needed
  induction needed with
  | nil => intro _ _ _ g hg; simp at hg
  | cons k rest ih =>
    intro acc r h g hg
    obtain ⟨tbl, cnt⟩ := acc
    rw [buildNeedsTable] at h
    by_cases hk : 0 ≤ ProcForSite ctx k ∧ ProcForSite ctx k < ctx.GetSize
    · rw [if_pos hk] at h
      rcases List.mem_cons.1 hg with e | hmem
      · subst e; exact hk
      · exact ih _ _ h g hmem
    · rw [if_neg hk] at h; cases h

theorem buildNeedsTable_fresh (ctx : Context) (needed : List site_t)
    (hown : OwnersInRange ctx needed) :
    buildNeedsTable ctx needed (List.replicate ctx.GetSize [], List.replicate ctx.GetSize 0)
      = .ok ((List.range ctx.GetSize).map (fun w : Nat =>
                needed.filter (fun g => ProcForSite ctx g = (w : Int))),
             (List.range ctx.GetSize).map (fun w : Nat =>
                ((needed.filter (fun g => ProcForSite ctx g = (w : Int))).length : Int))) := by
  rw [buildNeedsTable_ok ctx needed hown _ _ (by simp) (by simp)]
  congr 2
  · apply List.map_congr_left
    intro w hw
    have hw2 : w < ctx.GetSize := by simpa using hw
    simp [List.getD_eq_getElem?_getD, List.getElem?_replicate, hw2]
  · apply List.map_congr_left
    intro w hw
    have hw2 : w < ctx.GetSize := by simpa using hw
    simp [List.getD_eq_getElem?_getD, List.getElem?_replicate, hw2]

theorem ShareNeeds_ok_shape (ctx : Context) (input : NegotiationInput)
    (s s1 : NeighbouringDataManager) (ops : List Op)
    (hs : s.needsHaveBeenShared = false)
    (h : ShareNeeds ctx input s = .ok (s1, ops)) :
    OwnersInRange ctx s.neededSites
      ∧ ops = [Op.RequestAllToAllSend ((List.range ctx.GetSize).map (fun w : Nat =>
                  ((s.neededSites.filter (fun g => ProcForSite ctx g = (w : Int))).length : Int))),
               Op.RequestAllToAllReceive ctx.GetSize,
               Op.Dispatch]
              ++ (List.range ctx.GetSize).flatMap (fun w : Nat =>
                  [Op.RequestSendV
                      (s.neededSites.filter (fun g => ProcForSite ctx g = (w : Int))) w,
                   Op.RequestReceiveV (input.countOfNeedsOnEachProcFromMe w).toNat w])
              ++ [Op.Dispatch] := by
  simp only [ShareNeeds, hs, Bool.false_eq_true, if_false] at h
  split at h
  · cases h
  · rename_i needs counts hb
    have hown := buildNeedsTable_ok_owners ctx _ _ _ hb
    rw [buildNeedsTable_fresh ctx _ hown] at hb
    have hneeds := congrArg Prod.fst (Except.ok.inj hb)
    have hcounts := congrArg Prod.snd (Except.ok.inj hb)
    simp only at hneeds hcounts
    split at h
    · cases h
    · rename_i resized ops2 hex
      split at h
      · cases h
      · have hnn := exchangeLoop_nonneg _ _ _ _ _ hex
        rw [exchangeLoop_ok _ _ _ _ _ hnn] at hex
        have hops := congrArg Prod.snd (Except.ok.inj hex)
        have hlog := congrArg Prod.snd (Except.ok.inj h)
        simp only at hops hlog
        refine ⟨hown, ?_⟩
        rw [← hlog, ← hops, ← hcounts, ← hneeds]
        congr 2
        apply List.flatMap_congr
        intro w hw
        rw [getD_map_range _ _ _ _ (by simpa using hw)]

/-- C18: the partition step of the negotiation. When every needed site is owned by a
rank in `[0, P)`, the table-building loop of `ShareNeeds` completes; both vectors
have `P` entries, `needsIHaveFromEachProc[w]` is the sub-list of `neededSites`
owned by `w` in `neededSites` order, `countOfNeedsIHaveFromEachProc[w]` is its
length, and a completing `ShareNeeds` on such a state queues these counts in its
all-to-all send and these lists in its sends of variable length. -/
theorem C18_partition_step (ctx : Context) (needed : List site_t)
    (hown : OwnersInRange ctx needed) :
    ∃ needsIHaveFromEachProc countOfNeedsIHaveFromEachProc,
      buildNeedsTable ctx needed (List.replicate ctx.GetSize [], List.replicate ctx.GetSize 0)
          = .ok (needsIHaveFromEachProc, countOfNeedsIHaveFromEachProc)
        ∧ needsIHaveFromEachProc.length = ctx.GetSize
        ∧ countOfNeedsIHaveFromEachProc.length = ctx.GetSize
        ∧ (∀ w : Nat, w < ctx.GetSize →
            needsIHaveFromEachProc[w]?
                = some (needed.filter (fun g => ProcForSite ctx g = (w : Int)))
              ∧ countOfNeedsIHaveFromEachProc[w]?
                = some ((needed.filter (fun g => ProcForSite ctx g = (w : Int))).length : Int))
        ∧ (∀ (input : NegotiationInput) (s s1 : NeighbouringDataManager) (ops : List Op),
            s.neededSites = needed → s.needsHaveBeenShared = false →
            ShareNeeds ctx input s = .ok (s1, ops) →
              Op.RequestAllToAllSend countOfNeedsIHaveFromEachProc ∈ ops
                ∧ ∀ w : Nat, w < ctx.GetSize →
                    Op.RequestSendV (needsIHaveFromEachProc.getD w []) (w : Int) ∈ ops) := by
  refine ⟨_, _, buildNeedsTable_fresh ctx needed hown, by simp, by simp, ?_, ?_⟩
  · intro w hw
    simp [List.getElem?_map, List.getElem?_range hw]
  · intro input s s1 ops hneed hs h
    obtain ⟨_, hops⟩ := ShareNeeds_ok_shape ctx input s s1 ops hs h
    rw [hops, hneed]
    refine ⟨List.mem_append_left _ (List.mem_append_left _ (List.mem_cons_self _ _)), ?_⟩
    intro w hw
    rw [getD_map_range _ _ _ _ hw]
    exact sendV_mem_shareLog _ _
      (fun w : Nat => needed.filter (fun g => ProcForSite ctx g = (w : Int))) _ _ w hw

/-- Witness for C18 on the needs of worker 0 of the scenario. -/
theorem C18_witness :
    OwnersInRange (scenario.ctx 0) [100]
      ∧ ∃ needsIHaveFromEachProc countOfNeedsIHaveFromEachProc,
          buildNeedsTable (scenario.ctx 0) [100]
              (List.replicate (scenario.ctx 0).GetSize [],
                List.replicate (scenario.ctx 0).GetSize 0)
              = .ok (needsIHaveFromEachProc, countOfNeedsIHaveFromEachProc)
            ∧ needsIHaveFromEachProc.length = (scenario.ctx 0).GetSize
            ∧ countOfNeedsIHaveFromEachProc.length = (scenario.ctx 0).GetSize
            ∧ (∀ w : Nat, w < (scenario.ctx 0).GetSize →
                needsIHaveFromEachProc[w]?
                    = some (([100] : List site_t).filter
                        (fun g => ProcForSite (scenario.ctx 0) g = (w : Int)))
                  ∧ countOfNeedsIHaveFromEachProc[w]?
                    = some ((([100] : List site_t).filter
                        (fun g => ProcForSite (scenario.ctx 0) g = (w : Int))).length : Int))
            ∧ (∀ (input : NegotiationInput) (s s1 : NeighbouringDataManager) (ops : List Op),
                s.neededSites = [100] → s.needsHaveBeenShared = false →
                ShareNeeds (scenario.ctx 0) input s = .ok (s1, ops) →
                  Op.RequestAllToAllSend countOfNeedsIHaveFromEachProc ∈ ops
                    ∧ ∀ w : Nat, w < (scenario.ctx 0).GetSize →
                        Op.RequestSendV (needsIHaveFromEachProc.getD w []) (w : Int) ∈ ops) :=
  ⟨by decide, C18_partition_step (scenario.ctx 0) [100] (by decide)⟩


/-- C19: the communication shape of the negotiation. On a manager whose latch is clear
(table of `P` lists, owners of the needed sites in `[0, P)`, usable fabric data)
`ShareNeeds` returns and its log is: one all-to-all send of the `P` counts, one
all-to-all receive, a `Dispatch`; then for each rank `w = 0 .. P-1` in ascending
order one send of variable length of `needsIHaveFromEachProc[w]` to `w` and one
receive of variable length from `w`; then one `Dispatch`. The log has `2 * P + 4`
entries and nothing else. -/
theorem C19_negotiation_shape (ctx : Context) (input : NegotiationInput)
    (s : NeighbouringDataManager) (hs : s.needsHaveBeenShared = false)
    (hlen : s.needsEachProcHasFromMe.length = ctx.GetSize)
    (hown : OwnersInRange ctx s.neededSites) (hfit : InputFits ctx input) :
    ∃ s1 log, ShareNeeds ctx input s = .ok (s1, log)
      ∧ log = [Op.RequestAllToAllSend ((List.range ctx.GetSize).map (fun w : Nat =>
                  ((s.neededSites.filter (fun g => ProcForSite ctx g = (w : Int))).length : Int))),
               Op.RequestAllToAllReceive ctx.GetSize,
               Op.Dispatch]
              ++ (List.range ctx.GetSize).flatMap (fun w : Nat =>
                  [Op.RequestSendV
                      (s.neededSites.filter (fun g => ProcForSite ctx g = (w : Int))) (w : Int),
                   Op.RequestReceiveV (input.countOfNeedsOnEachProcFromMe w).toNat (w : Int)])
              ++ [Op.Dispatch]
      ∧ ((List.range ctx.GetSize).map (fun w : Nat =>
            ((s.neededSites.filter (fun g => ProcForSite ctx g = (w : Int))).length : Int))).length
          = ctx.GetSize
      ∧ log.length = 2 * ctx.GetSize + 4 := by
  refine ⟨_, _, ShareNeeds_unshared ctx input s hs hlen hown hfit, rfl, by simp, ?_⟩
  simp only [List.length_append, List.length_cons, List.length_nil]
  rw [length_flatMap_const (fun w : Nat =>
      [Op.RequestSendV
          (s.neededSites.filter (fun g => ProcForSite ctx g = (w : Int))) (w : Int),
       Op.RequestReceiveV (input.countOfNeedsOnEachProcFromMe w).toNat (w : Int)]) 2
      (fun _ => rfl), List.length_range]
  omega

/-- Witness for C19 on worker 0 of the scenario before negotiation. -/
theorem C19_witness :
    ((scenarioBefore 0).needsHaveBeenShared = false
        ∧ (scenarioBefore 0).needsEachProcHasFromMe.length = (scenario.ctx 0).GetSize
        ∧ OwnersInRange (scenario.ctx 0) (scenarioBefore 0).neededSites
        ∧ InputFits (scenario.ctx 0) (scenarioInput 0))
      ∧ ∃ s1 log, ShareNeeds (scenario.ctx 0) (scenarioInput 0) (scenarioBefore 0) = .ok (s1, log)
          ∧ log = [Op.RequestAllToAllSend ((List.range (scenario.ctx 0).GetSize).map
                      (fun w : Nat =>
                        (((scenarioBefore 0).neededSites.filter
                          (fun g => ProcForSite (scenario.ctx 0) g = (w : Int))).length : Int))),
                   Op.RequestAllToAllReceive (scenario.ctx 0).GetSize,
                   Op.Dispatch]
                  ++ (List.range (scenario.ctx 0).GetSize).flatMap (fun w : Nat =>
                      [Op.RequestSendV
                          ((scenarioBefore 0).neededSites.filter
                            (fun g => ProcForSite (scenario.ctx 0) g = (w : Int))) (w : Int),
                       Op.RequestReceiveV
                          ((scenarioInput 0).countOfNeedsOnEachProcFromMe w).toNat (w : Int)])
                  ++ [Op.Dispatch]
          ∧ ((List.range (scenario.ctx 0).GetSize).map (fun w : Nat =>
                (((scenarioBefore 0).neededSites.filter
                  (fun g => ProcForSite (scenario.ctx 0) g = (w : Int))).length : Int))).length
              = (scenario.ctx 0).GetSize
          ∧ log.length = 2 * (scenario.ctx 0).GetSize + 4 :=
  ⟨⟨by decide, by decide, by decide, by decide⟩,
    C19_negotiation_shape (scenario.ctx 0) (scenarioInput 0) (scenarioBefore 0)
      (by decide) (by decide) (by decide) (by decide)⟩

/-- C20: the receive lists are sized from the count exchange. On a manager whose latch
is clear (table of `P` lists, owners in `[0, P)`, usable fabric data with counts
`c`), the exchange loop resizes `needsEachProcHasFromMe[w]` to `c[w]` entries and
queues the receive of variable length from `w` with that size; `ShareNeeds`
returns, and afterwards `needsEachProcHasFromMe` has `P` lists and the list for
every rank `w` has exactly `c[w]` entries. -/
theorem C20_receive_lists_sized_from_counts (ctx : Context) (input : NegotiationInput)
    (s : NeighbouringDataManager) (hs : s.needsHaveBeenShared = false)
    (hlen : s.needsEachProcHasFromMe.length = ctx.GetSize)
    (hown : OwnersInRange ctx s.neededSites) (hfit : InputFits ctx input) :
    (∀ (needs : List (List site_t)) (ops0 : List Op),
        ∃ resized ops,
          exchangeLoop needs input.countOfNeedsOnEachProcFromMe (List.range ctx.GetSize)
              (s.needsEachProcHasFromMe, ops0) = .ok (resized, ops)
            ∧ ∀ w : Nat, w < ctx.GetSize →
                ((resized.getD w []).length : Int) = input.countOfNeedsOnEachProcFromMe w
                  ∧ Op.RequestReceiveV (resized.getD w []).length (w : Int) ∈ ops)
      ∧ ∃ s1 log, ShareNeeds ctx input s = .ok (s1, log)
          ∧ s1.needsEachProcHasFromMe.length = ctx.GetSize
          ∧ ∀ w : Nat, w < ctx.GetSize →
              ∃ l, s1.needsEachProcHasFromMe[w]? = some l
                ∧ (l.length : Int) = input.countOfNeedsOnEachProcFromMe w
                ∧ Op.RequestReceiveV l.length (w : Int) ∈ log := by
  have hnn : ∀ o ∈ List.range ctx.GetSize, 0 ≤ input.countOfNeedsOnEachProcFromMe o :=
    fun o ho => (hfit o (by simpa using ho)).1
  constructor
  · intro needs ops0
    refine ⟨_, _, exchangeLoop_ok needs _ _ _ ops0 hnn, ?_⟩
    intro w hw
    rw [foldl_set_range (fun o x => resize x (input.countOfNeedsOnEachProcFromMe o).toNat) []
      ctx.GetSize s.needsEachProcHasFromMe hlen, getD_map_range _ _ _ _ hw, length_resize]
    refine ⟨Int.toNat_of_nonneg (hfit w hw).1, ?_⟩
    apply List.mem_append_right
    rw [List.mem_flatMap]
    exact ⟨w, by simpa using hw, by simp⟩
  · refine ⟨_, _, ShareNeeds_unshared ctx input s hs hlen hown hfit, by simp, ?_⟩
    intro w hw
    have hlenw : (input.needsFrom w
        ++ (resize (s.needsEachProcHasFromMe.getD w [])
              (input.countOfNeedsOnEachProcFromMe w).toNat).drop (input.needsFrom w).length).length
        = (input.countOfNeedsOnEachProcFromMe w).toNat := by
      have := (hfit w hw).2
      rw [List.length_append, List.length_drop, length_resize]
      omega
    refine ⟨input.needsFrom w
        ++ (resize (s.needsEachProcHasFromMe.getD w [])
              (input.countOfNeedsOnEachProcFromMe w).toNat).drop (input.needsFrom w).length,
      ?_, ?_, ?_⟩
    · simp only [List.getElem?_map, List.getElem?_range hw, Option.map_some']
    · rw [hlenw]; exact Int.toNat_of_nonneg (hfit w hw).1
    · rw [hlenw]
      apply List.mem_append_left
      apply List.mem_append_right
      rw [List.mem_flatMap]
      exact ⟨w, by simpa using hw, by simp⟩


/-- Witness for C20 on worker 0 of the scenario before negotiation. -/
theorem C20_witness :
    ((scenarioBefore 0).needsHaveBeenShared = false
        ∧ (scenarioBefore 0).needsEachProcHasFromMe.length = (scenario.ctx 0).GetSize
        ∧ OwnersInRange (scenario.ctx 0) (scenarioBefore 0).neededSites
        ∧ InputFits (scenario.ctx 0) (scenarioInput 0))
      ∧ ((∀ (needs : List (List site_t)) (ops0 : List Op),
            ∃ resized ops,
              exchangeLoop needs (scenarioInput 0).countOfNeedsOnEachProcFromMe
                  (List.range (scenario.ctx 0).GetSize)
                  ((scenarioBefore 0).needsEachProcHasFromMe, ops0) = .ok (resized, ops)
                ∧ ∀ w : Nat, w < (scenario.ctx 0).GetSize →
                    ((resized.getD w []).length : Int)
                        = (scenarioInput 0).countOfNeedsOnEachProcFromMe w
                      ∧ Op.RequestReceiveV (resized.getD w []).length (w : Int) ∈ ops)
          ∧ ∃ s1 log,
              ShareNeeds (scenario.ctx 0) (scenarioInput 0) (scenarioBefore 0) = .ok (s1, log)
                ∧ s1.needsEachProcHasFromMe.length = (scenario.ctx 0).GetSize
                ∧ ∀ w : Nat, w < (scenario.ctx 0).GetSize →
                    ∃ l, s1.needsEachProcHasFromMe[w]? = some l
                      ∧ (l.length : Int) = (scenarioInput 0).countOfNeedsOnEachProcFromMe w
                      ∧ Op.RequestReceiveV l.length (w : Int) ∈ log) :=
  ⟨⟨by decide, by decide, by decide, by decide⟩,
    C20_receive_lists_sized_from_counts (scenario.ctx 0) (scenarioInput 0) (scenarioBefore 0)
      (by decide) (by decide) (by decide) (by decide)⟩

/-- C12 (the claim as stated fails): worker 0 of the scenario partition registers
nothing while worker 1 needs site 5. `ShareNeeds` on worker 0 queues two sends and
two receives of variable length besides the all-to-all pair, and afterwards the
static transfer queues four sends and the dynamic transfer one send to worker 1,
although `neededSites` is empty. -/
theorem C12_counterexample :
    (NeighbouringDataManager.new (scenario.ctx 0)).neededSites = []
      ∧ ShareNeeds (scenario.ctx 0) servingInput (NeighbouringDataManager.new (scenario.ctx 0))
          = .ok (servingOnly,
              [ Op.RequestAllToAllSend [0, 0], Op.RequestAllToAllReceive 2, Op.Dispatch,
                Op.RequestSendV [] 0, Op.RequestReceiveV 0 0,
                Op.RequestSendV [] 1, Op.RequestReceiveV 1 1, Op.Dispatch ])
      ∧ servingOnly.neededSites = []
      ∧ (TransferNonFieldDependentInformation (scenario.ctx 0) servingOnly).2
          = [ Op.RequestSendR (Buffer.localSite 5 Field.IntersectionData) 1,
              Op.RequestSendR (Buffer.localSite 5 Field.OtherRawData) 1,
              Op.RequestSend (Buffer.localSite 5 Field.WallDistances) 14 1,
              Op.RequestSendR (Buffer.localSite 5 Field.WallNormal) 1,
              Op.Dispatch ]
      ∧ TransferFieldDependentInformation (scenario.ctx 0) quietInput servingOnly
          = .ok (servingOnly,
              [ Op.RequestSend (Buffer.localSite 5 Field.FOld) 15 1, Op.Dispatch ]) := by
  refine ⟨rfl, rfl, rfl, by decide, rfl⟩

theorem staticSendLoop_of_empty (ctx : Context) (tbl : List (List site_t))
    (h : ∀ w, w < ctx.GetSize → tbl.getD w [] = []) : staticSendLoop ctx tbl = [] := by
  rw [staticSendLoop, List.flatMap_eq_nil_iff]
  intro w hw
  rw [h w (by simpa using hw)]
  rfl

theorem fieldSendLoop_of_empty (ctx : Context) (tbl : List (List site_t))
    (h : ∀ w, w < ctx.GetSize → tbl.getD w [] = []) : fieldSendLoop ctx tbl = [] := by
  rw [fieldSendLoop, List.flatMap_eq_nil_iff]
  intro w hw
  rw [h w (by simpa using hw)]
  rfl

/-- C12 (amended): a worker whose `neededSites` is empty (latch clear, table of `P`
lists, usable fabric data). `ShareNeeds` returns and queues, besides the all-to-all
pair with all counts zero and its two dispatches, for each rank one send of variable
length with an empty payload and one receive of variable length sized by the count
received from that rank. Before and after the negotiation the static transfer
queues no receive: its log is its send loop and one `Dispatch`; likewise the
dynamic transfer after the negotiation. When every received count is zero, each
transfer queues only its `Dispatch`. -/
theorem C12_empty_need_set (ctx : Context) (input input2 : NegotiationInput)
    (s : NeighbouringDataManager) (hempty : s.neededSites = [])
    (hs : s.needsHaveBeenShared = false)
    (hlen : s.needsEachProcHasFromMe.length = ctx.GetSize) (hfit : InputFits ctx input) :
    ∃ s1, ShareNeeds ctx input s
          = .ok (s1,
              [Op.RequestAllToAllSend ((List.range ctx.GetSize).map (fun _ : Nat => (0 : Int))),
               Op.RequestAllToAllReceive ctx.GetSize,
               Op.Dispatch]
              ++ (List.range ctx.GetSize).flatMap (fun w : Nat =>
                  [Op.RequestSendV [] (w : Int),
                   Op.RequestReceiveV (input.countOfNeedsOnEachProcFromMe w).toNat (w : Int)])
              ++ [Op.Dispatch])
      ∧ s1.neededSites = []
      ∧ (TransferNonFieldDependentInformation ctx s).2
          = staticSendLoop ctx s.needsEachProcHasFromMe ++ [Op.Dispatch]
      ∧ (TransferNonFieldDependentInformation ctx s1).2
          = staticSendLoop ctx s1.needsEachProcHasFromMe ++ [Op.Dispatch]
      ∧ TransferFieldDependentInformation ctx input2 s1
          = .ok (s1, fieldSendLoop ctx s1.needsEachProcHasFromMe ++ [Op.Dispatch])
      ∧ ((∀ w, w < ctx.GetSize → input.countOfNeedsOnEachProcFromMe w = 0) →
          (TransferNonFieldDependentInformation ctx s1).2 = [Op.Dispatch]
            ∧ TransferFieldDependentInformation ctx input2 s1 = .ok (s1, [Op.Dispatch])) := by
  have hown : OwnersInRange ctx s.neededSites := by
    rw [hempty]; intro g hg; simp at hg
  have hshare := ShareNeeds_unshared ctx input s hs hlen hown hfit
  rw [hempty] at hshare
  simp only [List.filter_nil, List.length_nil, Nat.cast_zero] at hshare
  refine ⟨_, hshare, rfl, ?_, ?_, ?_, ?_⟩
  · simp [TransferNonFieldDependentInformation, hempty, staticReceiveLoop]
  · simp [TransferNonFieldDependentInformation, staticReceiveLoop]
  · rw [TransferField_latched ctx input2 _ rfl]
    simp [fieldReceiveLoop]
  · intro hzero
    have htbl : ∀ w, w < ctx.GetSize →
        ((List.range ctx.GetSize).map (fun w : Nat =>
          input.needsFrom w
            ++ (resize (s.needsEachProcHasFromMe.getD w [])
                  (input.countOfNeedsOnEachProcFromMe w).toNat).drop
                (input.needsFrom w).length)).getD w [] = [] := by
      intro w hw
      rw [getD_map_range _ _ _ _ hw]
      have hfw := (hfit w hw).2
      rw [hzero w hw] at hfw
      have hnil : input.needsFrom w = [] := by
        apply List.eq_nil_of_length_eq_zero
        simpa using hfw
      rw [hnil, hzero w hw]
      simp [resize]
    constructor
    · show staticReceiveLoop ctx [] ++ staticSendLoop ctx _ ++ [Op.Dispatch] = [Op.Dispatch]
      rw [staticSendLoop_of_empty ctx _ htbl]
      rfl
    · rw [TransferField_latched ctx input2 _ rfl]
      show Except.ok (_, fieldReceiveLoop ctx [] ++ fieldSendLoop ctx _ ++ [Op.Dispatch]) = _
      rw [fieldSendLoop_of_empty ctx _ htbl]
      rfl

/-- Witness for C12 (amended) on a freshly constructed worker 0 of the scenario
partition, with worker 1 needing site 5. -/
theorem C12_witness :
    ((NeighbouringDataManager.new (scenario.ctx 0)).neededSites = []
        ∧ (NeighbouringDataManager.new (scenario.ctx 0)).needsHaveBeenShared = false
        ∧ (NeighbouringDataManager.new (scenario.ctx 0)).needsEachProcHasFromMe.length
            = (scenario.ctx 0).GetSize
        ∧ InputFits (scenario.ctx 0) servingInput)
      ∧ ∃ s1, ShareNeeds (scenario.ctx 0) servingInput
                (NeighbouringDataManager.new (scenario.ctx 0))
              = .ok (s1,
                  [Op.RequestAllToAllSend
                      ((List.range (scenario.ctx 0).GetSize).map (fun _ : Nat => (0 : Int))),
                   Op.RequestAllToAllReceive (scenario.ctx 0).GetSize,
                   Op.Dispatch]
                  ++ (List.range (scenario.ctx 0).GetSize).flatMap (fun w : Nat =>
                      [Op.RequestSendV [] (w : Int),
                       Op.RequestReceiveV
                          (servingInput.countOfNeedsOnEachProcFromMe w).toNat (w : Int)])
                  ++ [Op.Dispatch])
          ∧ s1.neededSites = []
          ∧ (TransferNonFieldDependentInformation (scenario.ctx 0)
                (NeighbouringDataManager.new (scenario.ctx 0))).2
              = staticSendLoop (scenario.ctx 0)
                  (NeighbouringDataManager.new (scenario.ctx 0)).needsEachProcHasFromMe
                ++ [Op.Dispatch]
          ∧ (TransferNonFieldDependentInformation (scenario.ctx 0) s1).2
              = staticSendLoop (scenario.ctx 0) s1.needsEachProcHasFromMe ++ [Op.Dispatch]
          ∧ TransferFieldDependentInformation (scenario.ctx 0) quietInput s1
              = .ok (s1, fieldSendLoop (scenario.ctx 0) s1.needsEachProcHasFromMe
                          ++ [Op.Dispatch])
          ∧ ((∀ w, w < (scenario.ctx 0).GetSize →
                servingInput.countOfNeedsOnEachProcFromMe w = 0) →
              (TransferNonFieldDependentInformation (scenario.ctx 0) s1).2 = [Op.Dispatch]
                ∧ TransferFieldDependentInformation (scenario.ctx 0) quietInput s1
                    = .ok (s1, [Op.Dispatch])) :=
  ⟨⟨by decide, by decide, by decide, by decide⟩,
    C12_empty_need_set (scenario.ctx 0) servingInput quietInput
      (NeighbouringDataManager.new (scenario.ctx 0)) (by decide) (by decide) (by decide)
      (by decide)⟩


/-! ## The latch along a sequence of calls -/

theorem andThen_ok (first : Except Fault (NeighbouringDataManager × List Op))
    (second : NeighbouringDataManager → Except Fault (NeighbouringDataManager × List Op))
    (s2 : NeighbouringDataManager) (log : List Op) (h : andThen first second = .ok (s2, log)) :
    ∃ s1 ops1 ops2, first = .ok (s1, ops1) ∧ second s1 = .ok (s2, ops2)
      ∧ log = ops1 ++ ops2 := by
  cases hf : first with
  | error e => rw [hf] at h; cases h
  | ok r =>
    obtain ⟨s1, ops1⟩ := r
    rw [hf] at h
    cases hsnd : second s1 with
    | error e => simp [andThen, hsnd] at h
    | ok r2 =>
      obtain ⟨s2b, ops2⟩ := r2
      simp only [andThen, hsnd, Except.ok.injEq, Prod.mk.injEq] at h
      obtain ⟨h1, h2⟩ := h
      subst h1
      exact ⟨s1, ops1, ops2, rfl, hsnd, h2.symm⟩

theorem TransferField_ok_unlatched (ctx : Context) (input : NegotiationInput)
    (s s1 : NeighbouringDataManager) (log : List Op)
    (hs : s.needsHaveBeenShared = false)
    (h : TransferFieldDependentInformation ctx input s = .ok (s1, log)) :
    ∃ shareOps, ShareNeeds ctx input s = .ok (s1, shareOps)
      ∧ log = shareOps ++ fieldReceiveLoop ctx s1.neededSites
                ++ fieldSendLoop ctx s1.needsEachProcHasFromMe ++ [Op.Dispatch] := by
  cases hsh : ShareNeeds ctx input s with
  | error e =>
    simp [TransferFieldDependentInformation, RequestComms, hs, hsh] at h
  | ok r =>
    obtain ⟨sa, shareOps⟩ := r
    rw [TransferField_unlatched ctx input s sa shareOps hs hsh] at h
    simp only [Except.ok.injEq, Prod.mk.injEq] at h
    obtain ⟨h1, h2⟩ := h
    subst h1
    exact ⟨shareOps, rfl, h2.symm⟩

theorem filter_negotiation_of_none (l : List Op) (h : ∀ op ∈ l, op.isNegotiation = false) :
    l.filter Op.isNegotiation = [] := by
  rw [List.filter_eq_nil_iff]
  intro op hop
  simp [h op hop]

theorem filter_negotiation_shareLog (counts : List Int) (n P : Nat)
    (f : Nat → List site_t) (k : Nat → Nat) :
    ([Op.RequestAllToAllSend counts, Op.RequestAllToAllReceive n, Op.Dispatch]
        ++ (List.range P).flatMap (fun w : Nat =>
            [Op.RequestSendV (f w) (w : Int), Op.RequestReceiveV (k w) (w : Int)])
        ++ [Op.Dispatch]).filter Op.isNegotiation
      = [Op.RequestAllToAllSend counts, Op.RequestAllToAllReceive n]
        ++ (List.range P).flatMap (fun w : Nat =>
            [Op.RequestSendV (f w) (w : Int), Op.RequestReceiveV (k w) (w : Int)]) := by
  have hmid : ((List.range P).flatMap (fun w : Nat =>
        [Op.RequestSendV (f w) (w : Int), Op.RequestReceiveV (k w) (w : Int)])).filter
          Op.isNegotiation
      = (List.range P).flatMap (fun w : Nat =>
        [Op.RequestSendV (f w) (w : Int), Op.RequestReceiveV (k w) (w : Int)]) := by
    rw [List.filter_eq_self]
    intro op hop
    simp only [List.mem_flatMap, List.mem_cons, List.mem_singleton, List.not_mem_nil,
      or_false] at hop
    obtain ⟨w, _, h | h⟩ := hop <;> subst h <;> rfl
  rw [List.filter_append, List.filter_append, hmid]
  simp [List.filter_cons, Op.isNegotiation]

theorem filter_allToAllSend_shareLog (counts : List Int) (n P : Nat)
    (f : Nat → List site_t) (k : Nat → Nat) :
    ([Op.RequestAllToAllSend counts, Op.RequestAllToAllReceive n]
        ++ (List.range P).flatMap (fun w : Nat =>
            [Op.RequestSendV (f w) (w : Int), Op.RequestReceiveV (k w) (w : Int)])).filter
          Op.isAllToAllSend
      = [Op.RequestAllToAllSend counts] := by
  have hmid : ((List.range P).flatMap (fun w : Nat =>
        [Op.RequestSendV (f w) (w : Int), Op.RequestReceiveV (k w) (w : Int)])).filter
          Op.isAllToAllSend = [] := by
    rw [List.filter_eq_nil_iff]
    intro op hop
    simp only [List.mem_flatMap, List.mem_cons, List.mem_singleton, List.not_mem_nil,
      or_false] at hop
    obtain ⟨w, _, h | h⟩ := hop <;> subst h <;> simp [Op.isAllToAllSend]
  rw [List.filter_append, hmid]
  simp [List.filter_cons, Op.isAllToAllSend]

theorem runCalls_latched_ok (ctx : Context) (calls : List Call)
    (s s1 : NeighbouringDataManager) (log : List Op) (hs : s.needsHaveBeenShared = true)
    (hrun : runCalls ctx calls s = .ok (s1, log)) :
    s1.needsHaveBeenShared = true ∧ log.filter Op.isNegotiation = [] := by
  obtain ⟨sa, la, hrun2, hsa, _, hneg⟩ := runCalls_latched ctx calls s hs
  rw [hrun2] at hrun
  simp only [Except.ok.injEq, Prod.mk.injEq] at hrun
  obtain ⟨h1, h2⟩ := hrun
  subst h1; subst h2
  exact ⟨hsa, filter_negotiation_of_none _ hneg⟩

theorem runCalls_negotiates_once (ctx : Context) (calls : List Call) :
    ∀ (s s1 : NeighbouringDataManager) (log : List Op),
      runCalls ctx calls s = .ok (s1, log) →
      log.filter Op.isNegotiation = []
        ∨ ∃ (counts : List Int) (needs : Nat → List site_t) (sizes : Nat → Nat),
            log.filter Op.isNegotiation
              = [Op.RequestAllToAllSend counts, Op.RequestAllToAllReceive ctx.GetSize]
                ++ (List.range ctx.GetSize).flatMap (fun w : Nat =>
                    [Op.RequestSendV (needs w) (w : Int),
                     Op.RequestReceiveV (sizes w) (w : Int)]) := by
  induction calls with
  | nil =>
    intro s s1 log h
    simp only [runCalls, Except.ok.injEq, Prod.mk.injEq] at h
    left; rw [← h.2]; rfl
  | cons call rest ih =>
    intro s s1 log h
    by_cases hs : s.needsHaveBeenShared = true
    · exact Or.inl (runCalls_latched_ok ctx _ s s1 log hs h).2
    · have hs2 : s.needsHaveBeenShared = false := by simpa using hs
      rw [runCalls] at h
      obtain ⟨sm, ops1, ops2, hfirst, hrest, hlog⟩ := andThen_ok _ _ _ _ h
      subst hlog
      rw [List.filter_append]
      cases call with
      | RegisterNeededSite g r =>
        simp only [Call.apply, Except.ok.injEq, Prod.mk.injEq] at hfirst
        rw [← hfirst.2]
        simpa using ih sm s1 ops2 hrest
      | TransferNonFieldDependentInformation =>
        simp only [Call.apply, Except.ok.injEq] at hfirst
        have hops : ops1 = (TransferNonFieldDependentInformation ctx s).2 := by
          rw [hfirst]
        rw [hops, filter_negotiation_of_none _ (static_log_not_negotiation ctx s)]
        simpa using ih sm s1 ops2 hrest
      | ShareNeeds input =>
        simp only [Call.apply] at hfirst
        have hsm := ShareNeeds_ok_shared ctx input s _ hfirst
        obtain ⟨_, hshape⟩ := ShareNeeds_ok_shape ctx input s sm ops1 hs2 hfirst
        rw [(runCalls_latched_ok ctx rest sm s1 ops2 hsm hrest).2, hshape,
          filter_negotiation_shareLog, List.append_nil]
        exact Or.inr ⟨_, _, _, rfl⟩
      | TransferFieldDependentInformation input =>
        simp only [Call.apply] at hfirst
        obtain ⟨shareOps, hshare, hops⟩ := TransferField_ok_unlatched ctx input s sm ops1 hs2 hfirst
        have hsm := ShareNeeds_ok_shared ctx input s _ hshare
        obtain ⟨_, hshape⟩ := ShareNeeds_ok_shape ctx input s sm shareOps hs2 hshare
        rw [(runCalls_latched_ok ctx rest sm s1 ops2 hsm hrest).2, hops, List.append_nil,
          List.append_assoc, List.append_assoc, List.filter_append,
          ← List.append_assoc,
          filter_negotiation_of_none _ (field_log_latched_not_negotiation ctx sm),
          List.append_nil, hshape, filter_negotiation_shareLog]
        exact Or.inr ⟨_, _, _, rfl⟩


theorem andThen_assoc (a : Except Fault (NeighbouringDataManager × List Op))
    (f g : NeighbouringDataManager → Except Fault (NeighbouringDataManager × List Op)) :
    andThen (andThen a f) g = andThen a (fun s => andThen (f s) g) := by
  cases a with
  | error e => rfl
  | ok r =>
    obtain ⟨s1, ops1⟩ := r
    cases hf : f s1 with
    | error e => simp [andThen, hf]
    | ok r2 =>
      obtain ⟨s2, ops2⟩ := r2
      cases hg : g s2 with
      | error e => simp [andThen, hf, hg]
      | ok r3 =>
        obtain ⟨s3, ops3⟩ := r3
        simp [andThen, hf, hg, List.append_assoc]

theorem andThen_pure (s : NeighbouringDataManager)
    (f : NeighbouringDataManager → Except Fault (NeighbouringDataManager × List Op)) :
    andThen (.ok (s, [])) f = f s := by
  cases hf : f s with
  | error e => simp [andThen, hf]
  | ok r => obtain ⟨s2, ops2⟩ := r; simp [andThen, hf]

theorem runCalls_append (ctx : Context) (c1 c2 : List Call) :
    ∀ s, runCalls ctx (c1 ++ c2) s = andThen (runCalls ctx c1 s) (runCalls ctx c2) := by
  induction c1 with
  | nil => intro s; rw [List.nil_append, runCalls, andThen_pure]
  | cons call rest ih =>
    intro s
    rw [List.cons_append, runCalls, runCalls, andThen_assoc]
    congr 1
    funext sm
    exact ih sm

theorem filter_allToAllSend_eq (l : List Op) :
    l.filter Op.isAllToAllSend = (l.filter Op.isNegotiation).filter Op.isAllToAllSend := by
  rw [List.filter_filter]
  apply List.filter_congr
  intro op _
  cases op <;> rfl

/-- C15: the latch is one-way and the negotiation communicates at most once. For
every sequence of calls (`RegisterNeededSite`, `ShareNeeds`, static transfer,
dynamic transfer) that runs from a state `s` to a state `s1` with log `log`: if the
latch is set in `s`, or in the state reached after any number `k` of the calls, it
is set in `s1` and no negotiation operation is queued from that point on; the
negotiation operations of the whole log are either none or those of one single
exchange (one all-to-all send, one all-to-all receive, one send and one receive
of variable length per rank); the log holds at most one all-to-all send. -/
theorem C15_latch_one_way (ctx : Context) (calls : List Call)
    (s s1 : NeighbouringDataManager) (log : List Op)
    (hrun : runCalls ctx calls s = .ok (s1, log)) :
    (s.needsHaveBeenShared = true →
        s1.needsHaveBeenShared = true ∧ log.filter Op.isNegotiation = [])
      ∧ (∀ (k : Nat) (sk : NeighbouringDataManager) (logk : List Op),
          runCalls ctx (calls.take k) s = .ok (sk, logk) → sk.needsHaveBeenShared = true →
            s1.needsHaveBeenShared = true
              ∧ log.filter Op.isNegotiation = logk.filter Op.isNegotiation)
      ∧ (log.filter Op.isNegotiation = []
          ∨ ∃ (counts : List Int) (needs : Nat → List site_t) (sizes : Nat → Nat),
              log.filter Op.isNegotiation
                = [Op.RequestAllToAllSend counts, Op.RequestAllToAllReceive ctx.GetSize]
                  ++ (List.range ctx.GetSize).flatMap (fun w : Nat =>
                      [Op.RequestSendV (needs w) (w : Int),
                       Op.RequestReceiveV (sizes w) (w : Int)]))
      ∧ (log.filter Op.isAllToAllSend).length ≤ 1 := by
  have honce := runCalls_negotiates_once ctx calls s s1 log hrun
  refine ⟨fun hs => runCalls_latched_ok ctx calls s s1 log hs hrun, ?_, honce, ?_⟩
  · intro k sk logk hk hsk
    have hsplit := runCalls_append ctx (calls.take k) (calls.drop k) s
    rw [List.take_append_drop, hrun, hk] at hsplit
    obtain ⟨sm, ops1, ops2, hfirst, hrest, hlog⟩ := andThen_ok _ _ _ _ hsplit.symm
    simp only [Except.ok.injEq, Prod.mk.injEq] at hfirst
    obtain ⟨h1, h2⟩ := hfirst
    subst h1; subst h2
    obtain ⟨hs1, hnone⟩ := runCalls_latched_ok ctx _ sk s1 ops2 hsk hrest
    refine ⟨hs1, ?_⟩
    rw [hlog, List.filter_append, hnone, List.append_nil]
  · rw [filter_allToAllSend_eq]
    rcases honce with h | ⟨counts, needs, sizes, h⟩
    · rw [h]; simp
    · rw [h, filter_allToAllSend_shareLog]; simp

/-- Witness for C15 on the run `scenarioCalls` of worker 0 of the scenario. -/
theorem C15_witness :
    runCalls (scenario.ctx 0) scenarioCalls (scenarioBefore 0)
        = .ok (scenarioFinal, scenarioCallsLog)
      ∧ ((scenarioBefore 0).needsHaveBeenShared = true →
          scenarioFinal.needsHaveBeenShared = true
            ∧ scenarioCallsLog.filter Op.isNegotiation = [])
      ∧ (∀ (k : Nat) (sk : NeighbouringDataManager) (logk : List Op),
          runCalls (scenario.ctx 0) (scenarioCalls.take k) (scenarioBefore 0) = .ok (sk, logk) →
            sk.needsHaveBeenShared = true →
              scenarioFinal.needsHaveBeenShared = true
                ∧ scenarioCallsLog.filter Op.isNegotiation = logk.filter Op.isNegotiation)
      ∧ (scenarioCallsLog.filter Op.isNegotiation = []
          ∨ ∃ (counts : List Int) (needs : Nat → List site_t) (sizes : Nat → Nat),
              scenarioCallsLog.filter Op.isNegotiation
                = [Op.RequestAllToAllSend counts,
                   Op.RequestAllToAllReceive (scenario.ctx 0).GetSize]
                  ++ (List.range (scenario.ctx 0).GetSize).flatMap (fun w : Nat =>
                      [Op.RequestSendV (needs w) (w : Int),
                       Op.RequestReceiveV (sizes w) (w : Int)]))
      ∧ (scenarioCallsLog.filter Op.isAllToAllSend).length ≤ 1 :=
  ⟨rfl,
    C15_latch_one_way (scenario.ctx 0) scenarioCalls (scenarioBefore 0) scenarioFinal
      scenarioCallsLog rfl⟩


/-! ## Ownership of the negotiated table, and frame of the need set -/

/-- C21: every site a worker is asked to send is one it owns. After every worker has
completed negotiation over a faithful fabric, for all workers `A` and `B` every site
id in `B.needsEachProcHasFromMe[A]` has owner `B`; the table of `B` has `P` lists,
so every entry its send loops (static and dynamic) look up is a site `B` owns. -/
theorem C21_requested_sites_are_owned (c : Cluster)
    (before after : Nat → NeighbouringDataManager) (inputs : Nat → NegotiationInput)
    (logs : Nat → List Op)
    (hown : ∀ g, 0 ≤ c.owner g ∧ c.owner g < c.P)
    (hfresh : ∀ A, A < c.P →
      (before A).needsHaveBeenShared = false ∧ (before A).needsEachProcHasFromMe.length = c.P)
    (hrun : NegotiationRun c before inputs after logs)
    (A B : Nat) (hA : A < c.P) (hB : B < c.P) :
    (after B).needsEachProcHasFromMe.length = c.P
      ∧ (∀ g ∈ (after B).needsEachProcHasFromMe.getD A [], c.owner g = (B : Int))
      ∧ (∀ l ∈ (after B).needsEachProcHasFromMe, ∀ g ∈ l, c.owner g = (B : Int)) := by
  obtain ⟨hget, hlen, _, _⟩ :=
    negotiation_tables c before after inputs logs hown hfresh hrun A B hA hB
  refine ⟨hlen, ?_, ?_⟩
  · intro g hg
    rw [hget] at hg
    simpa using (List.mem_filter.1 hg).2
  · intro l hl g hg
    obtain ⟨i, hi, hil⟩ := List.getElem_of_mem hl
    have hiP : i < c.P := by rw [← hlen]; exact hi
    obtain ⟨hget2, _, _, _⟩ :=
      negotiation_tables c before after inputs logs hown hfresh hrun i B hiP hB
    have hl2 : (after B).needsEachProcHasFromMe.getD i [] = l := by
      rw [List.getD_eq_getElem?_getD, List.getElem?_eq_getElem hi, hil]
      rfl
    rw [hl2] at hget2
    rw [hget2] at hg
    simpa using (List.mem_filter.1 hg).2

/-- Witness for C21 on the two-worker scenario: what worker 1 owes worker 0. -/
theorem C21_witness :
    ((∀ g, 0 ≤ scenario.owner g ∧ scenario.owner g < scenario.P)
        ∧ (∀ A, A < scenario.P →
            (scenarioBefore A).needsHaveBeenShared = false
              ∧ (scenarioBefore A).needsEachProcHasFromMe.length = scenario.P)
        ∧ NegotiationRun scenario scenarioBefore scenarioInput scenarioAfter scenarioLog
        ∧ 0 < scenario.P ∧ 1 < scenario.P)
      ∧ ((scenarioAfter 1).needsEachProcHasFromMe.length = scenario.P
          ∧ (∀ g ∈ (scenarioAfter 1).needsEachProcHasFromMe.getD 0 [],
              scenario.owner g = ((1 : Nat) : Int))
          ∧ (∀ l ∈ (scenarioAfter 1).needsEachProcHasFromMe, ∀ g ∈ l,
              scenario.owner g = ((1 : Nat) : Int))) :=
  ⟨⟨scenario_owner_total, scenario_fresh, scenario_run, by decide, by decide⟩,
    C21_requested_sites_are_owned scenario scenarioBefore scenarioAfter scenarioInput
      scenarioLog scenario_owner_total scenario_fresh scenario_run 0 1 (by decide) (by decide)⟩

theorem ShareNeeds_ok_neededSites (ctx : Context) (input : NegotiationInput)
    (s : NeighbouringDataManager) (r : NeighbouringDataManager × List Op)
    (h : ShareNeeds ctx input s = .ok r) : r.1.neededSites = s.neededSites := by
  by_cases hs : s.needsHaveBeenShared = true
  · rw [ShareNeeds_latched ctx input s hs] at h
    cases h; rfl
  · simp only [ShareNeeds, hs, Bool.false_eq_true, if_false] at h
    split at h
    · cases h
    · split at h
      · cases h
      · split at h
        · cases h
        · cases h; rfl

theorem TransferField_ok_neededSites (ctx : Context) (input : NegotiationInput)
    (s : NeighbouringDataManager) (r : NeighbouringDataManager × List Op)
    (h : TransferFieldDependentInformation ctx input s = .ok r) :
    r.1.neededSites = s.neededSites := by
  obtain ⟨s1, log⟩ := r
  by_cases hs : s.needsHaveBeenShared = true
  · rw [TransferField_latched ctx input s hs] at h
    cases h; rfl
  · have hs2 : s.needsHaveBeenShared = false := by simpa using hs
    obtain ⟨shareOps, hshare, _⟩ := TransferField_ok_unlatched ctx input s s1 log hs2 h
    exact ShareNeeds_ok_neededSites ctx input s (s1, shareOps) hshare

/-- C22: the need set is mutated only by registration. For every state, `ShareNeeds`
and `TransferFieldDependentInformation` (when they return),
`TransferNonFieldDependentInformation` and `ProcForSite` leave `neededSites` as it
was; `RegisterNeededSite` keeps the old list as the front of the new one, adding
nothing when the site is already there and the one site at the back otherwise. -/
theorem C22_need_set_mutated_only_by_registration (ctx : Context) (input : NegotiationInput)
    (s : NeighbouringDataManager) (g : site_t) (req : RequiredSiteInformation) :
    (∀ r, ShareNeeds ctx input s = .ok r → r.1.neededSites = s.neededSites)
      ∧ (TransferNonFieldDependentInformation ctx s).1.neededSites = s.neededSites
      ∧ (∀ r, TransferFieldDependentInformation ctx input s = .ok r →
          r.1.neededSites = s.neededSites)
      ∧ (ProcForSiteCall ctx s g).2.1.neededSites = s.neededSites
      ∧ (s.RegisterNeededSite g req).neededSites
          = s.neededSites ++ (if g ∈ s.neededSites then [] else [g])
      ∧ (s.RegisterNeededSite g req).neededSites.take s.neededSites.length = s.neededSites := by
  have hreg : (s.RegisterNeededSite g req).neededSites
      = s.neededSites ++ (if g ∈ s.neededSites then [] else [g]) := by
    by_cases hg : g ∈ s.neededSites
    · rw [registerNeededSite_of_mem s g req hg, if_pos hg, List.append_nil]
    · rw [registerNeededSite_of_not_mem s g req hg, if_neg hg]
  refine ⟨ShareNeeds_ok_neededSites ctx input s, rfl, TransferField_ok_neededSites ctx input s,
    rfl, hreg, ?_⟩
  rw [hreg, List.take_left']
  rfl


/-! ## The table before negotiation, and the range precondition -/

theorem apply_keeps_empty_table (ctx : Context) (s s1 : NeighbouringDataManager)
    (ops : List Op) (call : Call)
    (hinv : s.needsHaveBeenShared = true
      ∨ s.needsEachProcHasFromMe = List.replicate ctx.GetSize [])
    (h : call.apply ctx s = .ok (s1, ops)) :
    s1.needsHaveBeenShared = true
      ∨ s1.needsEachProcHasFromMe = List.replicate ctx.GetSize [] := by
  cases call with
  | RegisterNeededSite g r =>
    simp only [Call.apply, Except.ok.injEq, Prod.mk.injEq] at h
    rw [← h.1]
    by_cases hg : g ∈ s.neededSites
    · rw [registerNeededSite_of_mem s g r hg]; exact hinv
    · rw [registerNeededSite_of_not_mem s g r hg]; exact hinv
  | ShareNeeds input =>
    exact Or.inl (ShareNeeds_ok_shared ctx input s _ h)
  | TransferNonFieldDependentInformation =>
    simp only [Call.apply, Except.ok.injEq] at h
    have : s1 = s := (congrArg Prod.fst h).symm
    rw [this]; exact hinv
  | TransferFieldDependentInformation input =>
    simp only [Call.apply] at h
    by_cases hs : s.needsHaveBeenShared = true
    · rw [TransferField_latched ctx input s hs] at h
      simp only [Except.ok.injEq, Prod.mk.injEq] at h
      rw [← h.1]; exact Or.inl hs
    · have hs2 : s.needsHaveBeenShared = false := by simpa using hs
      obtain ⟨shareOps, hshare, _⟩ := TransferField_ok_unlatched ctx input s s1 ops hs2 h
      exact Or.inl (ShareNeeds_ok_shared ctx input s _ hshare)

theorem runCalls_keeps_empty_table (ctx : Context) (calls : List Call) :
    ∀ (s s1 : NeighbouringDataManager) (log : List Op),
      (s.needsHaveBeenShared = true
        ∨ s.needsEachProcHasFromMe = List.replicate ctx.GetSize []) →
      runCalls ctx calls s = .ok (s1, log) →
      s1.needsHaveBeenShared = true
        ∨ s1.needsEachProcHasFromMe = List.replicate ctx.GetSize [] := by
  induction calls with
  | nil =>
    intro s s1 log hinv h
    simp only [runCalls, Except.ok.injEq, Prod.mk.injEq] at h
    rw [← h.1]; exact hinv
  | cons call rest ih =>
    intro s s1 log hinv h
    rw [runCalls] at h
    obtain ⟨sm, ops1, ops2, hfirst, hrest, _⟩ := andThen_ok _ _ _ _ h
    exact ih sm s1 ops2 (apply_keeps_empty_table ctx s sm ops1 call hinv hfirst) hrest

/-- C23: before negotiation the peer table is empty. A freshly constructed manager
for `P` workers has `needsHaveBeenShared` false, an empty `neededSites` and a
`needsEachProcHasFromMe` of exactly `P` empty lists; and in every state a sequence
of calls reaches from it with `needsHaveBeenShared` still false,
`needsEachProcHasFromMe` is still `P` empty lists. -/
theorem C23_table_empty_before_negotiation (ctx : Context) (calls : List Call)
    (s1 : NeighbouringDataManager) (log : List Op)
    (hrun : runCalls ctx calls (NeighbouringDataManager.new ctx) = .ok (s1, log))
    (hs1 : s1.needsHaveBeenShared = false) :
    (NeighbouringDataManager.new ctx).needsHaveBeenShared = false
      ∧ (NeighbouringDataManager.new ctx).neededSites = []
      ∧ (NeighbouringDataManager.new ctx).needsEachProcHasFromMe = List.replicate ctx.GetSize []
      ∧ (NeighbouringDataManager.new ctx).needsEachProcHasFromMe.length = ctx.GetSize
      ∧ s1.needsEachProcHasFromMe = List.replicate ctx.GetSize []
      ∧ s1.needsEachProcHasFromMe.length = ctx.GetSize
      ∧ (∀ l ∈ s1.needsEachProcHasFromMe, l = []) := by
  have h := runCalls_keeps_empty_table ctx calls _ s1 log (Or.inr rfl) hrun
  have htbl : s1.needsEachProcHasFromMe = List.replicate ctx.GetSize [] := by
    rcases h with h | h
    · rw [hs1] at h; cases h
    · exact h
  refine ⟨rfl, rfl, rfl, by simp [NeighbouringDataManager.new], htbl, by simp [htbl], ?_⟩
  intro l hl
  rw [htbl] at hl
  exact (List.mem_replicate.1 hl).2

/-- Witness for C23: worker 0 of the scenario registers site 100 and runs the static
transfer; the latch is still clear. -/
theorem C23_witness :
    (runCalls (scenario.ctx 0)
          [Call.RegisterNeededSite 100 ⟨[]⟩, Call.TransferNonFieldDependentInformation]
          (NeighbouringDataManager.new (scenario.ctx 0))
        = .ok (scenarioBefore 0,
            (TransferNonFieldDependentInformation (scenario.ctx 0) (scenarioBefore 0)).2)
        ∧ (scenarioBefore 0).needsHaveBeenShared = false)
      ∧ ((NeighbouringDataManager.new (scenario.ctx 0)).needsHaveBeenShared = false
          ∧ (NeighbouringDataManager.new (scenario.ctx 0)).neededSites = []
          ∧ (NeighbouringDataManager.new (scenario.ctx 0)).needsEachProcHasFromMe
              = List.replicate (scenario.ctx 0).GetSize []
          ∧ (NeighbouringDataManager.new (scenario.ctx 0)).needsEachProcHasFromMe.length
              = (scenario.ctx 0).GetSize
          ∧ (scenarioBefore 0).needsEachProcHasFromMe
              = List.replicate (scenario.ctx 0).GetSize []
          ∧ (scenarioBefore 0).needsEachProcHasFromMe.length = (scenario.ctx 0).GetSize
          ∧ (∀ l ∈ (scenarioBefore 0).needsEachProcHasFromMe, l = [])) :=
  ⟨⟨rfl, by decide⟩,
    C23_table_empty_before_negotiation (scenario.ctx 0)
      [Call.RegisterNeededSite 100 ⟨[]⟩, Call.TransferNonFieldDependentInformation]
      (scenarioBefore 0)
      (TransferNonFieldDependentInformation (scenario.ctx 0) (scenarioBefore 0)).2
      rfl (by decide)⟩

theorem buildNeedsTable_fault (ctx : Context) :
    ∀ (needed : List site_t) (acc : List (List site_t) × List Int),
      ¬ OwnersInRange ctx needed →
      buildNeedsTable ctx needed acc = .error Fault.IndexOutOfRange := by
  intro needed
  induction needed with
  | nil => intro _ h; exact absurd (fun g hg => by simp at hg) h
  | cons k rest ih =>
    intro acc h
    obtain ⟨tbl, cnt⟩ := acc
    rw [buildNeedsTable]
    by_cases hk : 0 ≤ ProcForSite ctx k ∧ ProcForSite ctx k < ctx.GetSize
    · rw [if_pos hk]
      apply ih
      intro hrest
      apply h
      intro g hg
      rcases List.mem_cons.1 hg with e | hmem
      · subst e; exact hk
      · exact hrest g hmem
    · rw [if_neg hk]

theorem ShareNeeds_fault (ctx : Context) (input : NegotiationInput)
    (s : NeighbouringDataManager) (hs : s.needsHaveBeenShared = false)
    (h : ¬ OwnersInRange ctx s.neededSites) :
    ShareNeeds ctx input s = .error Fault.IndexOutOfRange := by
  simp [ShareNeeds, hs, buildNeedsTable_fault ctx _ _ h]

/-- C24: the per-owner indexing of `ShareNeeds` is safe exactly under the range
precondition. When every needed site is owned by a rank in `[0, P)` the
table-building loop completes (every access to `needsIHaveFromEachProc` and
`countOfNeedsIHaveFromEachProc` is in bounds) and `ShareNeeds` returns (latch
clear, table of `P` lists, usable fabric data); for every list of needed sites the
loop completes if and only if the precondition holds, and otherwise it and
`ShareNeeds` end in the out-of-range fault; this happens for worker 0 of
`strayContext` needing site 300, whose owner is rank 2 of 2. -/
theorem C24_indexing_safe_iff_owners_in_range (ctx : Context) (input : NegotiationInput)
    (s : NeighbouringDataManager) (hs : s.needsHaveBeenShared = false)
    (hlen : s.needsEachProcHasFromMe.length = ctx.GetSize)
    (hown : OwnersInRange ctx s.neededSites) (hfit : InputFits ctx input) :
    (∃ needs counts,
        buildNeedsTable ctx s.neededSites
            (List.replicate ctx.GetSize [], List.replicate ctx.GetSize 0)
          = .ok (needs, counts)
          ∧ needs.length = ctx.GetSize ∧ counts.length = ctx.GetSize)
      ∧ (∃ s1 log, ShareNeeds ctx input s = .ok (s1, log))
      ∧ (∀ needed : List site_t,
          (∃ r, buildNeedsTable ctx needed
              (List.replicate ctx.GetSize [], List.replicate ctx.GetSize 0) = .ok r)
            ↔ OwnersInRange ctx needed)
      ∧ (∀ needed : List site_t, ¬ OwnersInRange ctx needed →
          buildNeedsTable ctx needed
              (List.replicate ctx.GetSize [], List.replicate ctx.GetSize 0)
            = .error Fault.IndexOutOfRange)
      ∧ (∀ (input2 : NegotiationInput) (s2 : NeighbouringDataManager),
          s2.needsHaveBeenShared = false → ¬ OwnersInRange ctx s2.neededSites →
            ShareNeeds ctx input2 s2 = .error Fault.IndexOutOfRange)
      ∧ (¬ OwnersInRange strayContext [300]
          ∧ ShareNeeds strayContext quietInput
              ((NeighbouringDataManager.new strayContext).RegisterNeededSite 300 ⟨[]⟩)
            = .error Fault.IndexOutOfRange) := by
  refine ⟨⟨_, _, buildNeedsTable_fresh ctx _ hown, by simp, by simp⟩,
    ⟨_, _, ShareNeeds_unshared ctx input s hs hlen hown hfit⟩, ?_, ?_, ?_, by decide, rfl⟩
  · intro needed
    constructor
    · rintro ⟨r, hr⟩
      exact buildNeedsTable_ok_owners ctx _ _ _ hr
    · intro h
      exact ⟨_, buildNeedsTable_fresh ctx needed h⟩
  · intro needed h
    exact buildNeedsTable_fault ctx needed _ h
  · intro input2 s2 hs2 h
    exact ShareNeeds_fault ctx input2 s2 hs2 h

/-- Witness for C24 on worker 0 of the scenario before negotiation. -/
theorem C24_witness :
    ((scenarioBefore 0).needsHaveBeenShared = false
        ∧ (scenarioBefore 0).needsEachProcHasFromMe.length = (scenario.ctx 0).GetSize
        ∧ OwnersInRange (scenario.ctx 0) (scenarioBefore 0).neededSites
        ∧ InputFits (scenario.ctx 0) (scenarioInput 0))
      ∧ ((∃ needs counts,
            buildNeedsTable (scenario.ctx 0) (scenarioBefore 0).neededSites
                (List.replicate (scenario.ctx 0).GetSize [],
                  List.replicate (scenario.ctx 0).GetSize 0)
              = .ok (needs, counts)
              ∧ needs.length = (scenario.ctx 0).GetSize
              ∧ counts.length = (scenario.ctx 0).GetSize)
          ∧ (∃ s1 log,
              ShareNeeds (scenario.ctx 0) (scenarioInput 0) (scenarioBefore 0) = .ok (s1, log))
          ∧ (∀ needed : List site_t,
              (∃ r, buildNeedsTable (scenario.ctx 0) needed
                  (List.replicate (scenario.ctx 0).GetSize [],
                    List.replicate (scenario.ctx 0).GetSize 0) = .ok r)
                ↔ OwnersInRange (scenario.ctx 0) needed)
          ∧ (∀ needed : List site_t, ¬ OwnersInRange (scenario.ctx 0) needed →
              buildNeedsTable (scenario.ctx 0) needed
                  (List.replicate (scenario.ctx 0).GetSize [],
                    List.replicate (scenario.ctx 0).GetSize 0)
                = .error Fault.IndexOutOfRange)
          ∧ (∀ (input2 : NegotiationInput) (s2 : NeighbouringDataManager),
              s2.needsHaveBeenShared = false →
              ¬ OwnersInRange (scenario.ctx 0) s2.neededSites →
                ShareNeeds (scenario.ctx 0) input2 s2 = .error Fault.IndexOutOfRange)
          ∧ (¬ OwnersInRange strayContext [300]
              ∧ ShareNeeds strayContext quietInput
                  ((NeighbouringDataManager.new strayContext).RegisterNeededSite 300 ⟨[]⟩)
                = .error Fault.IndexOutOfRange)) :=
  ⟨⟨by decide, by decide, by decide, by decide⟩,
    C24_indexing_safe_iff_owners_in_range (scenario.ctx 0) (scenarioInput 0)
      (scenarioBefore 0) (by decide) (by decide) (by decide) (by decide)⟩


/-! ## The partition as a rearrangement of the need set -/

theorem flatMap_insert_perm {β : Type} (f : Nat → List β) (g : β) (k : Nat) :
    ∀ L : List Nat, L.Nodup → k ∈ L →
      List.Perm (L.flatMap (fun w => if w = k then g :: f w else f w)) (g :: L.flatMap f) := by
  intro L
  induction L with
  | nil => intro _ h; simp at h
  | cons a t ih =>
    intro hnd hk
    rw [List.nodup_cons] at hnd
    rw [List.flatMap_cons, List.flatMap_cons]
    by_cases hak : a = k
    · subst hak
      have hrest : t.flatMap (fun w => if w = a then g :: f w else f w) = t.flatMap f := by
        apply List.flatMap_congr
        intro w hw
        have : ¬ w = a := fun e => hnd.1 (e ▸ hw)
        simp [this]
      rw [hrest]
      simp
    · have hkt : k ∈ t := by
        rcases List.mem_cons.1 hk with e | h
        · exact absurd e.symm hak
        · exact h
      simp only [hak, if_false]
      exact ((ih hnd.2 hkt).append_left (f a)).trans List.perm_middle

theorem partition_perm (ctx : Context) (needed : List site_t)
    (hown : OwnersInRange ctx needed) :
    List.Perm ((List.range ctx.GetSize).flatMap (fun w : Nat =>
        needed.filter (fun g => ProcForSite ctx g = (w : Int)))) needed := by
  induction needed with
  | nil =>
    have : (List.range ctx.GetSize).flatMap (fun w : Nat =>
        ([] : List site_t).filter (fun g => ProcForSite ctx g = (w : Int))) = [] := by
      rw [List.flatMap_eq_nil_iff]; intro w _; rfl
    rw [this]
  | cons g t ih =>
    have hg := hown g (List.mem_cons_self _ _)
    have ht : OwnersInRange ctx t := fun k hk => hown k (List.mem_cons_of_mem _ hk)
    have hk : (ProcForSite ctx g).toNat ∈ List.range ctx.GetSize := by
      rw [List.mem_range]; exact (Int.toNat_lt hg.1).2 hg.2
    have hstep : (List.range ctx.GetSize).flatMap (fun w : Nat =>
          (g :: t).filter (fun x => ProcForSite ctx x = (w : Int)))
        = (List.range ctx.GetSize).flatMap (fun w : Nat =>
          if w = (ProcForSite ctx g).toNat
          then g :: t.filter (fun x => ProcForSite ctx x = (w : Int))
          else t.filter (fun x => ProcForSite ctx x = (w : Int))) := by
      apply List.flatMap_congr
      intro w _
      rw [List.filter_cons]
      by_cases h : w = (ProcForSite ctx g).toNat
      · have h2 : ProcForSite ctx g = (w : Int) := by
          rw [h]; exact (Int.toNat_of_nonneg hg.1).symm
        rw [if_pos h]
        simp only [h2, decide_True, if_true]
      · have h2 : ¬ ProcForSite ctx g = (w : Int) := by
          intro e; apply h; rw [e]; exact (Int.toNat_ofNat w).symm
        rw [if_neg h]
        simp only [h2, decide_False, Bool.false_eq_true, if_false]
    rw [hstep]
    exact (flatMap_insert_perm _ g _ _ (List.nodup_range _) hk).trans ((ih ht).cons g)

theorem sum_lengths_eq_length_flatMap {α : Type} (f : Nat → List α) (L : List Nat) :
    (L.map (fun w : Nat => ((f w).length : Int))).sum = ((L.flatMap f).length : Int) := by
  induction L with
  | nil => simp
  | cons a t ih =>
    rw [List.map_cons, List.sum_cons, ih, List.flatMap_cons, List.length_append]
    push_cast
    rfl

theorem registerAll_fresh_nodup (ctx : Context)
    (calls : List (site_t × RequiredSiteInformation)) :
    ((NeighbouringDataManager.new ctx).registerAll calls).neededSites.Nodup := by
  rw [registerAll_neededSites]
  simp only [NeighbouringDataManager.new, List.nil_append]
  exact (eraseLaterDuplicates_nodup _).filter _

/-- C25: the partition loses and invents nothing. For a list of needed sites whose
owners are all in `[0, P)`, the table loop of `ShareNeeds` completes, the counts it
publishes sum to the length of the list, and the per-owner lists concatenated in
rank order are a permutation of the list; every per-owner list is duplicate-free
when the list is, which is the case for the `neededSites` of every manager built
by registrations on a fresh one. -/
theorem C25_partition_is_rearrangement (ctx : Context) (needed : List site_t)
    (hown : OwnersInRange ctx needed) :
    ∃ needsIHaveFromEachProc countOfNeedsIHaveFromEachProc,
      buildNeedsTable ctx needed (List.replicate ctx.GetSize [], List.replicate ctx.GetSize 0)
          = .ok (needsIHaveFromEachProc, countOfNeedsIHaveFromEachProc)
        ∧ countOfNeedsIHaveFromEachProc.sum = (needed.length : Int)
        ∧ List.Perm needsIHaveFromEachProc.flatten needed
        ∧ (needed.Nodup → ∀ l ∈ needsIHaveFromEachProc, l.Nodup)
        ∧ (∀ calls : List (site_t × RequiredSiteInformation),
            needed = ((NeighbouringDataManager.new ctx).registerAll calls).neededSites →
              ∀ l ∈ needsIHaveFromEachProc, l.Nodup) := by
  have hperm := partition_perm ctx needed hown
  have hnd : needed.Nodup → ∀ l ∈ (List.range ctx.GetSize).map (fun w : Nat =>
      needed.filter (fun g => ProcForSite ctx g = (w : Int))), l.Nodup := by
    intro hnodup l hl
    rw [List.mem_map] at hl
    obtain ⟨w, _, hw⟩ := hl
    rw [← hw]
    exact hnodup.filter _
  refine ⟨_, _, buildNeedsTable_fresh ctx needed hown, ?_, ?_, hnd, ?_⟩
  · rw [sum_lengths_eq_length_flatMap
      (fun w : Nat => needed.filter (fun g => ProcForSite ctx g = (w : Int))), hperm.length_eq]
  · rw [← List.flatMap_def]
    exact hperm
  · intro calls hcalls
    exact hnd (hcalls ▸ registerAll_fresh_nodup ctx calls)

/-- Witness for C25 on a need set of three sites spread over the two workers of the
scenario. -/
theorem C25_witness :
    OwnersInRange (scenario.ctx 0) [100, 5, 101]
      ∧ ∃ needsIHaveFromEachProc countOfNeedsIHaveFromEachProc,
          buildNeedsTable (scenario.ctx 0) [100, 5, 101]
              (List.replicate (scenario.ctx 0).GetSize [],
                List.replicate (scenario.ctx 0).GetSize 0)
              = .ok (needsIHaveFromEachProc, countOfNeedsIHaveFromEachProc)
            ∧ countOfNeedsIHaveFromEachProc.sum
                = ((([100, 5, 101] : List site_t).length : Nat) : Int)
            ∧ List.Perm needsIHaveFromEachProc.flatten [100, 5, 101]
            ∧ (([100, 5, 101] : List site_t).Nodup → ∀ l ∈ needsIHaveFromEachProc, l.Nodup)
            ∧ (∀ calls : List (site_t × RequiredSiteInformation),
                [100, 5, 101]
                    = ((NeighbouringDataManager.new (scenario.ctx 0)).registerAll
                        calls).neededSites →
                  ∀ l ∈ needsIHaveFromEachProc, l.Nodup) :=
  ⟨by decide, C25_partition_is_rearrangement (scenario.ctx 0) [100, 5, 101] (by decide)⟩

/-! ## Sites owned by the worker itself -/

theorem mem_static_log_of_receive (ctx : Context) (s : NeighbouringDataManager) (g : site_t)
    (hg : g ∈ s.neededSites) (op : Op) (hop : op ∈ staticReceives ctx g) :
    op ∈ (TransferNonFieldDependentInformation ctx s).2 := by
  apply List.mem_append_left
  apply List.mem_append_left
  rw [staticReceiveLoop, List.mem_flatMap]
  exact ⟨g, hg, hop⟩

theorem mem_static_log_of_send (ctx : Context) (s : NeighbouringDataManager) (g : site_t)
    (r : Nat) (hr : r < ctx.GetSize) (hg : g ∈ s.needsEachProcHasFromMe.getD r [])
    (op : Op) (hop : op ∈ staticSends ctx r g) :
    op ∈ (TransferNonFieldDependentInformation ctx s).2 := by
  apply List.mem_append_left
  apply List.mem_append_right
  rw [staticSendLoop, List.mem_flatMap]
  exact ⟨r, by simpa using hr, List.mem_flatMap.2 ⟨g, hg, hop⟩⟩

theorem TransferField_ok_log (ctx : Context) (input : NegotiationInput)
    (s s1 : NeighbouringDataManager) (log : List Op)
    (h : TransferFieldDependentInformation ctx input s = .ok (s1, log)) :
    s1.neededSites = s.neededSites
      ∧ ∃ shareOps, log = shareOps ++ fieldReceiveLoop ctx s1.neededSites
          ++ fieldSendLoop ctx s1.needsEachProcHasFromMe ++ [Op.Dispatch] := by
  refine ⟨TransferField_ok_neededSites ctx input s (s1, log) h, ?_⟩
  by_cases hs : s.needsHaveBeenShared = true
  · rw [TransferField_latched ctx input s hs] at h
    simp only [Except.ok.injEq, Prod.mk.injEq] at h
    obtain ⟨h1, h2⟩ := h
    subst h1
    exact ⟨[], by rw [← h2]; rfl⟩
  · have hs2 : s.needsHaveBeenShared = false := by simpa using hs
    obtain ⟨shareOps, _, hlog⟩ := TransferField_ok_unlatched ctx input s s1 log hs2 h
    exact ⟨shareOps, hlog⟩

/-- C26: sites owned by the worker itself are not filtered out; the manager never
reads its own rank, so the following holds for every rank `r` in `[0, P)`, the
worker's own included, and every site `g` owned by `r`. `RegisterNeededSite(g)`
puts `g` in `neededSites` like any other site. `ShareNeeds` on the state reached
(latch clear, table of `P` lists, owners in range, usable fabric data) returns and
queues `RequestSendV` to `r` with a payload holding `g` and `RequestReceiveV` from
`r`; the dynamic transfer run instead returns with these two and with
`RequestReceive` of the distribution vector of `g` from `r` in its log. In every
state with `g` in `neededSites` the static transfer queues the four receives for
`g` with source `r` and every dynamic transfer that returns queues the receive for
`g` with source `r`; in every state with `g` in `needsEachProcHasFromMe[r]` the
static transfer queues the four sends of the local site of `g` with destination
`r` and every dynamic transfer that returns with `g` in that list queues the send
with destination `r`; on a latched manager the dynamic transfer always returns.
Worker 0 of the scenario partition needing its own site 5 shows all of it: the
negotiation sends `[5]` to rank 0, and both transfers queue receives from rank 0
and sends to rank 0. -/
theorem C26_own_sites_not_filtered (ctx : Context) (input : NegotiationInput)
    (s : NeighbouringDataManager) (g : site_t) (req : RequiredSiteInformation) (r : Nat)
    (hr : r < ctx.GetSize) (hg : ProcForSite ctx g = (r : Int))
    (hs : s.needsHaveBeenShared = false)
    (hlen : s.needsEachProcHasFromMe.length = ctx.GetSize)
    (hown : OwnersInRange ctx s.neededSites) (hfit : InputFits ctx input) :
    (s.RegisterNeededSite g req).neededSites
        = s.neededSites ++ (if g ∈ s.neededSites then [] else [g])
      ∧ g ∈ (s.RegisterNeededSite g req).neededSites
      ∧ (∃ s1 log, ShareNeeds ctx input (s.RegisterNeededSite g req) = .ok (s1, log)
          ∧ Op.RequestSendV
              ((s.RegisterNeededSite g req).neededSites.filter
                (fun k => ProcForSite ctx k = (r : Int))) (r : Int) ∈ log
          ∧ g ∈ (s.RegisterNeededSite g req).neededSites.filter
                (fun k => ProcForSite ctx k = (r : Int))
          ∧ Op.RequestReceiveV (input.countOfNeedsOnEachProcFromMe r).toNat (r : Int) ∈ log)
      ∧ (∃ s1 log,
          TransferFieldDependentInformation ctx input (s.RegisterNeededSite g req)
              = .ok (s1, log)
            ∧ Op.RequestSendV
                ((s.RegisterNeededSite g req).neededSites.filter
                  (fun k => ProcForSite ctx k = (r : Int))) (r : Int) ∈ log
            ∧ Op.RequestReceiveV (input.countOfNeedsOnEachProcFromMe r).toNat (r : Int) ∈ log
            ∧ Op.RequestReceive (Buffer.neighbouringSite g Field.FOld)
                (ctx.GetNumVectors : Int) (r : Int) ∈ log)
      ∧ (∀ s2 : NeighbouringDataManager, g ∈ s2.neededSites →
          Op.RequestReceiveR (Buffer.neighbouringSite g Field.IntersectionData) (r : Int)
              ∈ (TransferNonFieldDependentInformation ctx s2).2
            ∧ Op.RequestReceiveR (Buffer.neighbouringSite g Field.OtherRawData) (r : Int)
              ∈ (TransferNonFieldDependentInformation ctx s2).2
            ∧ Op.RequestReceive (Buffer.neighbouringSite g Field.WallDistances)
                ((ctx.GetNumVectors : Int) - 1) (r : Int)
              ∈ (TransferNonFieldDependentInformation ctx s2).2
            ∧ Op.RequestReceiveR (Buffer.neighbouringSite g Field.WallNormal) (r : Int)
              ∈ (TransferNonFieldDependentInformation ctx s2).2)
      ∧ (∀ (input2 : NegotiationInput) (s2 s3 : NeighbouringDataManager) (log : List Op),
          TransferFieldDependentInformation ctx input2 s2 = .ok (s3, log) →
          g ∈ s2.neededSites →
            Op.RequestReceive (Buffer.neighbouringSite g Field.FOld)
                (ctx.GetNumVectors : Int) (r : Int) ∈ log)
      ∧ (∀ s2 : NeighbouringDataManager, g ∈ s2.needsEachProcHasFromMe.getD r [] →
          Op.RequestSendR
              (Buffer.localSite (ctx.GetLocalContiguousIdFromGlobalNoncontiguousId g)
                Field.IntersectionData) (r : Int)
              ∈ (TransferNonFieldDependentInformation ctx s2).2
            ∧ Op.RequestSendR
                (Buffer.localSite (ctx.GetLocalContiguousIdFromGlobalNoncontiguousId g)
                  Field.OtherRawData) (r : Int)
              ∈ (TransferNonFieldDependentInformation ctx s2).2
            ∧ Op.RequestSend
                (Buffer.localSite (ctx.GetLocalContiguousIdFromGlobalNoncontiguousId g)
                  Field.WallDistances) ((ctx.GetNumVectors : Int) - 1) (r : Int)
              ∈ (TransferNonFieldDependentInformation ctx s2).2
            ∧ Op.RequestSendR
                (Buffer.localSite (ctx.GetLocalContiguousIdFromGlobalNoncontiguousId g)
                  Field.WallNormal) (r : Int)
              ∈ (TransferNonFieldDependentInformation ctx s2).2)
      ∧ (∀ (input2 : NegotiationInput) (s2 s3 : NeighbouringDataManager) (log : List Op),
          TransferFieldDependentInformation ctx input2 s2 = .ok (s3, log) →
          g ∈ s3.needsEachProcHasFromMe.getD r [] →
            Op.RequestSend
                (Buffer.localSite (ctx.GetLocalContiguousIdFromGlobalNoncontiguousId g)
                  Field.FOld) (ctx.GetNumVectors : Int) (r : Int) ∈ log)
      ∧ (∀ (input2 : NegotiationInput) (s2 : NeighbouringDataManager),
          s2.needsHaveBeenShared = true →
            ∃ log, TransferFieldDependentInformation ctx input2 s2 = .ok (s2, log))
      ∧ (ShareNeeds (scenario.ctx 0) selfInput
            ((NeighbouringDataManager.new (scenario.ctx 0)).RegisterNeededSite 5 ⟨[]⟩)
          = .ok (selfServing,
              [ Op.RequestAllToAllSend [1, 0], Op.RequestAllToAllReceive 2, Op.Dispatch,
                Op.RequestSendV [5] 0, Op.RequestReceiveV 1 0,
                Op.RequestSendV [] 1, Op.RequestReceiveV 0 1, Op.Dispatch ])
          ∧ TransferNonFieldDependentInformation (scenario.ctx 0) selfServing
            = (selfServing,
                [ Op.RequestReceiveR (Buffer.neighbouringSite 5 Field.IntersectionData) 0,
                  Op.RequestReceiveR (Buffer.neighbouringSite 5 Field.OtherRawData) 0,
                  Op.RequestReceive (Buffer.neighbouringSite 5 Field.WallDistances) 14 0,
                  Op.RequestReceiveR (Buffer.neighbouringSite 5 Field.WallNormal) 0,
                  Op.RequestSendR (Buffer.localSite 5 Field.IntersectionData) 0,
                  Op.RequestSendR (Buffer.localSite 5 Field.OtherRawData) 0,
                  Op.RequestSend (Buffer.localSite 5 Field.WallDistances) 14 0,
                  Op.RequestSendR (Buffer.localSite 5 Field.WallNormal) 0,
                  Op.Dispatch ])
          ∧ TransferFieldDependentInformation (scenario.ctx 0) quietInput selfServing
            = .ok (selfServing,
                [ Op.RequestReceive (Buffer.neighbouringSite 5 Field.FOld) 15 0,
                  Op.RequestSend (Buffer.localSite 5 Field.FOld) 15 0,
                  Op.Dispatch ])) := by
  have hreg : (s.RegisterNeededSite g req).neededSites
      = s.neededSites ++ (if g ∈ s.neededSites then [] else [g]) := by
    by_cases h : g ∈ s.neededSites
    · rw [registerNeededSite_of_mem s g req h, if_pos h, List.append_nil]
    · rw [registerNeededSite_of_not_mem s g req h, if_neg h]
  have hmem := mem_registerNeededSite s g req
  have hs' : (s.RegisterNeededSite g req).needsHaveBeenShared = false := by
    by_cases h : g ∈ s.neededSites
    · rw [registerNeededSite_of_mem s g req h]; exact hs
    · rw [registerNeededSite_of_not_mem s g req h]; exact hs
  have hlen' : (s.RegisterNeededSite g req).needsEachProcHasFromMe.length = ctx.GetSize := by
    by_cases h : g ∈ s.neededSites
    · rw [registerNeededSite_of_mem s g req h]; exact hlen
    · rw [registerNeededSite_of_not_mem s g req h]; exact hlen
  have hown' : OwnersInRange ctx (s.RegisterNeededSite g req).neededSites := by
    intro k hk
    rw [hreg, List.mem_append] at hk
    rcases hk with hk | hk
    · exact hown k hk
    · by_cases h : g ∈ s.neededSites
      · rw [if_pos h] at hk; simp at hk
      · rw [if_neg h] at hk
        have hkg : k = g := by simpa using hk
        rw [hkg, hg]
        exact ⟨Int.natCast_nonneg r, by exact_mod_cast hr⟩
  have hshare := ShareNeeds_unshared ctx input _ hs' hlen' hown' hfit
  have hfilter : g ∈ (s.RegisterNeededSite g req).neededSites.filter
      (fun k => ProcForSite ctx k = (r : Int)) :=
    List.mem_filter.2 ⟨hmem, by simpa using hg⟩
  have hsendV := sendV_mem_shareLog
      ((List.range ctx.GetSize).map (fun w : Nat =>
        (((s.RegisterNeededSite g req).neededSites.filter
          (fun k => ProcForSite ctx k = (w : Int))).length : Int)))
      ctx.GetSize
      (fun w : Nat => (s.RegisterNeededSite g req).neededSites.filter
        (fun k => ProcForSite ctx k = (w : Int)))
      (fun w : Nat => (input.countOfNeedsOnEachProcFromMe w).toNat) ctx.GetSize r hr
  have hrecvV : Op.RequestReceiveV (input.countOfNeedsOnEachProcFromMe r).toNat (r : Int)
      ∈ [Op.RequestAllToAllSend ((List.range ctx.GetSize).map (fun w : Nat =>
            (((s.RegisterNeededSite g req).neededSites.filter
              (fun k => ProcForSite ctx k = (w : Int))).length : Int))),
         Op.RequestAllToAllReceive ctx.GetSize, Op.Dispatch]
        ++ (List.range ctx.GetSize).flatMap (fun w : Nat =>
            [Op.RequestSendV
                ((s.RegisterNeededSite g req).neededSites.filter
                  (fun k => ProcForSite ctx k = (w : Int))) (w : Int),
             Op.RequestReceiveV (input.countOfNeedsOnEachProcFromMe w).toNat (w : Int)])
        ++ [Op.Dispatch] := by
    apply List.mem_append_left
    apply List.mem_append_right
    rw [List.mem_flatMap]
    exact ⟨r, by simpa using hr, by simp⟩
  have hfr : fieldReceive ctx g
      = Op.RequestReceive (Buffer.neighbouringSite g Field.FOld) (ctx.GetNumVectors : Int)
          (r : Int) := by
    rw [fieldReceive, hg]
  refine ⟨hreg, hmem, ⟨_, _, hshare, hsendV, hfilter, hrecvV⟩, ?_, ?_, ?_, ?_, ?_, ?_, ?_⟩
  · refine ⟨_, _, TransferField_unlatched ctx input _ _ _ hs' hshare, ?_, ?_, ?_⟩
    · exact List.mem_append_left _ (List.mem_append_left _ (List.mem_append_left _ hsendV))
    · exact List.mem_append_left _ (List.mem_append_left _ (List.mem_append_left _ hrecvV))
    · rw [← hfr]
      apply List.mem_append_left
      apply List.mem_append_left
      apply List.mem_append_right
      exact List.mem_map.2 ⟨g, hmem, rfl⟩
  · intro s2 hg2
    refine ⟨?_, ?_, ?_, ?_⟩ <;>
      exact mem_static_log_of_receive ctx s2 g hg2 _ (by simp [staticReceives, hg])
  · intro input2 s2 s3 log h hg2
    obtain ⟨hneed, shareOps, hlog⟩ := TransferField_ok_log ctx input2 s2 s3 log h
    rw [hlog, ← hfr]
    apply List.mem_append_left
    apply List.mem_append_left
    apply List.mem_append_right
    exact List.mem_map.2 ⟨g, by rw [hneed]; exact hg2, rfl⟩
  · intro s2 hg2
    refine ⟨?_, ?_, ?_, ?_⟩ <;>
      exact mem_static_log_of_send ctx s2 g r hr hg2 _ (by simp [staticSends])
  · intro input2 s2 s3 log h hg3
    obtain ⟨_, shareOps, hlog⟩ := TransferField_ok_log ctx input2 s2 s3 log h
    rw [hlog]
    apply List.mem_append_left
    apply List.mem_append_right
    rw [fieldSendLoop, List.mem_flatMap]
    exact ⟨r, by simpa using hr, List.mem_map.2 ⟨g, hg3, rfl⟩⟩
  · intro input2 s2 hs2
    exact ⟨_, TransferField_latched ctx input2 s2 hs2⟩
  · exact ⟨rfl, by decide, rfl⟩


/-- Witness for C26: worker 0 of the scenario partition registers site 5, which it
owns itself. -/
theorem C26_witness :
    (0 < (scenario.ctx 0).GetSize
        ∧ ProcForSite (scenario.ctx 0) 5 = ((0 : Nat) : Int)
        ∧ (NeighbouringDataManager.new (scenario.ctx 0)).needsHaveBeenShared = false
        ∧ (NeighbouringDataManager.new (scenario.ctx 0)).needsEachProcHasFromMe.length
            = (scenario.ctx 0).GetSize
        ∧ OwnersInRange (scenario.ctx 0) (NeighbouringDataManager.new (scenario.ctx 0)).neededSites
        ∧ InputFits (scenario.ctx 0) selfInput)
      ∧ (((NeighbouringDataManager.new (scenario.ctx 0)).RegisterNeededSite 5 ⟨[]⟩).neededSites
            = (NeighbouringDataManager.new (scenario.ctx 0)).neededSites
              ++ (if (5 : site_t) ∈ (NeighbouringDataManager.new (scenario.ctx 0)).neededSites
                  then [] else [5])
          ∧ (5 : site_t)
              ∈ ((NeighbouringDataManager.new (scenario.ctx 0)).RegisterNeededSite 5
                  ⟨[]⟩).neededSites
          ∧ (∃ s1 log,
              ShareNeeds (scenario.ctx 0) selfInput
                  ((NeighbouringDataManager.new (scenario.ctx 0)).RegisterNeededSite 5 ⟨[]⟩)
                  = .ok (s1, log)
                ∧ Op.RequestSendV
                    (((NeighbouringDataManager.new (scenario.ctx 0)).RegisterNeededSite 5
                        ⟨[]⟩).neededSites.filter
                      (fun k => ProcForSite (scenario.ctx 0) k = ((0 : Nat) : Int)))
                    ((0 : Nat) : Int) ∈ log
                ∧ (5 : site_t)
                    ∈ ((NeighbouringDataManager.new (scenario.ctx 0)).RegisterNeededSite 5
                        ⟨[]⟩).neededSites.filter
                      (fun k => ProcForSite (scenario.ctx 0) k = ((0 : Nat) : Int))
                ∧ Op.RequestReceiveV (selfInput.countOfNeedsOnEachProcFromMe 0).toNat
                    ((0 : Nat) : Int) ∈ log)
          ∧ (∃ s1 log,
              TransferFieldDependentInformation (scenario.ctx 0) selfInput
                  ((NeighbouringDataManager.new (scenario.ctx 0)).RegisterNeededSite 5 ⟨[]⟩)
                  = .ok (s1, log)
                ∧ Op.RequestSendV
                    (((NeighbouringDataManager.new (scenario.ctx 0)).RegisterNeededSite 5
                        ⟨[]⟩).neededSites.filter
                      (fun k => ProcForSite (scenario.ctx 0) k = ((0 : Nat) : Int)))
                    ((0 : Nat) : Int) ∈ log
                ∧ Op.RequestReceiveV (selfInput.countOfNeedsOnEachProcFromMe 0).toNat
                    ((0 : Nat) : Int) ∈ log
                ∧ Op.RequestReceive (Buffer.neighbouringSite 5 Field.FOld)
                    ((scenario.ctx 0).GetNumVectors : Int) ((0 : Nat) : Int) ∈ log)
          ∧ (∀ s2 : NeighbouringDataManager, (5 : site_t) ∈ s2.neededSites →
              Op.RequestReceiveR (Buffer.neighbouringSite 5 Field.IntersectionData)
                  ((0 : Nat) : Int)
                  ∈ (TransferNonFieldDependentInformation (scenario.ctx 0) s2).2
                ∧ Op.RequestReceiveR (Buffer.neighbouringSite 5 Field.OtherRawData)
                    ((0 : Nat) : Int)
                  ∈ (TransferNonFieldDependentInformation (scenario.ctx 0) s2).2
                ∧ Op.RequestReceive (Buffer.neighbouringSite 5 Field.WallDistances)
                    (((scenario.ctx 0).GetNumVectors : Int) - 1) ((0 : Nat) : Int)
                  ∈ (TransferNonFieldDependentInformation (scenario.ctx 0) s2).2
                ∧ Op.RequestReceiveR (Buffer.neighbouringSite 5 Field.WallNormal)
                    ((0 : Nat) : Int)
                  ∈ (TransferNonFieldDependentInformation (scenario.ctx 0) s2).2)
          ∧ (∀ (input2 : NegotiationInput) (s2 s3 : NeighbouringDataManager) (log : List Op),
              TransferFieldDependentInformation (scenario.ctx 0) input2 s2 = .ok (s3, log) →
              (5 : site_t) ∈ s2.neededSites →
                Op.RequestReceive (Buffer.neighbouringSite 5 Field.FOld)
                    ((scenario.ctx 0).GetNumVectors : Int) ((0 : Nat) : Int) ∈ log)
          ∧ (∀ s2 : NeighbouringDataManager,
              (5 : site_t) ∈ s2.needsEachProcHasFromMe.getD 0 [] →
              Op.RequestSendR
                  (Buffer.localSite
                    ((scenario.ctx 0).GetLocalContiguousIdFromGlobalNoncontiguousId 5)
                    Field.IntersectionData) ((0 : Nat) : Int)
                  ∈ (TransferNonFieldDependentInformation (scenario.ctx 0) s2).2
                ∧ Op.RequestSendR
                    (Buffer.localSite
                      ((scenario.ctx 0).GetLocalContiguousIdFromGlobalNoncontiguousId 5)
                      Field.OtherRawData) ((0 : Nat) : Int)
                  ∈ (TransferNonFieldDependentInformation (scenario.ctx 0) s2).2
                ∧ Op.RequestSend
                    (Buffer.localSite
                      ((scenario.ctx 0).GetLocalContiguousIdFromGlobalNoncontiguousId 5)
                      Field.WallDistances) (((scenario.ctx 0).GetNumVectors : Int) - 1)
                    ((0 : Nat) : Int)
                  ∈ (TransferNonFieldDependentInformation (scenario.ctx 0) s2).2
                ∧ Op.RequestSendR
                    (Buffer.localSite
                      ((scenario.ctx 0).GetLocalContiguousIdFromGlobalNoncontiguousId 5)
                      Field.WallNormal) ((0 : Nat) : Int)
                  ∈ (TransferNonFieldDependentInformation (scenario.ctx 0) s2).2)
          ∧ (∀ (input2 : NegotiationInput) (s2 s3 : NeighbouringDataManager) (log : List Op),
              TransferFieldDependentInformation (scenario.ctx 0) input2 s2 = .ok (s3, log) →
              (5 : site_t) ∈ s3.needsEachProcHasFromMe.getD 0 [] →
                Op.RequestSend
                    (Buffer.localSite
                      ((scenario.ctx 0).GetLocalContiguousIdFromGlobalNoncontiguousId 5)
                      Field.FOld) ((scenario.ctx 0).GetNumVectors : Int) ((0 : Nat) : Int)
                  ∈ log)
          ∧ (∀ (input2 : NegotiationInput) (s2 : NeighbouringDataManager),
              s2.needsHaveBeenShared = true →
                ∃ log, TransferFieldDependentInformation (scenario.ctx 0) input2 s2
                  = .ok (s2, log))
          ∧ (ShareNeeds (scenario.ctx 0) selfInput
                ((NeighbouringDataManager.new (scenario.ctx 0)).RegisterNeededSite 5 ⟨[]⟩)
              = .ok (selfServing,
                  [ Op.RequestAllToAllSend [1, 0], Op.RequestAllToAllReceive 2, Op.Dispatch,
                    Op.RequestSendV [5] 0, Op.RequestReceiveV 1 0,
                    Op.RequestSendV [] 1, Op.RequestReceiveV 0 1, Op.Dispatch ])
              ∧ TransferNonFieldDependentInformation (scenario.ctx 0) selfServing
                = (selfServing,
                    [ Op.RequestReceiveR (Buffer.neighbouringSite 5 Field.IntersectionData) 0,
                      Op.RequestReceiveR (Buffer.neighbouringSite 5 Field.OtherRawData) 0,
                      Op.RequestReceive (Buffer.neighbouringSite 5 Field.WallDistances) 14 0,
                      Op.RequestReceiveR (Buffer.neighbouringSite 5 Field.WallNormal) 0,
                      Op.RequestSendR (Buffer.localSite 5 Field.IntersectionData) 0,
                      Op.RequestSendR (Buffer.localSite 5 Field.OtherRawData) 0,
                      Op.RequestSend (Buffer.localSite 5 Field.WallDistances) 14 0,
                      Op.RequestSendR (Buffer.localSite 5 Field.WallNormal) 0,
                      Op.Dispatch ])
              ∧ TransferFieldDependentInformation (scenario.ctx 0) quietInput selfServing
                = .ok (selfServing,
                    [ Op.RequestReceive (Buffer.neighbouringSite 5 Field.FOld) 15 0,
                      Op.RequestSend (Buffer.localSite 5 Field.FOld) 15 0,
                      Op.Dispatch ]))) :=
  ⟨⟨by decide, by decide, by decide, by decide, by decide, by decide⟩,
    C26_own_sites_not_filtered (scenario.ctx 0) selfInput
      (NeighbouringDataManager.new (scenario.ctx 0)) 5 ⟨[]⟩ 0
      (by decide) (by decide) (by decide) (by decide) (by decide) (by decide)⟩


end Hemelb
